import Mathlib

/-!
# sb-loader: a shallow embedding of `sb_loader.h` / `sb_loader.cpp`

The development follows the two source files of the SlideBook test converter:

* `util::RangePrinter<N>` (zero padded index labels),
* `CaptureDataFrame` (per capture metadata, read through `III::SBReadFile`),
* `ConvertSBImages` (the capture / timepoint / channel / Z traversal).

Conventions of the embedding.

* C++ `int`, `SInt32`, `UInt32`, `UInt16` and `std::size_t` values are integers; every
  conversion between them and every arithmetic operation of the source is followed by the
  reduction of its C++ type (`toSInt32`, `toUInt16`, `toSizeT`).  Signed overflow is given
  its two's complement value.
* `std::string` is the list of its characters.
* `III::SBReadFile` is an interface whose implementation is a vendor library; it is a
  parameter of the embedding (a record of query functions).  A query either returns or
  raises an `III::Exception`, as the header documents.
* A run of the program is described by the events it produces (reader string queries,
  allocations, plane reads, printed lines) and by how it ends.
-/

namespace SBLoader

/-! ## Machine integers -/

/-- Largest value of a C++ `int` (32 bit). -/
def INT_MAX : Int := 2147483647

/-- Smallest value of a C++ `int` (32 bit). -/
def INT_MIN : Int := -2147483648

/-- Conversion to `SInt32` / `int`: the value modulo `2^32` in `[-2^31, 2^31)`. -/
def toSInt32 (x : Int) : Int := (x + 2147483648) % 4294967296 - 2147483648

/-- Conversion to `UInt16` (`PlaneIndex`): the value modulo `2^16`. -/
def toUInt16 (x : Int) : Int := x % 65536

/-- Conversion to `std::size_t` (64 bit): the value modulo `2^64`. -/
def toSizeT (x : Int) : Int := x % 18446744073709551616

/-! ## Decimal formatting (`fmt`) -/

/-- Decimal digits of `n`, most significant first; `fuel` bounds the number of digits. -/
def decDigits : Nat → Nat → List Char
  | 0, _ => []
  | fuel + 1, n =>
    if n < 10 then [Nat.digitChar n]
    else decDigits fuel (n / 10) ++ [Nat.digitChar (n % 10)]

/-- The decimal representation of a natural number (`"0"` for zero). -/
def toDecimal (n : Nat) : List Char := decDigits (n + 1) n

/-- The text `fmt` produces for an `int` under the replacement field `{}`. -/
def fmtInt (x : Int) : List Char :=
  (if x < 0 then ['-'] else []) ++ toDecimal x.natAbs

/-- The text of `fmt::format("{:0{}}", x, w)` for `int` arguments: sign aware zero padding
to the dynamic width `w`.  A negative dynamic width makes `fmt` throw `format_error`
(`none`). The output is never truncated. -/
def fmtZeroPad (x : Int) (w : Int) : Option (List Char) :=
  if w < 0 then none
  else
    let sign : List Char := if x < 0 then ['-'] else []
    let digits := toDecimal x.natAbs
    some (sign ++ List.replicate (w.toNat - (sign.length + digits.length)) '0' ++ digits)

/-- The value of `floor(log10(x))` for an integer `x ≥ 1`, by repeated division; `fuel`
bounds the number of divisions. -/
def floorLog10 : Nat → Nat → Nat
  | 0, _ => 0
  | fuel + 1, x => if x < 10 then 0 else floorLog10 fuel (x / 10) + 1

/-! ## `util::RangePrinter<N>` (sb_loader.h, lines 14-26) -/

/-- The class `util::RangePrinter<N>`. The member `max` is never written nor read.
`numDigits` is `none` when the source leaves its value undefined: the default constructor
does not initialise it, and for `m + N < 0` the initialiser converts a NaN to `int`. -/
structure RangePrinter (N : Int) where
  numDigits : Option Int
deriving DecidableEq

/-- The default constructor `RangePrinter() {}`. -/
def RangePrinter.default (N : Int) : RangePrinter N := ⟨none⟩

/-- The constructor `RangePrinter(int m)`:
`numDigits(m + N == 0 ? 1 : (int)(floor(log10(m + N)) + 1))`.
The sum `m + N` is an `int`. For a positive sum `floor(log10 _)` is computed on the
exactly converted `double`; it is taken to be the mathematical value (the `log10` of the
fdlibm family returns `k` at `10^k`, and below `2^31` no other argument is close enough to
a power of ten to be rounded onto it). -/
def RangePrinter.new (N : Int) (m : Int) : RangePrinter N :=
  let s := toSInt32 (m + N)
  if s = 0 then ⟨some 1⟩
  else if 0 < s then ⟨some ((floorLog10 s.toNat s.toNat : Nat) + 1)⟩
  else ⟨none⟩

/-- The member `std::string string(int v) const`:
`fmt::format("{:0{}}", v + N, numDigits)`. `none` when `numDigits` is undefined or `fmt`
rejects the width. -/
def RangePrinter.string {N : Int} (p : RangePrinter N) (v : Int) : Option (List Char) :=
  match p.numDigits with
  | none => none
  | some w => fmtZeroPad (toSInt32 (v + N)) w

/-! ## The reader interface `III::SBReadFile` (SBReadFile.h) -/

/-- The class `III::Exception`: what a reader raises when a failure is not masked. -/
structure Exception where
  RdState : Nat
  GetLastError : Nat
  GetDescription : List Char
deriving DecidableEq

/-- The constant `III::kAllExceptionsMasked`. -/
def kAllExceptionsMasked : Nat := 0x00000000

/-- The constant `III::kNoExceptionsMasked`. -/
def kNoExceptionsMasked : Nat := 0xFFFFFFFF

/-- The error flag `III::SBReadFile::eFailbit`. -/
def eFailbit : Nat := 2

/-- An IEEE single precision value, given by its bit pattern. The program only stores and
prints such values. -/
structure Float32 where
  bits : Nat
deriving DecidableEq

/-- The `float` value of the literal `1.0`. -/
def Float32.one : Float32 := ⟨0x3F800000⟩

/-- The NUL character that ends a C string. -/
def NUL : Char := Char.ofNat 0

/-- What a two-phase string getter does in one call: the `UInt32` it returns and the
characters it stores through the buffer pointer, from index 0 on (nothing for a null
pointer). -/
structure StringReply where
  ret : Nat
  written : List Char

/-- What `GetVoxelSize` does in one call: the `bool` it returns and the values it stores in
the three output references (`none`: the reference is left untouched). -/
structure VoxelReply where
  ret : Bool
  outX : Option Float32
  outY : Option Float32
  outZ : Option Float32

/-- The pointers to member `UInt32 (SBReadFile::*)(char *, const CaptureIndex) const` the
program takes. -/
inductive StringGetter
  | GetImageName
  | GetImageComments
  | GetCaptureDate
  | GetLensName
deriving DecidableEq

/-- The pointers to member
`UInt32 (SBReadFile::*)(char *, const CaptureIndex, const ChannelIndex) const` the program
takes. -/
inductive ChannelStringGetter
  | GetChannelName
deriving DecidableEq

/-- The part of the interface `III::SBReadFile` the program calls. Every method is `const`:
its answer is a function of its arguments. A string getter is told whether the buffer
pointer is non-null. `ReadImagePlaneBuf` is the overload without stride; its arguments are
capture, position, timepoint, Z plane (a `UInt16`) and channel. -/
structure SBReadFile where
  Exceptions : Nat
  GetNumCaptures : Except Exception Int
  GetNumPositions : Int → Except Exception Int
  GetNumXColumns : Int → Except Exception Int
  GetNumYRows : Int → Except Exception Int
  GetNumZPlanes : Int → Except Exception Int
  GetNumTimepoints : Int → Except Exception Int
  GetNumChannels : Int → Except Exception Int
  GetExposureTime : Int → Int → Except Exception Nat
  GetVoxelSize : Int → Except Exception VoxelReply
  GetElapsedTime : Int → Int → Except Exception Nat
  GetChannelName : Bool → Int → Int → Except Exception StringReply
  GetLensName : Bool → Int → Except Exception StringReply
  GetImageName : Bool → Int → Except Exception StringReply
  GetImageComments : Bool → Int → Except Exception StringReply
  GetCaptureDate : Bool → Int → Except Exception StringReply
  ReadImagePlaneBuf : Int → Int → Int → Int → Int → Except Exception Bool

/-- The call `(sb_read_file->*sb_string_read)(buffer, capture_index)`. -/
def SBReadFile.call (r : SBReadFile) : StringGetter → Bool → Int → Except Exception StringReply
  | .GetImageName => r.GetImageName
  | .GetImageComments => r.GetImageComments
  | .GetCaptureDate => r.GetCaptureDate
  | .GetLensName => r.GetLensName

/-- The call `(sb_read_file->*sb_string_read)(buffer, capture_index, channel_index)`. -/
def SBReadFile.callChannel (r : SBReadFile) :
    ChannelStringGetter → Bool → Int → Int → Except Exception StringReply
  | .GetChannelName => r.GetChannelName

/-! ## Runs: events and endings -/

/-- What a run of the program does that can be observed from outside. -/
inductive Event
  /-- A string getter is called; `buffer` is `none` for a null pointer, else the size of the
  buffer passed. -/
  | stringQuery (getter : StringGetter) (buffer : Option Nat) (capture : Int)
  /-- A per-channel string getter is called. -/
  | channelStringQuery (getter : ChannelStringGetter) (buffer : Option Nat)
      (capture channel : Int)
  /-- The expression `new char[n]`. -/
  | newChars (n : Nat)
  /-- The statement `delete[] cbuff`. -/
  | deleteChars
  /-- The expression `new UInt16[n]`. -/
  | newPixels (n : Nat)
  /-- The statement `delete[] buffer`. -/
  | deletePixels
  /-- The call `ReadImagePlaneBuf(buffer + offset, capture, position, timepoint, zPlane,
  channel)`; `offset` counts samples. -/
  | readPlane (offset : Int) (capture position timepoint zPlane channel : Int)
  /-- A call of `fmt::print` with the text printed. -/
  | print (text : List Char)
deriving DecidableEq

/-- How a run ends when it does not reach the end of the code. -/
inductive Abort
  /-- The reader raised an `III::Exception`. -/
  | exception (e : Exception)
  /-- A C++ exception no handler of the program catches (`std::bad_array_new_length`). -/
  | uncaught
  /-- The behaviour is not defined by the language. -/
  | undefined
  /-- The process left through `EXIT(code)`. -/
  | exit (code : Int)
deriving DecidableEq

/-- A run: the events produced, in order, and the value returned or the way the run was
cut short. -/
structure Run (α : Type) where
  events : List Event
  result : Except Abort α

/-- A run that does nothing and returns `a`. -/
def Run.pure {α : Type} (a : α) : Run α := ⟨[], .ok a⟩

/-- Sequencing: the second part runs only when the first returned. -/
def Run.bind {α β : Type} (x : Run α) (f : α → Run β) : Run β :=
  match x.result with
  | .ok a => ⟨x.events ++ (f a).events, (f a).result⟩
  | .error e => ⟨x.events, .error e⟩

instance : Monad Run where
  pure := Run.pure
  bind := Run.bind

/-- A run that produces one event. -/
def Run.emit (e : Event) : Run Unit := ⟨[e], .ok ()⟩

/-- A run that is cut short. -/
def Run.abort {α : Type} (a : Abort) : Run α := ⟨[], .error a⟩

/-- The answer of a reader call: the value, or the exception propagates. -/
def Run.ofReader {α : Type} : Except Exception α → Run α
  | .ok a => ⟨[], .ok a⟩
  | .error e => ⟨[], .error (.exception e)⟩

/-- A value the language may leave undefined. -/
def Run.ofDefined {α : Type} : Option α → Run α
  | some a => ⟨[], .ok a⟩
  | none => ⟨[], .error .undefined⟩

/-- The loop `for (int i = start; i < start + count; i++) body`, after the bound has been
compared: `count` iterations from `start`, the state threaded through. -/
def forFrom {σ : Type} (body : Int → σ → Run σ) : Nat → Int → σ → Run σ
  | 0, _, s => Run.pure s
  | count + 1, i, s => Run.bind (body i s) (fun s1 => forFrom body count (i + 1) s1)

/-- The loop `for (int i = 0; i < n; i++) body`. No iteration when `n ≤ 0`. -/
def forInt {σ : Type} (n : Int) (body : Int → σ → Run σ) (s : σ) : Run σ :=
  forFrom body n.toNat 0 s

/-! ## `CaptureDataFrame` (sb_loader.h, lines 29-192) -/

/-- The class `CaptureDataFrame`, its data members in declaration order.
`channels_index`, `timepoint_index` and the components of `voxel_size` are `none` while
the source has not given them a value. -/
structure CaptureDataFrame where
  sb_read_file : SBReadFile
  number_captures : Int
  number_positions : Int
  number_channels : Int
  number_timepoints : Int
  capture_index : Int
  position_index : Int
  channels_index : Option Int
  timepoint_index : Option Int
  xDim : Int
  yDim : Int
  zDim : Int
  has_voxel_size : Bool
  voxel_size : Option Float32 × Option Float32 × Option Float32
  image_name : List Char
  image_comments : List Char
  capture_date : List Char
  lens_name : List Char
  channel_names : List (List Char)
  exposure_time : List Int
  capture_index_fmt : RangePrinter 1
  channel_index_fmt : RangePrinter 1
  position_index_fmt : RangePrinter 1
  timepoint_index_fmt : RangePrinter 1
  elapsed_range_fmt : RangePrinter 0

/-- The conversion `std::string(cbuff)` of a buffer of `cap` characters of which the
reader stored `written`: the characters before the first NUL. Undefined when the reader
stored more than the buffer holds or stored no NUL (the conversion then reads what was
never written). -/
def cString (cap : Nat) (written : List Char) : Option (List Char) :=
  if written.length ≤ cap ∧ NUL ∈ written then some (written.takeWhile (fun c => c != NUL))
  else none

/-- The static member `CaptureDataFrame::GetString` (lines 63-75). -/
def CaptureDataFrame.GetString (sb_read_file : SBReadFile) (capture_index : Int)
    (sb_string_read : StringGetter) : Run (List Char) := do
  Run.emit (.stringQuery sb_string_read none capture_index)
  let first ← Run.ofReader (sb_read_file.call sb_string_read false capture_index)
  let char_count := toSInt32 first.ret
  if 0 < char_count then do
    Run.emit (.newChars char_count.toNat)
    Run.emit (.stringQuery sb_string_read (some char_count.toNat) capture_index)
    let second ← Run.ofReader (sb_read_file.call sb_string_read true capture_index)
    let sb_data ← Run.ofDefined (cString char_count.toNat second.written)
    Run.emit .deleteChars
    pure sb_data
  else pure []

/-- The static member `CaptureDataFrame::GetString`, per-channel overload (lines 77-89). -/
def CaptureDataFrame.GetChannelString (sb_read_file : SBReadFile) (capture_index : Int)
    (channel_index : Int) (sb_string_read : ChannelStringGetter) : Run (List Char) := do
  Run.emit (.channelStringQuery sb_string_read none capture_index channel_index)
  let first ← Run.ofReader
    (sb_read_file.callChannel sb_string_read false capture_index channel_index)
  let char_count := toSInt32 first.ret
  if 0 < char_count then do
    Run.emit (.newChars char_count.toNat)
    Run.emit (.channelStringQuery sb_string_read (some char_count.toNat) capture_index
      channel_index)
    let second ← Run.ofReader
      (sb_read_file.callChannel sb_string_read true capture_index channel_index)
    let sb_data ← Run.ofDefined (cString char_count.toNat second.written)
    Run.emit .deleteChars
    pure sb_data
  else pure []

/-- The `voxel_size` array after `GetVoxelSize` stored `reply` into it. -/
def storeVoxel (old : Option Float32 × Option Float32 × Option Float32) (reply : VoxelReply) :
    Option Float32 × Option Float32 × Option Float32 :=
  (reply.outX.orElse (fun _ => old.1), reply.outY.orElse (fun _ => old.2.1),
    reply.outZ.orElse (fun _ => old.2.2))

/-- One iteration of the loop of the constructor body (lines 118-122): the two
`push_back`s for channel `i`. -/
def CaptureDataFrame.pushChannel (sb_read_file : SBReadFile) (capture_index : Int) (i : Int)
    (cp : CaptureDataFrame) : Run CaptureDataFrame := do
  let name ← CaptureDataFrame.GetChannelString sb_read_file capture_index i .GetChannelName
  let cp1 := { cp with channel_names := cp.channel_names ++ [name] }
  let exposure ← Run.ofReader (sb_read_file.GetExposureTime capture_index i)
  pure { cp1 with exposure_time := cp1.exposure_time ++ [toSInt32 exposure] }

/-- The member initialisers of the constructor (lines 92-110), in the declaration order of
the members; `has_voxel_size` has its default member initialiser, `voxel_size`,
`channels_index` and `timepoint_index` have none, the two vectors start empty. -/
def CaptureDataFrame.init (sb_read_file : SBReadFile) (capture_index : Int)
    (position_index : Int) : Run CaptureDataFrame := do
  let number_captures ← Run.ofReader sb_read_file.GetNumCaptures
  let number_positions ← Run.ofReader (sb_read_file.GetNumPositions capture_index)
  let number_channels ← Run.ofReader (sb_read_file.GetNumChannels capture_index)
  let number_timepoints ← Run.ofReader (sb_read_file.GetNumTimepoints capture_index)
  let xDim ← Run.ofReader (sb_read_file.GetNumXColumns capture_index)
  let yDim ← Run.ofReader (sb_read_file.GetNumYRows capture_index)
  let zDim ← Run.ofReader (sb_read_file.GetNumZPlanes capture_index)
  let image_name ← CaptureDataFrame.GetString sb_read_file capture_index .GetImageName
  let image_comments ← CaptureDataFrame.GetString sb_read_file capture_index .GetImageComments
  let capture_date ← CaptureDataFrame.GetString sb_read_file capture_index .GetCaptureDate
  let lens_name ← CaptureDataFrame.GetString sb_read_file capture_index .GetLensName
  let elapsed ← Run.ofReader
    (sb_read_file.GetElapsedTime capture_index (toSInt32 (number_timepoints - 1)))
  pure
    { sb_read_file := sb_read_file
      number_captures := number_captures
      number_positions := number_positions
      number_channels := number_channels
      number_timepoints := number_timepoints
      capture_index := capture_index
      position_index := position_index
      channels_index := none
      timepoint_index := none
      xDim := xDim
      yDim := yDim
      zDim := zDim
      has_voxel_size := false
      voxel_size := (none, none, none)
      image_name := image_name
      image_comments := image_comments
      capture_date := capture_date
      lens_name := lens_name
      channel_names := []
      exposure_time := []
      capture_index_fmt := RangePrinter.new 1 number_captures
      channel_index_fmt := RangePrinter.new 1 number_channels
      position_index_fmt := RangePrinter.new 1 number_positions
      timepoint_index_fmt := RangePrinter.new 1 number_timepoints
      elapsed_range_fmt := RangePrinter.new 0 (toSInt32 elapsed) }

/-- The frame after lines 112-116: the voxel size query and its default. -/
def CaptureDataFrame.setVoxel (cp : CaptureDataFrame) (reply : VoxelReply) : CaptureDataFrame :=
  let cp1 := { cp with has_voxel_size := reply.ret,
                       voxel_size := storeVoxel cp.voxel_size reply }
  if !cp1.has_voxel_size then
    { cp1 with voxel_size := (some Float32.one, some Float32.one, some Float32.one) }
  else cp1

/-- The body of the constructor (lines 111-124), run on the initialised members. -/
def CaptureDataFrame.body (sb_read_file : SBReadFile) (capture_index : Int)
    (cp : CaptureDataFrame) : Run CaptureDataFrame := do
  let reply ← Run.ofReader (sb_read_file.GetVoxelSize capture_index)
  let cp2 := cp.setVoxel reply
  forInt cp2.number_channels (CaptureDataFrame.pushChannel sb_read_file capture_index) cp2

/-- The constructor `CaptureDataFrame(sb_read_file, capture_index, position_index)`
(lines 91-124): the member initialisers, then the body. -/
def CaptureDataFrame.new (sb_read_file : SBReadFile) (capture_index : Int)
    (position_index : Int) : Run CaptureDataFrame := do
  let cp ← CaptureDataFrame.init sb_read_file capture_index position_index
  CaptureDataFrame.body sb_read_file capture_index cp

/-- The member `GetHeader` (lines 126-131). -/
def CaptureDataFrame.GetHeader (cp : CaptureDataFrame) (capture_index position_index : Int) :
    List Char :=
  "capture ".toList ++ fmtInt (toSInt32 (capture_index + 1)) ++ " of ".toList
    ++ fmtInt cp.number_captures ++ " : position ".toList
    ++ fmtInt (toSInt32 (position_index + 1)) ++ " of ".toList ++ fmtInt cp.number_positions
    ++ ", time points: ".toList ++ fmtInt cp.number_timepoints ++ ", channels: ".toList
    ++ fmtInt cp.number_channels

/-! ## `ConvertSBImages` (sb_loader.cpp, lines 21-74) -/

/-- The statement of line 59, for one `z`: the plane read into `buffer + z * planeSize`.
The product is formed in `std::size_t`; the reader receives `z` as a `PlaneIndex`. The
value `ReadImagePlaneBuf` returns is discarded. -/
def readZ (sb_read_file : SBReadFile) (planeSize : Int) (capture_index timepoint_index c : Int)
    (z : Int) (cp : CaptureDataFrame) : Run CaptureDataFrame := do
  Run.emit (.readPlane (toSizeT (toSizeT z * planeSize)) capture_index 0 timepoint_index
    (toUInt16 z) c)
  let _ ← Run.ofReader
    (sb_read_file.ReadImagePlaneBuf capture_index 0 timepoint_index (toUInt16 z) c)
  pure cp

/-- The text of line 61. -/
def readBufferLine (capture_index timepoint_index c : Int) : List Char :=
  "read buffer capture: ".toList ++ fmtInt capture_index ++ " time: ".toList
    ++ fmtInt timepoint_index ++ " channel: ".toList ++ fmtInt c ++ "\n".toList

/-- The body of the channel loop (lines 55-62), for one `c`. -/
def channelBody (sb_read_file : SBReadFile) (planeSize : Int) (capture_index timepoint_index : Int)
    (c : Int) (cp : CaptureDataFrame) : Run CaptureDataFrame := do
  let cp1 := { cp with channels_index := some c }
  let cp2 ← forInt cp1.zDim (readZ sb_read_file planeSize capture_index timepoint_index c) cp1
  Run.emit (.print (readBufferLine capture_index timepoint_index c))
  pure cp2

/-- The body of the timepoint loop (lines 52-63), for one `timepoint_index`. -/
def timepointBody (sb_read_file : SBReadFile) (planeSize : Int) (capture_index : Int)
    (timepoint_index : Int) (cp : CaptureDataFrame) : Run CaptureDataFrame :=
  let cp1 := { cp with timepoint_index := some timepoint_index }
  forInt cp1.number_channels
    (channelBody sb_read_file planeSize capture_index timepoint_index) cp1

/-- The traversal of one capture (lines 43-63): timepoints, then channels, then Z. -/
def traversal (sb_read_file : SBReadFile) (planeSize : Int) (capture_index : Int)
    (cp : CaptureDataFrame) : Run CaptureDataFrame :=
  let cappedTime := cp.number_timepoints
  forInt cappedTime (timepointBody sb_read_file planeSize capture_index) cp

/-- The value of `std::size_t planeSize = cp.xDim * cp.yDim` (line 39): an `int` product
converted to `std::size_t`. -/
def planeSizeOf (cp : CaptureDataFrame) : Int := toSizeT (toSInt32 (cp.xDim * cp.yDim))

/-- The value of `int bufferSize = cp.xDim * cp.yDim * cp.zDim` (line 40): `int` products. -/
def bufferSizeOf (cp : CaptureDataFrame) : Int :=
  toSInt32 (toSInt32 (cp.xDim * cp.yDim) * cp.zDim)

/-- The body of the capture loop (lines 34-66), for one `capture_index`. A negative array
size makes `new` throw `std::bad_array_new_length`, which no handler catches; running out
of memory is not part of the embedding. -/
def captureBody (sb_read_file : SBReadFile) (capture_index : Int) (_ : Unit) : Run Unit := do
  let cp ← CaptureDataFrame.new sb_read_file capture_index 0
  Run.emit (.print (cp.GetHeader capture_index cp.position_index ++ "\n".toList))
  let planeSize := planeSizeOf cp
  let bufferSize := bufferSizeOf cp
  if bufferSize < 0 then Run.abort .uncaught
  else do
    Run.emit (.newPixels bufferSize.toNat)
    let _ ← traversal sb_read_file planeSize capture_index cp
    Run.emit .deletePixels

/-- The function body of `ConvertSBImages` (lines 22-67). `III_NewSBReadFile` stands for
the library function applied to the file name: given the exception mask it returns the
reader, a null pointer (`none`), or raises. -/
def ConvertSBImages.body (III_NewSBReadFile : Nat → Except Exception (Option SBReadFile)) :
    Run Unit := do
  let opened ← Run.ofReader (III_NewSBReadFile kNoExceptionsMasked)
  let sb_read_file ← Run.ofDefined opened
  Run.emit (.print "sb file loaded\n".toList)
  let captures ← Run.ofReader sb_read_file.GetNumCaptures
  Run.emit (.print ("captures: ".toList ++ fmtInt captures ++ "\n".toList))
  let number_captures ← Run.ofReader sb_read_file.GetNumCaptures
  forInt number_captures (captureBody sb_read_file) ()

/-- The function `ConvertSBImages` with its function-try-block (lines 21-74): an
`III::Exception` is reported and the process exits with status 1. -/
def ConvertSBImages (III_NewSBReadFile : Nat → Except Exception (Option SBReadFile)) :
    Run Unit :=
  let run := ConvertSBImages.body III_NewSBReadFile
  match run.result with
  | .error (.exception e) =>
    ⟨run.events ++ [.print ("Failed with exception: ".toList ++ e.GetDescription ++ "\n".toList)],
      .error (.exit 1)⟩
  | _ => run

/-! ## Observations on runs -/

/-- How a run was cut short, if it was. -/
def Run.ending {α : Type} (x : Run α) : Option Abort :=
  match x.result with
  | .ok _ => none
  | .error a => some a

/-- The `(timepoint, channel, zPlane)` arguments of the plane reads among `events`, in the
order the reader received them. -/
def planeReads : List Event → List (Int × Int × Int)
  | [] => []
  | .readPlane _ _ _ t z c :: rest => (t, c, z) :: planeReads rest
  | _ :: rest => planeReads rest

/-- The buffer offsets (in samples) of the plane reads among `events`, each with the
`(timepoint, channel, zPlane)` it was issued for. -/
def planeOffsets : List Event → List ((Int × Int × Int) × Int)
  | [] => []
  | .readPlane offset _ _ t z c :: rest => ((t, c, z), offset) :: planeOffsets rest
  | _ :: rest => planeOffsets rest

/-- The texts printed among `events`. -/
def printed : List Event → List (List Char)
  | [] => []
  | .print text :: rest => text :: printed rest
  | _ :: rest => printed rest

/-- The sizes of the pixel buffers allocated among `events`. -/
def pixelBuffers : List Event → List Nat
  | [] => []
  | .newPixels n :: rest => n :: pixelBuffers rest
  | _ :: rest => pixelBuffers rest

/-! ## A sample reader, for concrete runs -/

/-- The content of a small file in which every capture has the same shape. `stringLength`
is what the string getters return, `stringText` what they store in a buffer;
`badPlane timepoint zPlane channel` marks the planes that cannot be read. -/
structure SampleFile where
  numCaptures : Int
  numPositions : Int
  xDim : Int
  yDim : Int
  zDim : Int
  numTimepoints : Int
  numChannels : Int
  exposure : Int → Nat
  elapsed : Int → Nat
  stringLength : Nat
  stringText : List Char
  channelText : Int → List Char
  voxel : VoxelReply
  badPlane : Int → Int → Int → Bool

/-- The exception the sample reader raises for an unreadable plane. -/
def sampleException : Exception := ⟨eFailbit, 1, "plane read failed".toList⟩

/-- A reader over a `SampleFile`, opened with the exception mask `mask`. As SBReadFile.h
documents for `ReadImagePlaneBuf`, an unreadable plane makes the call return `false` when
the mask hides `eFailbit` and raise otherwise. -/
def sampleReader (f : SampleFile) (mask : Nat) : SBReadFile where
  Exceptions := mask
  GetNumCaptures := .ok f.numCaptures
  GetNumPositions := fun _ => .ok f.numPositions
  GetNumXColumns := fun _ => .ok f.xDim
  GetNumYRows := fun _ => .ok f.yDim
  GetNumZPlanes := fun _ => .ok f.zDim
  GetNumTimepoints := fun _ => .ok f.numTimepoints
  GetNumChannels := fun _ => .ok f.numChannels
  GetExposureTime := fun _ c => .ok (f.exposure c)
  GetVoxelSize := fun _ => .ok f.voxel
  GetElapsedTime := fun _ t => .ok (f.elapsed t)
  GetChannelName := fun buffer _ c =>
    .ok ⟨(f.channelText c).length, if buffer then f.channelText c else []⟩
  GetLensName := fun buffer _ => .ok ⟨f.stringLength, if buffer then f.stringText else []⟩
  GetImageName := fun buffer _ => .ok ⟨f.stringLength, if buffer then f.stringText else []⟩
  GetImageComments := fun buffer _ => .ok ⟨f.stringLength, if buffer then f.stringText else []⟩
  GetCaptureDate := fun buffer _ => .ok ⟨f.stringLength, if buffer then f.stringText else []⟩
  ReadImagePlaneBuf := fun _ _ t z c =>
    if f.badPlane t z c then
      if mask &&& eFailbit = 0 then .ok false else .error sampleException
    else .ok true

/-- A sample file: one capture of 4 x 4 pixels, 3 Z planes, 3 timepoints, 2 channels, every
string `"ab"`, channel `c` named by the letter `c` places after `'A'`. -/
def smallFile : SampleFile where
  numCaptures := 1
  numPositions := 1
  xDim := 4
  yDim := 4
  zDim := 3
  numTimepoints := 3
  numChannels := 2
  exposure := fun c => (10 * (c + 1)).toNat
  elapsed := fun t => (100 * t).toNat
  stringLength := 3
  stringText := ['a', 'b', NUL]
  channelText := fun c => [Char.ofNat (65 + c.toNat), NUL]
  voxel := ⟨true, some ⟨0x3F000000⟩, some ⟨0x3F000000⟩, some ⟨0x40000000⟩⟩
  badPlane := fun _ _ _ => false

/-! ## The traversal, described from outside -/

/-- The triples of `[0,T) x [0,C) x [0,Z)` in lexicographic order: timepoint, then
channel, then Z plane. -/
def lexTriples (T C Z : Nat) : List (Int × Int × Int) :=
  (List.range T).flatMap fun (t : Nat) => (List.range C).flatMap fun (c : Nat) =>
    (List.range Z).map fun (z : Nat) => ((t : Int), (c : Int), (z : Int))

/-- The triples of `[0,T) x [0,C) x [0,Z)` up to and including `(t0, c0, z0)`, in
lexicographic order. -/
def lexTriplesUpTo (C Z : Nat) (t0 c0 z0 : Nat) : List (Int × Int × Int) :=
  lexTriples t0 C Z
    ++ ((List.range c0).flatMap fun (c : Nat) =>
        (List.range Z).map fun (z : Nat) => ((t0 : Int), (c : Int), (z : Int)))
    ++ (List.range (z0 + 1)).map fun (z : Nat) => ((t0 : Int), (c0 : Int), (z : Int))

/-- Lexicographic comparison of two triples: `a` is `b` or comes before it. -/
def lexLe (a b : Int × Int × Int) : Prop :=
  a.1 < b.1 ∨ (a.1 = b.1 ∧ (a.2.1 < b.2.1 ∨ (a.2.1 = b.2.1 ∧ a.2.2 ≤ b.2.2)))

/-- The events of the Z loop for `(t, c)` when it runs through `Z` planes. -/
def zReads (planeSize capture_index t c : Int) (Z : Nat) : List Event :=
  (List.range Z).flatMap fun z =>
    [Event.readPlane (toSizeT (toSizeT z * planeSize)) capture_index 0 t (toUInt16 z) c]

/-- The events of one pass of the channel loop body that runs to its end. -/
def channelEvents (planeSize capture_index : Int) (Z : Nat) (t c : Int) : List Event :=
  zReads planeSize capture_index t c Z ++ [Event.print (readBufferLine capture_index t c)]

/-- The events of one pass of the timepoint loop body that runs to its end. -/
def timepointEvents (planeSize capture_index : Int) (C Z : Nat) (t : Int) : List Event :=
  (List.range C).flatMap fun c => channelEvents planeSize capture_index Z t c

/-- The events of a traversal that runs to its end. -/
def traversalEvents (planeSize capture_index : Int) (T C Z : Nat) : List Event :=
  (List.range T).flatMap fun t => timepointEvents planeSize capture_index C Z t

/-- A frame with the given counts and pixel dimensions and nothing else: what the loops of
`ConvertSBImages` read from the frame are `number_timepoints`, `number_channels`, `zDim`
and, before them, `xDim` and `yDim`. -/
def frameOf (r : SBReadFile) (T C xDim yDim zDim : Int) : CaptureDataFrame where
  sb_read_file := r
  number_captures := 1
  number_positions := 1
  number_channels := C
  number_timepoints := T
  capture_index := 0
  position_index := 0
  channels_index := none
  timepoint_index := none
  xDim := xDim
  yDim := yDim
  zDim := zDim
  has_voxel_size := false
  voxel_size := (some Float32.one, some Float32.one, some Float32.one)
  image_name := []
  image_comments := []
  capture_date := []
  lens_name := []
  channel_names := []
  exposure_time := []
  capture_index_fmt := RangePrinter.new 1 1
  channel_index_fmt := RangePrinter.new 1 C
  position_index_fmt := RangePrinter.new 1 1
  timepoint_index_fmt := RangePrinter.new 1 T
  elapsed_range_fmt := RangePrinter.new 0 0

/-- The library function `III_NewSBReadFile` on a file whose content is `f`: the sample
reader with the mask asked for. -/
def openSample (f : SampleFile) (mask : Nat) : Except Exception (Option SBReadFile) :=
  .ok (some (sampleReader f mask))

/-- The sample file in which the plane at timepoint 2, channel 0, Z plane 1 cannot be
read. -/
def brokenFile : SampleFile :=
  { smallFile with badPlane := fun t z c => t == 2 && z == 1 && c == 0 }

/-- The sample file with a single timepoint and a single channel in which Z plane `z0`
cannot be read. -/
def brokenStack (z0 : Int) : SampleFile :=
  { smallFile with numTimepoints := 1, numChannels := 1,
                   badPlane := fun t z c => t == 0 && z == z0 && c == 0 }

/-- The sample file with one timepoint, one channel and 65537 Z planes. -/
def tallFile : SampleFile :=
  { smallFile with numTimepoints := 1, numChannels := 1, zDim := 65537 }

/-- The sample file with one timepoint, one channel and a stack of 256 planes of
4096 x 4096 pixels: `2^32` samples. -/
def hugeFile : SampleFile :=
  { smallFile with numTimepoints := 1, numChannels := 1, xDim := 4096, yDim := 4096,
                   zDim := 256 }

/-! ## Readers on which the constructor returns -/

/-- The two-phase retrieval of a string returns: the first-phase query returns and, when
the length it gives is a positive `int`, the second-phase query returns after storing at
most that many characters, a NUL among them. -/
def stringReturns (first : Except Exception StringReply)
    (second : Except Exception StringReply) : Prop :=
  ∃ reply1, first = .ok reply1 ∧
    (0 < toSInt32 reply1.ret →
      ∃ reply2, second = .ok reply2 ∧
        reply2.written.length ≤ (toSInt32 reply1.ret).toNat ∧ NUL ∈ reply2.written)

/-- Every query the constructor issues for capture `capture_index` returns, and every
string is retrieved. -/
structure Constructible (r : SBReadFile) (capture_index : Int) : Prop where
  numCaptures : ∃ v, r.GetNumCaptures = .ok v
  numPositions : ∃ v, r.GetNumPositions capture_index = .ok v
  numChannels : ∃ v, r.GetNumChannels capture_index = .ok v
  numTimepoints : ∃ v, r.GetNumTimepoints capture_index = .ok v
  xColumns : ∃ v, r.GetNumXColumns capture_index = .ok v
  yRows : ∃ v, r.GetNumYRows capture_index = .ok v
  zPlanes : ∃ v, r.GetNumZPlanes capture_index = .ok v
  strings : ∀ g : StringGetter,
    stringReturns (r.call g false capture_index) (r.call g true capture_index)
  elapsed : ∀ t, ∃ v, r.GetElapsedTime capture_index t = .ok v
  voxel : ∃ v, r.GetVoxelSize capture_index = .ok v
  channelStrings : ∀ (g : ChannelStringGetter) (i : Int),
    stringReturns (r.callChannel g false capture_index i)
      (r.callChannel g true capture_index i)
  exposure : ∀ i, ∃ v, r.GetExposureTime capture_index i = .ok v

/-- The lines a traversal of `T` timepoints and `C` channels prints when it runs to its
end: one line per `(timepoint, channel)`, in order. -/
def progressLines (capture_index : Int) (T C : Nat) : List (List Char) :=
  (List.range T).flatMap fun (t : Nat) =>
    (List.range C).flatMap fun (c : Nat) => [readBufferLine capture_index t c]

/-! ## What the loops leave untouched, what the member initialisers set -/

/-- Two frames agree on every member that neither the constructor body nor the traversal
assigns: the reader, the counts, the indices given to the constructor, the pixel
dimensions and the five formatters. -/
structure CaptureDataFrame.SameShape (a b : CaptureDataFrame) : Prop where
  sb_read_file : a.sb_read_file = b.sb_read_file
  number_captures : a.number_captures = b.number_captures
  number_positions : a.number_positions = b.number_positions
  number_channels : a.number_channels = b.number_channels
  number_timepoints : a.number_timepoints = b.number_timepoints
  capture_index : a.capture_index = b.capture_index
  position_index : a.position_index = b.position_index
  xDim : a.xDim = b.xDim
  yDim : a.yDim = b.yDim
  zDim : a.zDim = b.zDim
  capture_index_fmt : a.capture_index_fmt = b.capture_index_fmt
  channel_index_fmt : a.channel_index_fmt = b.channel_index_fmt
  position_index_fmt : a.position_index_fmt = b.position_index_fmt
  timepoint_index_fmt : a.timepoint_index_fmt = b.timepoint_index_fmt
  elapsed_range_fmt : a.elapsed_range_fmt = b.elapsed_range_fmt

/-- The frame `cp` carries what the reader `r` answered for capture `ci`: every
count and pixel dimension is the value the reader returned, the formatters are built from
them and from the elapsed time at timepoint `number_timepoints - 1`. -/
structure CaptureDataFrame.BuiltFrom (r : SBReadFile) (ci pi : Int)
    (cp : CaptureDataFrame) : Prop where
  sb_read_file : cp.sb_read_file = r
  capture_index : cp.capture_index = ci
  position_index : cp.position_index = pi
  number_captures : r.GetNumCaptures = .ok cp.number_captures
  number_positions : r.GetNumPositions ci = .ok cp.number_positions
  number_channels : r.GetNumChannels ci = .ok cp.number_channels
  number_timepoints : r.GetNumTimepoints ci = .ok cp.number_timepoints
  xDim : r.GetNumXColumns ci = .ok cp.xDim
  yDim : r.GetNumYRows ci = .ok cp.yDim
  zDim : r.GetNumZPlanes ci = .ok cp.zDim
  capture_index_fmt : cp.capture_index_fmt = RangePrinter.new 1 cp.number_captures
  channel_index_fmt : cp.channel_index_fmt = RangePrinter.new 1 cp.number_channels
  position_index_fmt : cp.position_index_fmt = RangePrinter.new 1 cp.number_positions
  timepoint_index_fmt : cp.timepoint_index_fmt = RangePrinter.new 1 cp.number_timepoints
  elapsed_range_fmt : ∃ elapsed : Nat,
    r.GetElapsedTime ci (toSInt32 (cp.number_timepoints - 1)) = .ok elapsed ∧
    cp.elapsed_range_fmt = RangePrinter.new 0 (toSInt32 elapsed)

/-! ## Requests and what they carry -/

/-- The arguments of the plane reads among `events`, in the order of the parameters of
`ReadImagePlaneBuf`: buffer offset (in samples), capture, position, timepoint, Z plane,
channel. -/
def readArgs : List Event → List (Int × Int × Int × Int × Int × Int)
  | [] => []
  | .readPlane offset capture position t z c :: rest =>
    (offset, capture, position, t, z, c) :: readArgs rest
  | _ :: rest => readArgs rest

/-- The event belongs to the retrieval of a string: a string query, `new char[]` or
`delete[]`. -/
def Event.isStringWork : Event → Prop
  | .stringQuery _ _ _ => True
  | .channelStringQuery _ _ _ _ => True
  | .newChars _ => True
  | .deleteChars => True
  | _ => False

/-- The event is no plane read, or it is a plane read as the traversal of capture
`capture_index` issues them for counts `T`, `C`, `Z`: position 0, timepoint and channel
within their counts, and for some loop counter `z` in `[0, Z)` the Z plane `z` reduced to a
`PlaneIndex` and the offset `z * planeSize` formed in `std::size_t`. -/
def TraversalRead (planeSize capture_index T C Z : Int) : Event → Prop
  | .readPlane offset capture position t zPlane c =>
    capture = capture_index ∧ position = 0 ∧ (0 ≤ t ∧ t < T) ∧ (0 ≤ c ∧ c < C) ∧
    ∃ z : Int, (0 ≤ z ∧ z < Z) ∧ zPlane = toUInt16 z ∧
      offset = toSizeT (toSizeT z * planeSize)
  | _ => True

/-- The event is no plane read, or it is a plane read as `ConvertSBImages` issues them while
it processes capture `capture_index` of the reader `r`: a plane read of the traversal over a
frame that carries what the reader answered for that capture, built for position 0, with
the plane size computed from that frame. -/
def CaptureRead (r : SBReadFile) (capture_index : Int) : Event → Prop
  | .readPlane offset capture position t zPlane c =>
    ∃ cp, CaptureDataFrame.BuiltFrom r capture_index 0 cp ∧
      TraversalRead (planeSizeOf cp) capture_index cp.number_timepoints cp.number_channels
        cp.zDim (.readPlane offset capture position t zPlane c)
  | _ => True

/-- The event is no plane read, or it is a plane read as `ConvertSBImages` issues them on
the reader `r`: a read of the pass of the capture loop for its own capture index, which
lies within the number of captures the reader reports. -/
def ProgramRead (r : SBReadFile) : Event → Prop
  | .readPlane offset capture position t zPlane c =>
    (∃ n, r.GetNumCaptures = .ok n ∧ 0 ≤ capture ∧ capture < n) ∧
      CaptureRead r capture (.readPlane offset capture position t zPlane c)
  | _ => True

/-- The sample file whose capture declares no position at all. -/
def noPositionFile : SampleFile := { smallFile with numPositions := 0 }

/-- The sample file with one timepoint, one channel and a stack of 5 planes of
32768 x 32768 pixels: `5 * 2^30` samples, each plane of `2^30` samples. -/
def deepFile : SampleFile :=
  { smallFile with numTimepoints := 1, numChannels := 1, xDim := 32768, yDim := 32768,
                   zDim := 5 }

/-- The sample file with one timepoint, one channel and a stack of 2 planes of
65536 x 65536 pixels: each plane of `2^32` samples. -/
def broadFile : SampleFile :=
  { smallFile with numTimepoints := 1, numChannels := 1, xDim := 65536, yDim := 65536,
                   zDim := 2 }

/-- Strict lexicographic comparison of two triples, the first component most significant:
`a` comes before `b`. -/
def lexLt (a b : Int × Int × Int) : Prop :=
  a.1 < b.1 ∨ (a.1 = b.1 ∧ (a.2.1 < b.2.1 ∨ (a.2.1 = b.2.1 ∧ a.2.2 < b.2.2)))

/-- The triple at place `k` (0-based) of a row-major enumeration with `C` channels and `Z`
planes: `(k div (C*Z), (k div Z) mod C, k mod Z)`. -/
def tripleAt (C Z k : Nat) : Int × Int × Int :=
  (((k / (C * Z) : Nat) : Int), ((k / Z % C : Nat) : Int), ((k % Z : Nat) : Int))

/-- The last `w` decimal digits of `x`, most significant first: the text of `x` in a field
of exactly `w` digits when `x < 10^w`. -/
def fixedDigits : Nat → Nat → List Char
  | 0, _ => []
  | w + 1, x => fixedDigits w (x / 10) ++ [Nat.digitChar (x % 10)]

/-! ## Reading a decimal text back -/

/-- The value of a decimal digit character, `none` for any other character. -/
def digitValue (c : Char) : Option Nat :=
  if 48 ≤ c.toNat ∧ c.toNat ≤ 57 then some (c.toNat - 48) else none

/-- Reading decimal digits from the left, `acc` being the value read so far; `none` when a
character is no digit. -/
def parseFrom (acc : Nat) : List Char → Option Nat
  | [] => some acc
  | c :: rest =>
    match digitValue c with
    | none => none
    | some d => parseFrom (acc * 10 + d) rest

/-- Reading a non-empty text of decimal digits as a natural number. -/
def parseNat (s : List Char) : Option Nat :=
  if s = [] then none else parseFrom 0 s

/-- Reading a text as a decimal integer: an optional `-`, then digits. -/
def parseDecimal : List Char → Option Int
  | [] => none
  | c :: rest =>
    if c = '-' then (parseNat rest).map (fun n => -(n : Int))
    else (parseNat (c :: rest)).map (fun n => (n : Int))

/-! ## `CaptureDataFrame::GetDetail` (sb_loader.h, lines 133-165) -/

/-- What makes `GetDetail` produce no text: an access `v[i]` past the end of a vector, or
the use of a value the source leaves undefined. -/
inductive DetailFault
  /-- An access `channel_names[i]` or `exposure_time[i]` with `i` not below the size. -/
  | outOfBounds
  /-- A `float` or a formatter width that was never given a value. -/
  | undefined
deriving DecidableEq

/-- The loop of lines 154-160, after the bound has been compared: `count` passes from `c`,
each appending the three lines of channel `c` to `metaData`. The loop values stay below
`number_channels`, so `c + 1` is an `int`. An access past the end of either vector is
reported before anything else. -/
def CaptureDataFrame.detailChannels (cp : CaptureDataFrame) (channelRange : RangePrinter 1) :
    Nat → Int → List Char → Except DetailFault (List Char)
  | 0, _, metaData => .ok metaData
  | count + 1, c, metaData =>
    match cp.channel_names[c.toNat]?, cp.exposure_time[c.toNat]? with
    | some name, some exposure =>
      match channelRange.string c with
      | some label =>
        detailChannels cp channelRange count (c + 1)
          (metaData ++ "Channel ".toList ++ label ++ "\n   name: ".toList ++ name
            ++ "\n   exposure time: ".toList ++ fmtInt exposure ++ "ms\n".toList)
      | none => .error .undefined
    | _, _ => .error .outOfBounds

/-- The member `GetDetail` (lines 133-165). `fmtFloat` is the text `fmt` gives for a
`float` under `{}`. -/
def CaptureDataFrame.GetDetail (fmtFloat : Float32 → List Char) (cp : CaptureDataFrame) :
    Except DetailFault (List Char) :=
  let metaData := "Image name: ".toList ++ cp.image_name ++ "\n".toList
  let metaData := metaData ++ "Image size: [".toList ++ fmtInt cp.xDim ++ ",".toList
    ++ fmtInt cp.yDim ++ ",".toList ++ fmtInt cp.zDim ++ "]\n".toList
  let voxel_status := if !cp.has_voxel_size then "undefined defaulting ".toList else []
  match cp.voxel_size with
  | (some vx, some vy, some vz) =>
    let metaData := metaData ++ "Voxel size: ".toList ++ voxel_status ++ "[".toList
      ++ fmtFloat vx ++ ",".toList ++ fmtFloat vy ++ ",".toList ++ fmtFloat vz
      ++ "]\n".toList
    let metaData := metaData ++ "Image comments: ".toList ++ cp.image_comments ++ "\n".toList
    let metaData := metaData ++ "Capture date: ".toList ++ cp.capture_date ++ "\n".toList
    let metaData := metaData ++ "Lens name: ".toList ++ cp.lens_name ++ "\n".toList
    if cp.number_channels = 1 then
      match cp.channel_names[0]?, cp.exposure_time[0]? with
      | some name, some exposure =>
        .ok (metaData ++ "Channel name: ".toList ++ name ++ "\n".toList
          ++ "Channel exposure time: ".toList ++ fmtInt exposure ++ "ms\n".toList)
      | _, _ => .error .outOfBounds
    else
      cp.detailChannels (RangePrinter.new 1 cp.number_channels) cp.number_channels.toNat 0
        metaData
  | _ => .error .undefined

/-- Whether a call of `GetDetail` ran into an access past the end of a vector. -/
def indexedOutOfBounds : Except DetailFault (List Char) → Bool
  | .error .outOfBounds => true
  | _ => false

/-- A text for a `float`, for concrete runs: the bit pattern in decimal. -/
def sampleFloat (x : Float32) : List Char := toDecimal x.bits

/-! ## The index texts of `CaptureDataFrame` (sb_loader.h, lines 167-190) -/

/-- The member `GetCaptureIndexString` (lines 167-170). -/
def CaptureDataFrame.GetCaptureIndexString (cp : CaptureDataFrame) : Run (List Char) :=
  Run.ofDefined (cp.capture_index_fmt.string cp.capture_index)

/-- The member `GetChannelIndexString` (lines 172-175); `channels_index` is read. -/
def CaptureDataFrame.GetChannelIndexString (cp : CaptureDataFrame) : Run (List Char) := do
  let channels_index ← Run.ofDefined cp.channels_index
  Run.ofDefined (cp.channel_index_fmt.string channels_index)

/-- The member `GetPositionIndexString` (lines 177-180). -/
def CaptureDataFrame.GetPositionIndexString (cp : CaptureDataFrame) : Run (List Char) :=
  Run.ofDefined (cp.position_index_fmt.string cp.position_index)

/-- The member `GetTimepointIndexString` (lines 182-185); `timepoint_index` is read. -/
def CaptureDataFrame.GetTimepointIndexString (cp : CaptureDataFrame) : Run (List Char) := do
  let timepoint_index ← Run.ofDefined cp.timepoint_index
  Run.ofDefined (cp.timepoint_index_fmt.string timepoint_index)

/-- The member `GetElapsedString` (lines 187-190): the reader's elapsed time (a `UInt32`)
for the members `capture_index` and `timepoint_index`, converted to the `int` parameter of
`RangePrinter::string`. -/
def CaptureDataFrame.GetElapsedString (cp : CaptureDataFrame) : Run (List Char) := do
  let timepoint_index ← Run.ofDefined cp.timepoint_index
  let elapsed ← Run.ofReader
    (cp.sb_read_file.GetElapsedTime cp.capture_index timepoint_index)
  Run.ofDefined (cp.elapsed_range_fmt.string (toSInt32 elapsed))

/-! ## Readers that never fail -/

/-- The reader reports `n` captures and never fails: every query the constructor issues for
a capture below `n` returns (strings included), and every plane read returns. -/
structure NeverFails (r : SBReadFile) (n : Nat) : Prop where
  captures : r.GetNumCaptures = .ok (n : Int)
  constructible : ∀ k : Nat, k < n → Constructible r (k : Int)
  reads : ∀ k p t z c : Int, ∃ b, r.ReadImagePlaneBuf k p t z c = .ok b

/-- The arguments of the plane reads of capture `k` when its traversal runs to its end, in
the order issued: one per triple of `[0,T) x [0,C) x [0,Z)`, the Z counter reduced to a
`PlaneIndex`, the offset formed in `std::size_t`. -/
def captureReads (planeSize : Int) (k : Int) (T C Z : Nat) :
    List (Int × Int × Int × Int × Int × Int) :=
  (lexTriples T C Z).map (fun p =>
    (toSizeT (toSizeT p.2.2 * planeSize), k, (0 : Int), p.1, toUInt16 p.2.2, p.2.1))

/-- The sample file with two captures of the sample shape. -/
def pairFile : SampleFile := { smallFile with numCaptures := 2 }

/-- The sample file with two captures, each with one timepoint, one channel and a stack of
512 planes of 2048 x 2048 pixels: `2^31` samples per capture. -/
def bigFile : SampleFile :=
  { smallFile with numCaptures := 2, numTimepoints := 1, numChannels := 1, xDim := 2048,
                   yDim := 2048, zDim := 512 }

/-! # Theorems -/

/-! ## Machine integers and decimal digits -/

theorem toSInt32_of_range {x : Int} (h1 : INT_MIN ≤ x) (h2 : x ≤ INT_MAX) : toSInt32 x = x := by
  unfold toSInt32
  unfold INT_MIN at h1
  unfold INT_MAX at h2
  omega

theorem floorLog10_eq_log : ∀ (fuel x : Nat), x ≤ fuel → floorLog10 fuel x = Nat.log 10 x := by
  intro fuel
  induction fuel with
  | zero =>
    intro x hx
    have : x = 0 := by omega
    subst this
    simp [floorLog10]
  | succ f ih =>
    intro x hx
    unfold floorLog10
    by_cases h : x < 10
    · simp [h, Nat.log_of_lt h]
    · have h10 : 10 ≤ x := by omega
      have hdiv : x / 10 ≤ f := by omega
      simp only [h, if_false]
      rw [ih _ hdiv, Nat.log_of_one_lt_of_le (by norm_num) h10]

theorem decDigits_length : ∀ (fuel x : Nat), x < fuel →
    (decDigits fuel x).length = floorLog10 fuel x + 1 := by
  intro fuel
  induction fuel with
  | zero => intro x hx; omega
  | succ f ih =>
    intro x hx
    unfold decDigits floorLog10
    by_cases h : x < 10
    · simp [h]
    · have hdiv : x / 10 < f := by omega
      simp only [h, if_false, List.length_append, List.length_singleton]
      rw [ih _ hdiv]

theorem floorLog10_fuel : ∀ (f g x : Nat), x ≤ f → x ≤ g → floorLog10 f x = floorLog10 g x := by
  intro f g x hf hg
  rw [floorLog10_eq_log f x hf, floorLog10_eq_log g x hg]

theorem toDecimal_length (x : Nat) : (toDecimal x).length = Nat.log 10 x + 1 := by
  unfold toDecimal
  rw [decDigits_length (x + 1) x (by omega), floorLog10_eq_log (x + 1) x (by omega)]

/-! ## `util::RangePrinter` -/

/-- The width a printer built from a sum `m + N` in `[0, INT_MAX]` gets. -/
theorem numDigits_of_fits (m N : Int) (h0 : 0 ≤ m + N) (hfit : m + N ≤ INT_MAX) :
    (RangePrinter.new N m).numDigits = some ((toDecimal (m + N).toNat).length : Int) := by
  have hs : toSInt32 (m + N) = m + N :=
    toSInt32_of_range (by unfold INT_MIN; omega) hfit
  unfold RangePrinter.new
  simp only [hs]
  by_cases hz : m + N = 0
  · simp [hz, toDecimal, decDigits]
  · have hpos : 0 < m + N := by omega
    simp only [hz, if_false, hpos, if_true]
    rw [toDecimal_length, floorLog10_eq_log _ _ (le_refl _)]
    simp

/-- C5 (as amended): for every maxValue `m ≥ 0` and origin `N ∈ {0, 1}` whose sum is an
`int` (`m + N ≤ INT_MAX`), `RangePrinter<N>(m).numDigits` is the number of decimal digits
of `m + N`: the length of its decimal representation, which is `1` for `m + N = 0` and
`floor(log10(m + N)) + 1` otherwise. -/
theorem C5_numDigits_is_digit_count (m N : Int) (hm : 0 ≤ m) (hN : N = 0 ∨ N = 1)
    (hfit : m + N ≤ INT_MAX) :
    (RangePrinter.new N m).numDigits = some ((toDecimal (m + N).toNat).length : Int) ∧
    ((toDecimal (m + N).toNat).length : Int)
      = if m + N = 0 then 1 else (Nat.log 10 (m + N).toNat : Int) + 1 := by
  have h0 : 0 ≤ m + N := by rcases hN with h | h <;> omega
  refine ⟨numDigits_of_fits m N h0 hfit, ?_⟩
  rw [toDecimal_length]
  by_cases hz : m + N = 0
  · simp [hz]
  · simp [hz]

/-- C5, witness: `RangePrinter<1>(12)` has width 2, the number of digits of 13. -/
theorem C5_numDigits_witness :
    (RangePrinter.new 1 12).numDigits = some ((toDecimal (12 + 1 : Int).toNat).length : Int) ∧
    ((toDecimal (12 + 1 : Int).toNat).length : Int)
      = if (12 : Int) + 1 = 0 then 1 else (Nat.log 10 ((12 : Int) + 1).toNat : Int) + 1 :=
  C5_numDigits_is_digit_count 12 1 (by decide) (Or.inr rfl) (by decide)

/-- C5, counterexample: for `m = INT_MAX` and `N = 1` the claim asks for the 10 digits of
2147483648, but the `int` sum `m + N` is negative and `numDigits` gets no defined value. -/
theorem C5_counterexample_int_max :
    (0 : Int) ≤ 2147483647 ∧
    (toDecimal ((2147483647 : Int) + 1).toNat).length = 10 ∧
    toSInt32 (2147483647 + 1) = -2147483648 ∧
    (RangePrinter.new 1 2147483647).numDigits = none := by
  decide

/-- Zero padding of a non-negative value to a non-negative width. -/
theorem fmtZeroPad_nonneg (x : Int) (w : Nat) (hx : 0 ≤ x) :
    fmtZeroPad x (w : Int)
      = some (List.replicate (w - (toDecimal x.toNat).length) '0' ++ toDecimal x.toNat) := by
  have hw : ¬ ((w : Int) < 0) := by omega
  have hneg : ¬ (x < 0) := by omega
  have habs : x.natAbs = x.toNat := by omega
  unfold fmtZeroPad
  simp [hw, hneg, habs]

/-- C6 (as amended): for every maxValue `m ≥ 0`, origin `N` and index `v` such that the sums
`m + N` and `v + N` are non-negative `int`s (at most `INT_MAX`), `RangePrinter<N>(m).string(v)`
is the decimal representation of `v + N` preceded by exactly `max(0, width - digits(v + N))`
characters `'0'`, where `width = numDigits` is the number of digits of `m + N`. -/
theorem C6_string_is_zero_padded_decimal (m N v : Int) (hm : 0 ≤ m)
    (hmN : 0 ≤ m + N) (hmfit : m + N ≤ INT_MAX) (hv : 0 ≤ v + N) (hvfit : v + N ≤ INT_MAX) :
    (RangePrinter.new N m).numDigits = some ((toDecimal (m + N).toNat).length : Int) ∧
    (RangePrinter.new N m).string v
      = some (List.replicate
          ((toDecimal (m + N).toNat).length - (toDecimal (v + N).toNat).length) '0'
          ++ toDecimal (v + N).toNat) := by
  have _ := hm
  have hw := numDigits_of_fits m N hmN hmfit
  have hs : toSInt32 (v + N) = v + N :=
    toSInt32_of_range (by unfold INT_MIN; omega) hvfit
  refine ⟨hw, ?_⟩
  unfold RangePrinter.string
  rw [hw]
  simp only [hs]
  exact fmtZeroPad_nonneg (v + N) _ hv

/-- C6, witness: the two examples of the specification,
`RangePrinter<1>(12).string(0) = "01"` and `RangePrinter<0>(0).string(0) = "0"`. -/
theorem C6_string_witness :
    (RangePrinter.new 1 12).string 0 = some ['0', '1'] ∧
    (RangePrinter.new 0 0).string 0 = some ['0'] :=
  ⟨(C6_string_is_zero_padded_decimal 12 1 0 (by decide) (by decide) (by decide) (by decide)
      (by decide)).2.trans (by decide),
   (C6_string_is_zero_padded_decimal 0 0 0 (by decide) (by decide) (by decide) (by decide)
      (by decide)).2.trans (by decide)⟩

/-- C6, counterexample: with origin 1 and index `v = INT_MAX` the sum `v + N` is
non-negative, yet the `int` sum wraps and the text is `-2147483648`, not the decimal
representation `2147483648` of `v + N`; and with origin `-1` and maxValue 0 (index 1, so
that `v + N = 0`) the width is undefined and no text is produced. -/
theorem C6_counterexample_sum_overflow :
    ((0 : Int) ≤ 12 ∧ (0 : Int) ≤ 2147483647 + 1 ∧
      toDecimal ((2147483647 : Int) + 1).toNat = "2147483648".toList ∧
      (RangePrinter.new 1 12).string 2147483647 = some "-2147483648".toList) ∧
    ((0 : Int) ≤ 0 ∧ (0 : Int) ≤ 1 + -1 ∧ (RangePrinter.new (-1) 0).string 1 = none) := by
  decide

/-! ## Runs -/

@[simp] theorem Run.bind_eq {α β : Type} (x : Run α) (f : α → Run β) : x >>= f = Run.bind x f :=
  rfl

@[simp] theorem Run.pure_eq {α : Type} (a : α) : (pure a : Run α) = Run.pure a := rfl

theorem Run.bind_of_ok {α β : Type} {x : Run α} {a : α} (h : x.result = .ok a)
    (f : α → Run β) : Run.bind x f = ⟨x.events ++ (f a).events, (f a).result⟩ := by
  unfold Run.bind
  rw [h]

theorem Run.bind_of_error {α β : Type} {x : Run α} {e : Abort} (h : x.result = .error e)
    (f : α → Run β) : Run.bind x f = ⟨x.events, .error e⟩ := by
  unfold Run.bind
  rw [h]


@[simp] theorem Run.emit_events (e : Event) : (Run.emit e).events = [e] := rfl

@[simp] theorem Run.emit_result (e : Event) : (Run.emit e).result = .ok () := rfl

@[simp] theorem Run.pure_events {α : Type} (a : α) : (Run.pure a).events = [] := rfl

@[simp] theorem Run.pure_result {α : Type} (a : α) : (Run.pure a).result = .ok a := rfl

theorem Run.emit_bind {β : Type} (e : Event) (f : Unit → Run β) :
    Run.bind (Run.emit e) f = ⟨e :: (f ()).events, (f ()).result⟩ := rfl

theorem Run.ofReader_ok_bind {α β : Type} (a : α) (f : α → Run β) :
    Run.bind (Run.ofReader (.ok a)) f = f a := rfl

theorem Run.ofReader_error_bind {α β : Type} (e : Exception) (f : α → Run β) :
    Run.bind (Run.ofReader (.error e)) f = ⟨[], .error (.exception e)⟩ := rfl

theorem Run.ofDefined_some_bind {α β : Type} (a : α) (f : α → Run β) :
    Run.bind (Run.ofDefined (some a)) f = f a := rfl

/-! ## `CaptureDataFrame::GetString` -/

theorem GetString_of_nonpositive (r : SBReadFile) (capture_index : Int) (g : StringGetter)
    (first : StringReply) (h : r.call g false capture_index = .ok first)
    (h0 : ¬ 0 < toSInt32 first.ret) :
    CaptureDataFrame.GetString r capture_index g
      = ⟨[.stringQuery g none capture_index], .ok []⟩ := by
  unfold CaptureDataFrame.GetString
  simp only [Run.bind_eq, Run.pure_eq]
  rw [Run.emit_bind, h, Run.ofReader_ok_bind]
  simp only [h0, if_false]
  rfl

theorem GetChannelString_of_nonpositive (r : SBReadFile) (capture_index channel_index : Int)
    (g : ChannelStringGetter) (first : StringReply)
    (h : r.callChannel g false capture_index channel_index = .ok first)
    (h0 : ¬ 0 < toSInt32 first.ret) :
    CaptureDataFrame.GetChannelString r capture_index channel_index g
      = ⟨[.channelStringQuery g none capture_index channel_index], .ok []⟩ := by
  unfold CaptureDataFrame.GetChannelString
  simp only [Run.bind_eq, Run.pure_eq]
  rw [Run.emit_bind, h, Run.ofReader_ok_bind]
  simp only [h0, if_false]
  rfl

theorem cString_of_terminated (cap : Nat) (written : List Char) (hfit : written.length ≤ cap)
    (hnul : NUL ∈ written) :
    cString cap written = some (written.takeWhile (fun c => c != NUL)) := by
  unfold cString
  simp [hfit, hnul]

theorem GetString_of_positive (r : SBReadFile) (capture_index : Int) (g : StringGetter)
    (first second : StringReply) (h1 : r.call g false capture_index = .ok first)
    (hpos : 0 < toSInt32 first.ret) (h2 : r.call g true capture_index = .ok second)
    (hfit : second.written.length ≤ (toSInt32 first.ret).toNat) (hnul : NUL ∈ second.written) :
    CaptureDataFrame.GetString r capture_index g
      = ⟨[.stringQuery g none capture_index, .newChars (toSInt32 first.ret).toNat,
          .stringQuery g (some (toSInt32 first.ret).toNat) capture_index, .deleteChars],
         .ok (second.written.takeWhile (fun c => c != NUL))⟩ := by
  unfold CaptureDataFrame.GetString
  simp only [Run.bind_eq, Run.pure_eq]
  rw [Run.emit_bind, h1, Run.ofReader_ok_bind]
  simp only [hpos, if_true]
  rw [Run.emit_bind, Run.emit_bind, h2, Run.ofReader_ok_bind,
    cString_of_terminated _ _ hfit hnul, Run.ofDefined_some_bind, Run.emit_bind]
  rfl

theorem GetChannelString_of_positive (r : SBReadFile) (capture_index channel_index : Int)
    (g : ChannelStringGetter) (first second : StringReply)
    (h1 : r.callChannel g false capture_index channel_index = .ok first)
    (hpos : 0 < toSInt32 first.ret)
    (h2 : r.callChannel g true capture_index channel_index = .ok second)
    (hfit : second.written.length ≤ (toSInt32 first.ret).toNat) (hnul : NUL ∈ second.written) :
    CaptureDataFrame.GetChannelString r capture_index channel_index g
      = ⟨[.channelStringQuery g none capture_index channel_index,
          .newChars (toSInt32 first.ret).toNat,
          .channelStringQuery g (some (toSInt32 first.ret).toNat) capture_index channel_index,
          .deleteChars],
         .ok (second.written.takeWhile (fun c => c != NUL))⟩ := by
  unfold CaptureDataFrame.GetChannelString
  simp only [Run.bind_eq, Run.pure_eq]
  rw [Run.emit_bind, h1, Run.ofReader_ok_bind]
  simp only [hpos, if_true]
  rw [Run.emit_bind, Run.emit_bind, h2, Run.ofReader_ok_bind,
    cString_of_terminated _ _ hfit hnul, Run.ofDefined_some_bind, Run.emit_bind]
  rfl

/-- C7: for every reader and every string field, when the first-phase (null buffer) length
query returns 0, `GetString` returns the empty string and its only event is that one query:
no buffer is allocated and no second-phase query is issued. Both overloads. -/
theorem C7_zero_length_gives_empty_string (r : SBReadFile) (capture_index : Int) :
    (∀ (g : StringGetter) (first : StringReply),
      r.call g false capture_index = .ok first → first.ret = 0 →
      (CaptureDataFrame.GetString r capture_index g).result = .ok [] ∧
      (CaptureDataFrame.GetString r capture_index g).events
        = [.stringQuery g none capture_index]) ∧
    (∀ (g : ChannelStringGetter) (channel_index : Int) (first : StringReply),
      r.callChannel g false capture_index channel_index = .ok first → first.ret = 0 →
      (CaptureDataFrame.GetChannelString r capture_index channel_index g).result = .ok [] ∧
      (CaptureDataFrame.GetChannelString r capture_index channel_index g).events
        = [.channelStringQuery g none capture_index channel_index]) := by
  constructor
  · intro g first h h0
    have hn : ¬ 0 < toSInt32 first.ret := by rw [h0]; decide
    rw [GetString_of_nonpositive r capture_index g first h hn]
    exact ⟨rfl, rfl⟩
  · intro g channel_index first h h0
    have hn : ¬ 0 < toSInt32 first.ret := by rw [h0]; decide
    rw [GetChannelString_of_nonpositive r capture_index channel_index g first h hn]
    exact ⟨rfl, rfl⟩

/-- C7, witness: a reader whose string getters all return length 0; the lens name and the
name of channel 1 of capture 0 are empty and cost one query each. -/
theorem C7_zero_length_witness :
    ((CaptureDataFrame.GetString
        (sampleReader { smallFile with stringLength := 0 } kNoExceptionsMasked) 0
        .GetLensName).result = .ok [] ∧
      (CaptureDataFrame.GetString
        (sampleReader { smallFile with stringLength := 0 } kNoExceptionsMasked) 0
        .GetLensName).events = [.stringQuery .GetLensName none 0]) ∧
    ((CaptureDataFrame.GetChannelString
        (sampleReader { smallFile with channelText := fun _ => [] } kNoExceptionsMasked) 0 1
        .GetChannelName).result = .ok [] ∧
      (CaptureDataFrame.GetChannelString
        (sampleReader { smallFile with channelText := fun _ => [] } kNoExceptionsMasked) 0 1
        .GetChannelName).events = [.channelStringQuery .GetChannelName none 0 1]) :=
  ⟨(C7_zero_length_gives_empty_string
      (sampleReader { smallFile with stringLength := 0 } kNoExceptionsMasked) 0).1
      .GetLensName ⟨0, []⟩ rfl rfl,
   (C7_zero_length_gives_empty_string
      (sampleReader { smallFile with channelText := fun _ => [] } kNoExceptionsMasked) 0).2
      .GetChannelName 1 ⟨0, []⟩ rfl rfl⟩

theorem toSInt32_of_lt {L : Nat} (h : L < 2147483648) : toSInt32 (L : Int) = (L : Int) := by
  unfold toSInt32
  omega

/-- C8 (as amended): for every reader and every string field whose first-phase query returns
a length `L` with `0 < L < 2^31` (a positive `int`), `GetString` allocates a buffer of
exactly `L` bytes, issues exactly one second-phase query with that buffer and the same
capture (and channel) index, and returns the characters the reader stored in the buffer up
to the terminating NUL (the reader storing at most `L` characters, a NUL among them). Both
overloads. -/
theorem C8_positive_length_two_phase (r : SBReadFile) (capture_index : Int) (L : Nat)
    (hpos : 0 < L) (hint : L < 2147483648) :
    (∀ (g : StringGetter) (first second : StringReply),
      r.call g false capture_index = .ok first → first.ret = L →
      r.call g true capture_index = .ok second →
      second.written.length ≤ L → NUL ∈ second.written →
      (CaptureDataFrame.GetString r capture_index g).events
        = [.stringQuery g none capture_index, .newChars L,
           .stringQuery g (some L) capture_index, .deleteChars] ∧
      (CaptureDataFrame.GetString r capture_index g).result
        = .ok (second.written.takeWhile (fun c => c != NUL))) ∧
    (∀ (g : ChannelStringGetter) (channel_index : Int) (first second : StringReply),
      r.callChannel g false capture_index channel_index = .ok first → first.ret = L →
      r.callChannel g true capture_index channel_index = .ok second →
      second.written.length ≤ L → NUL ∈ second.written →
      (CaptureDataFrame.GetChannelString r capture_index channel_index g).events
        = [.channelStringQuery g none capture_index channel_index, .newChars L,
           .channelStringQuery g (some L) capture_index channel_index, .deleteChars] ∧
      (CaptureDataFrame.GetChannelString r capture_index channel_index g).result
        = .ok (second.written.takeWhile (fun c => c != NUL))) := by
  have hL : toSInt32 (L : Int) = (L : Int) := toSInt32_of_lt hint
  constructor
  · intro g first second h1 hret h2 hfit hnul
    have hp : 0 < toSInt32 first.ret := by rw [hret, hL]; omega
    have hn : (toSInt32 first.ret).toNat = L := by rw [hret, hL]; omega
    rw [GetString_of_positive r capture_index g first second h1 hp h2 (by rw [hn]; exact hfit)
      hnul, hn]
    exact ⟨rfl, rfl⟩
  · intro g channel_index first second h1 hret h2 hfit hnul
    have hp : 0 < toSInt32 first.ret := by rw [hret, hL]; omega
    have hn : (toSInt32 first.ret).toNat = L := by rw [hret, hL]; omega
    rw [GetChannelString_of_positive r capture_index channel_index g first second h1 hp h2
      (by rw [hn]; exact hfit) hnul, hn]
    exact ⟨rfl, rfl⟩

/-- C8, witness: the sample reader announces 3 bytes for the image name and stores
`"ab"` and a NUL; channel 1 is announced with 2 bytes and named `"B"`. -/
theorem C8_positive_length_witness :
    ((CaptureDataFrame.GetString (sampleReader smallFile kNoExceptionsMasked) 0
        .GetImageName).events
        = [.stringQuery .GetImageName none 0, .newChars 3,
           .stringQuery .GetImageName (some 3) 0, .deleteChars] ∧
      (CaptureDataFrame.GetString (sampleReader smallFile kNoExceptionsMasked) 0
        .GetImageName).result = .ok ['a', 'b']) ∧
    ((CaptureDataFrame.GetChannelString (sampleReader smallFile kNoExceptionsMasked) 0 1
        .GetChannelName).events
        = [.channelStringQuery .GetChannelName none 0 1, .newChars 2,
           .channelStringQuery .GetChannelName (some 2) 0 1, .deleteChars] ∧
      (CaptureDataFrame.GetChannelString (sampleReader smallFile kNoExceptionsMasked) 0 1
        .GetChannelName).result = .ok ['B']) :=
  ⟨(C8_positive_length_two_phase (sampleReader smallFile kNoExceptionsMasked) 0 3
      (by decide) (by decide)).1 .GetImageName ⟨3, []⟩ ⟨3, ['a', 'b', NUL]⟩ rfl rfl rfl
      (by decide) (by decide),
   (C8_positive_length_two_phase (sampleReader smallFile kNoExceptionsMasked) 0 2
      (by decide) (by decide)).2 .GetChannelName 1 ⟨2, []⟩ ⟨2, ['B', NUL]⟩ rfl rfl rfl
      (by decide) (by decide)⟩

/-- C8, counterexample: a first-phase length of `2^31` is a positive unsigned 32-bit
value, but `int char_count` receives `-2^31`: `GetString` allocates nothing, issues no
second-phase query and returns the empty string although the reader would store `"ab"`. -/
theorem C8_counterexample_length_two_pow_31 :
    (0 : Nat) < 2147483648 ∧ (2147483648 : Nat) < 4294967296 ∧
    toSInt32 2147483648 = -2147483648 ∧
    (sampleReader { smallFile with stringLength := 2147483648 } kNoExceptionsMasked).call
      .GetImageName true 0 = .ok ⟨2147483648, ['a', 'b', NUL]⟩ ∧
    (CaptureDataFrame.GetString
      (sampleReader { smallFile with stringLength := 2147483648 } kNoExceptionsMasked) 0
      .GetImageName).events = [.stringQuery .GetImageName none 0] ∧
    (CaptureDataFrame.GetString
      (sampleReader { smallFile with stringLength := 2147483648 } kNoExceptionsMasked) 0
      .GetImageName).result = .ok [] :=
  ⟨by decide, by decide, by decide, rfl, rfl, rfl⟩

/-! ## Runs that return -/

theorem Run.bind_result_ok {α β : Type} {x : Run α} {f : α → Run β} {b : β}
    (h : (x >>= f).result = .ok b) : ∃ a, x.result = .ok a ∧ (f a).result = .ok b := by
  rw [Run.bind_eq] at h
  unfold Run.bind at h
  cases hx : x.result with
  | ok a =>
    rw [hx] at h
    exact ⟨a, rfl, h⟩
  | error e =>
    rw [hx] at h
    simp at h

theorem Run.pure_result_ok {α : Type} {a b : α} (h : (pure a : Run α).result = .ok b) :
    a = b := by
  rw [Run.pure_eq] at h
  simpa using h

theorem Run.ofReader_result_ok {α : Type} {q : Except Exception α} {a : α}
    (h : (Run.ofReader q).result = .ok a) : q = .ok a := by
  cases q with
  | ok v =>
    simp only [Run.ofReader, Except.ok.injEq] at h
    rw [h]
  | error e => simp [Run.ofReader] at h

/-- A property that holds before a loop and is carried by every iteration that returns
holds of what the loop returns; `Inv k` is the property after `k` iterations. -/
theorem forFrom_invariant {σ : Type} (body : Int → σ → Run σ) :
    ∀ (n : Nat) (Inv : Nat → σ → Prop) (a : Int) (s : σ), Inv 0 s →
      (∀ k, k < n → ∀ s1 s2, Inv k s1 → (body (a + k) s1).result = .ok s2 → Inv (k + 1) s2) →
      ∀ s2, (forFrom body n a s).result = .ok s2 → Inv n s2 := by
  intro n
  induction n with
  | zero =>
    intro Inv a s h0 _ s2 h
    simp only [forFrom, Run.pure_result, Except.ok.injEq] at h
    rw [← h]
    exact h0
  | succ n ih =>
    intro Inv a s h0 hstep s2 h
    simp only [forFrom] at h
    rw [← Run.bind_eq] at h
    obtain ⟨s1, hs1, hrest⟩ := Run.bind_result_ok h
    have h1 : Inv 1 s1 := by
      have := hstep 0 (by omega) s s1 h0
      simp only [Nat.cast_zero, add_zero, zero_add] at this
      exact this hs1
    refine ih (fun k => Inv (k + 1)) (a + 1) s1 h1 ?_ s2 hrest
    intro k hk t1 t2 hinv hbody
    have := hstep (k + 1) (by omega) t1 t2 hinv
    have hidx : a + ((k + 1 : Nat) : Int) = a + 1 + (k : Int) := by push_cast; ring
    rw [hidx] at this
    exact this hbody

theorem forInt_invariant {σ : Type} (body : Int → σ → Run σ) (n : Int) (Inv : Nat → σ → Prop)
    (s : σ) (h0 : Inv 0 s)
    (hstep : ∀ k, k < n.toNat → ∀ s1 s2, Inv k s1 → (body k s1).result = .ok s2 → Inv (k + 1) s2)
    (s2 : σ) (h : (forInt n body s).result = .ok s2) : Inv n.toNat s2 := by
  unfold forInt at h
  refine forFrom_invariant body n.toNat Inv 0 s h0 ?_ s2 h
  intro k hk s1 t hinv hb
  rw [zero_add] at hb
  exact hstep k hk s1 t hinv hb

/-! ## The constructor of `CaptureDataFrame` -/

/-- What one iteration of the channel loop of the constructor does when it returns. -/
theorem pushChannel_result_ok (r : SBReadFile) (capture_index i : Int)
    (cp cp2 : CaptureDataFrame)
    (h : (CaptureDataFrame.pushChannel r capture_index i cp).result = .ok cp2) :
    ∃ name e,
      (CaptureDataFrame.GetChannelString r capture_index i .GetChannelName).result = .ok name ∧
      r.GetExposureTime capture_index i = .ok e ∧
      cp2 = { cp with channel_names := cp.channel_names ++ [name],
                      exposure_time := cp.exposure_time ++ [toSInt32 e] } := by
  unfold CaptureDataFrame.pushChannel at h
  obtain ⟨name, hname, h⟩ := Run.bind_result_ok h
  obtain ⟨e, he, h⟩ := Run.bind_result_ok h
  exact ⟨name, e, hname, Run.ofReader_result_ok he, (Run.pure_result_ok h).symm⟩

/-- What the member initialisers leave in the members the constructor body works on. -/
theorem init_result_ok (r : SBReadFile) (capture_index position_index : Int)
    (cp : CaptureDataFrame)
    (h : (CaptureDataFrame.init r capture_index position_index).result = .ok cp) :
    r.GetNumChannels capture_index = .ok cp.number_channels ∧
    cp.channel_names = [] ∧ cp.exposure_time = [] ∧ cp.voxel_size = (none, none, none) := by
  unfold CaptureDataFrame.init at h
  obtain ⟨v1, _, h⟩ := Run.bind_result_ok h
  obtain ⟨v2, _, h⟩ := Run.bind_result_ok h
  obtain ⟨v3, h3, h⟩ := Run.bind_result_ok h
  obtain ⟨v4, _, h⟩ := Run.bind_result_ok h
  obtain ⟨v5, _, h⟩ := Run.bind_result_ok h
  obtain ⟨v6, _, h⟩ := Run.bind_result_ok h
  obtain ⟨v7, _, h⟩ := Run.bind_result_ok h
  obtain ⟨v8, _, h⟩ := Run.bind_result_ok h
  obtain ⟨v9, _, h⟩ := Run.bind_result_ok h
  obtain ⟨v10, _, h⟩ := Run.bind_result_ok h
  obtain ⟨v11, _, h⟩ := Run.bind_result_ok h
  obtain ⟨v12, _, h⟩ := Run.bind_result_ok h
  have h := Run.pure_result_ok h
  subst h
  exact ⟨Run.ofReader_result_ok h3, rfl, rfl, rfl⟩

theorem setVoxel_number_channels (cp : CaptureDataFrame) (reply : VoxelReply) :
    (cp.setVoxel reply).number_channels = cp.number_channels := by
  unfold CaptureDataFrame.setVoxel
  dsimp only
  split <;> rfl

theorem setVoxel_channel_names (cp : CaptureDataFrame) (reply : VoxelReply) :
    (cp.setVoxel reply).channel_names = cp.channel_names := by
  unfold CaptureDataFrame.setVoxel
  dsimp only
  split <;> rfl

theorem setVoxel_exposure_time (cp : CaptureDataFrame) (reply : VoxelReply) :
    (cp.setVoxel reply).exposure_time = cp.exposure_time := by
  unfold CaptureDataFrame.setVoxel
  dsimp only
  split <;> rfl

theorem setVoxel_has_voxel_size (cp : CaptureDataFrame) (reply : VoxelReply) :
    (cp.setVoxel reply).has_voxel_size = reply.ret := by
  unfold CaptureDataFrame.setVoxel
  dsimp only
  split <;> rfl

theorem setVoxel_voxel_size_false (cp : CaptureDataFrame) (reply : VoxelReply)
    (h : reply.ret = false) :
    (cp.setVoxel reply).voxel_size = (some Float32.one, some Float32.one, some Float32.one) := by
  unfold CaptureDataFrame.setVoxel
  simp [h]

theorem setVoxel_voxel_size_true (cp : CaptureDataFrame) (reply : VoxelReply)
    (h : reply.ret = true) (hold : cp.voxel_size = (none, none, none)) :
    (cp.setVoxel reply).voxel_size = (reply.outX, reply.outY, reply.outZ) := by
  unfold CaptureDataFrame.setVoxel storeVoxel
  simp [h, hold]

/-- What the constructor body does when it returns. -/
theorem body_result_ok (r : SBReadFile) (capture_index : Int) (cp cp2 : CaptureDataFrame)
    (h : (CaptureDataFrame.body r capture_index cp).result = .ok cp2) :
    ∃ reply, r.GetVoxelSize capture_index = .ok reply ∧
      (forInt (cp.setVoxel reply).number_channels
        (CaptureDataFrame.pushChannel r capture_index) (cp.setVoxel reply)).result = .ok cp2 := by
  unfold CaptureDataFrame.body at h
  obtain ⟨reply, hreply, h⟩ := Run.bind_result_ok h
  exact ⟨reply, Run.ofReader_result_ok hreply, h⟩

/-- What the constructor does when it returns: the initialised frame, the voxel reply and
the channel loop. -/
theorem new_result_ok (r : SBReadFile) (capture_index position_index : Int)
    (cp : CaptureDataFrame)
    (h : (CaptureDataFrame.new r capture_index position_index).result = .ok cp) :
    ∃ cp0 reply,
      (CaptureDataFrame.init r capture_index position_index).result = .ok cp0 ∧
      r.GetVoxelSize capture_index = .ok reply ∧
      (forInt cp0.number_channels (CaptureDataFrame.pushChannel r capture_index)
        (cp0.setVoxel reply)).result = .ok cp := by
  unfold CaptureDataFrame.new at h
  obtain ⟨cp0, h0, h⟩ := Run.bind_result_ok h
  obtain ⟨reply, hreply, h⟩ := body_result_ok r capture_index cp0 cp h
  rw [setVoxel_number_channels] at h
  exact ⟨cp0, reply, h0, hreply, h⟩

/-- The channel loop of the constructor leaves the voxel members and the channel count as
they are. -/
theorem pushChannel_loop_keeps (r : SBReadFile) (capture_index : Int) (n : Int)
    (cp cp2 : CaptureDataFrame)
    (h : (forInt n (CaptureDataFrame.pushChannel r capture_index) cp).result = .ok cp2) :
    cp2.has_voxel_size = cp.has_voxel_size ∧ cp2.voxel_size = cp.voxel_size ∧
    cp2.number_channels = cp.number_channels := by
  refine forInt_invariant (CaptureDataFrame.pushChannel r capture_index) n
    (fun _ s => s.has_voxel_size = cp.has_voxel_size ∧ s.voxel_size = cp.voxel_size ∧
      s.number_channels = cp.number_channels) cp ⟨rfl, rfl, rfl⟩ ?_ cp2 h
  intro k _ s1 s2 hinv hb
  obtain ⟨nm, ex, _, _, hs2⟩ := pushChannel_result_ok r capture_index k s1 s2 hb
  subst hs2
  exact hinv

/-- The channel loop of the constructor appends, for each channel in order, the retrieved
name and the exposure time converted to `SInt32`. -/
theorem pushChannel_loop_appends (r : SBReadFile) (capture_index : Int) (n : Int)
    (cp cp2 : CaptureDataFrame) (hnames : cp.channel_names = []) (hexp : cp.exposure_time = [])
    (h : (forInt n (CaptureDataFrame.pushChannel r capture_index) cp).result = .ok cp2) :
    cp2.channel_names.length = n.toNat ∧ cp2.exposure_time.length = n.toNat ∧
    ∀ i : Nat, i < n.toNat → ∃ name e,
      (CaptureDataFrame.GetChannelString r capture_index i .GetChannelName).result = .ok name ∧
      r.GetExposureTime capture_index i = .ok e ∧
      cp2.channel_names[i]? = some name ∧ cp2.exposure_time[i]? = some (toSInt32 e) := by
  refine forInt_invariant (CaptureDataFrame.pushChannel r capture_index) n
    (fun k s => s.channel_names.length = k ∧ s.exposure_time.length = k ∧
      ∀ i : Nat, i < k → ∃ name e,
        (CaptureDataFrame.GetChannelString r capture_index i .GetChannelName).result
          = .ok name ∧
        r.GetExposureTime capture_index i = .ok e ∧
        s.channel_names[i]? = some name ∧ s.exposure_time[i]? = some (toSInt32 e))
    cp ?_ ?_ cp2 h
  · refine ⟨by rw [hnames]; rfl, by rw [hexp]; rfl, ?_⟩
    intro i hi
    omega
  · intro k _ s1 s2 hinv hb
    obtain ⟨hlen1, hlen2, hall⟩ := hinv
    obtain ⟨nm, ex, hname, he, hs2⟩ := pushChannel_result_ok r capture_index k s1 s2 hb
    have hcn : s2.channel_names = s1.channel_names ++ [nm] := by rw [hs2]
    have het : s2.exposure_time = s1.exposure_time ++ [toSInt32 ex] := by rw [hs2]
    refine ⟨?_, ?_, ?_⟩
    · rw [hcn, List.length_append, hlen1]; rfl
    · rw [het, List.length_append, hlen2]; rfl
    · intro i hi
      by_cases hik : i < k
      · obtain ⟨name1, e1, h1, h2, h3, h4⟩ := hall i hik
        have hlt1 : i < s1.channel_names.length := by rw [hlen1]; exact hik
        have hlt2 : i < s1.exposure_time.length := by rw [hlen2]; exact hik
        refine ⟨name1, e1, h1, h2, ?_, ?_⟩
        · rw [hcn, List.getElem?_append_left hlt1, h3]
        · rw [het, List.getElem?_append_left hlt2, h4]
      · have hk : i = k := Nat.le_antisymm (Nat.le_of_lt_succ hi) (Nat.le_of_not_lt hik)
        have hge1 : s1.channel_names.length ≤ i := by rw [hlen1, hk]
        have hge2 : s1.exposure_time.length ≤ i := by rw [hlen2, hk]
        have hz1 : i - s1.channel_names.length = 0 := by rw [hlen1, hk]; exact Nat.sub_self k
        have hz2 : i - s1.exposure_time.length = 0 := by rw [hlen2, hk]; exact Nat.sub_self k
        refine ⟨nm, ex, by rw [hk]; exact hname, by rw [hk]; exact he, ?_, ?_⟩
        · rw [hcn, List.getElem?_append_right hge1, hz1, List.getElem?_cons_zero]
        · rw [het, List.getElem?_append_right hge2, hz2, List.getElem?_cons_zero]

/-- A run that was not cut short returned a value. -/
theorem Run.returns_of_ending {α : Type} {x : Run α} (h : x.ending = none) :
    ∃ a, x.result = .ok a := by
  unfold Run.ending at h
  cases hx : x.result with
  | ok a => exact ⟨a, rfl⟩
  | error e =>
    rw [hx] at h
    simp at h

/-- C9 (as amended): for every reader and capture index with `numChannels = n ≥ 0`, the
constructed `CaptureDataFrame` has `channel_names` and `exposure_time` of length exactly
`n`, and for every `i` in `[0, n)` `channel_names[i]` is the string retrieved for channel
`i` and `exposure_time[i]` is the reader's exposure time for channel `i` converted to
`SInt32`, which is the reader's value itself whenever that is below `2^31` (channel order
preserved). -/
theorem C9_channel_vectors_in_order (r : SBReadFile) (capture_index position_index : Int)
    (cp : CaptureDataFrame) (n : Int)
    (hnew : (CaptureDataFrame.new r capture_index position_index).result = .ok cp)
    (hn : r.GetNumChannels capture_index = .ok n) (hn0 : 0 ≤ n) :
    cp.number_channels = n ∧
    (cp.channel_names.length : Int) = n ∧ (cp.exposure_time.length : Int) = n ∧
    ∀ i : Nat, (i : Int) < n → ∃ name exposure,
      (CaptureDataFrame.GetChannelString r capture_index i .GetChannelName).result = .ok name ∧
      r.GetExposureTime capture_index i = .ok exposure ∧
      cp.channel_names[i]? = some name ∧
      cp.exposure_time[i]? = some (toSInt32 exposure) ∧
      (exposure < 2147483648 → cp.exposure_time[i]? = some (exposure : Int)) := by
  obtain ⟨cp0, reply, hinit, _, hloop⟩ := new_result_ok r capture_index position_index cp hnew
  obtain ⟨hch, hnames, hexp, _⟩ := init_result_ok r capture_index position_index cp0 hinit
  have hcount : cp0.number_channels = n := by
    rw [hch] at hn
    exact Except.ok.inj hn
  rw [hcount] at hloop
  obtain ⟨_, _, hkeep⟩ := pushChannel_loop_keeps r capture_index n _ cp hloop
  obtain ⟨hlen1, hlen2, hall⟩ := pushChannel_loop_appends r capture_index n _ cp
    (by rw [setVoxel_channel_names]; exact hnames)
    (by rw [setVoxel_exposure_time]; exact hexp) hloop
  refine ⟨by rw [hkeep, setVoxel_number_channels]; exact hcount, by rw [hlen1]; omega,
    by rw [hlen2]; omega, ?_⟩
  intro i hi
  obtain ⟨nm, ex, h1, h2, h3, h4⟩ := hall i (by omega)
  refine ⟨nm, ex, h1, h2, h3, h4, ?_⟩
  intro hsmall
  rw [h4, toSInt32_of_lt hsmall]

/-- C9, witness: the sample reader has two channels, named `"A"` and `"B"`, exposed 10 ms
and 20 ms. -/
theorem C9_channel_vectors_witness :
    ∃ cp, (CaptureDataFrame.new (sampleReader smallFile kNoExceptionsMasked) 0 0).result
        = .ok cp ∧
      cp.number_channels = 2 ∧
      (cp.channel_names.length : Int) = 2 ∧ (cp.exposure_time.length : Int) = 2 ∧
      ∀ i : Nat, (i : Int) < 2 → ∃ name exposure,
        (CaptureDataFrame.GetChannelString (sampleReader smallFile kNoExceptionsMasked) 0 i
          .GetChannelName).result = .ok name ∧
        (sampleReader smallFile kNoExceptionsMasked).GetExposureTime 0 i = .ok exposure ∧
        cp.channel_names[i]? = some name ∧
        cp.exposure_time[i]? = some (toSInt32 exposure) ∧
        (exposure < 2147483648 → cp.exposure_time[i]? = some (exposure : Int)) :=
  Exists.elim
    (Run.returns_of_ending
      (x := CaptureDataFrame.new (sampleReader smallFile kNoExceptionsMasked) 0 0) (by decide))
    (fun cp h => ⟨cp, h,
      C9_channel_vectors_in_order (sampleReader smallFile kNoExceptionsMasked) 0 0 cp 2 h rfl
        (by decide)⟩)

/-- C9, counterexample: a reader whose exposure time is `2^31` ms for every channel. The
frame is constructed, and `exposure_time` holds `-2^31` for both channels: not the reader's
exposure time. -/
theorem C9_counterexample_large_exposure :
    (sampleReader { smallFile with exposure := fun _ => 2147483648 }
      kNoExceptionsMasked).GetExposureTime 0 0 = .ok 2147483648 ∧
    (CaptureDataFrame.new
      (sampleReader { smallFile with exposure := fun _ => 2147483648 } kNoExceptionsMasked)
      0 0).result.toOption.map (fun cp => cp.exposure_time)
      = some [-2147483648, -2147483648] :=
  ⟨rfl, by decide⟩

/-- C10: for every reader and capture index, the voxel size of the constructed
`CaptureDataFrame` is either fully defined or fully defaulted. If `GetVoxelSize` reports
`false`, `has_voxel_size` is `false` and `voxel_size` is exactly `(1.0, 1.0, 1.0)` whatever
the reader stored in the outputs; if it reports `true`, `has_voxel_size` is `true` and the
three components are exactly what the reader stored. -/
theorem C10_voxel_size_defined_or_defaulted (r : SBReadFile)
    (capture_index position_index : Int) (cp : CaptureDataFrame)
    (hnew : (CaptureDataFrame.new r capture_index position_index).result = .ok cp) :
    ∃ reply, r.GetVoxelSize capture_index = .ok reply ∧
      (reply.ret = false →
        cp.has_voxel_size = false ∧
        cp.voxel_size = (some Float32.one, some Float32.one, some Float32.one)) ∧
      (reply.ret = true →
        cp.has_voxel_size = true ∧
        cp.voxel_size = (reply.outX, reply.outY, reply.outZ)) := by
  obtain ⟨cp0, reply, hinit, hreply, hloop⟩ :=
    new_result_ok r capture_index position_index cp hnew
  obtain ⟨_, _, _, hvox⟩ := init_result_ok r capture_index position_index cp0 hinit
  obtain ⟨hhas, hsize, _⟩ := pushChannel_loop_keeps r capture_index _ _ cp hloop
  refine ⟨reply, hreply, ?_, ?_⟩
  · intro hret
    refine ⟨?_, ?_⟩
    · rw [hhas, setVoxel_has_voxel_size, hret]
    · rw [hsize, setVoxel_voxel_size_false cp0 reply hret]
  · intro hret
    refine ⟨?_, ?_⟩
    · rw [hhas, setVoxel_has_voxel_size, hret]
    · rw [hsize, setVoxel_voxel_size_true cp0 reply hret hvox]

/-- C10, witness: a reader that reports no voxel size although it stored something in two
of the outputs; the frame is constructed and its voxel size is the default. -/
theorem C10_voxel_size_witness :
    ∃ cp, (CaptureDataFrame.new
        (sampleReader { smallFile with voxel := ⟨false, some ⟨7⟩, none, some ⟨9⟩⟩ }
          kNoExceptionsMasked) 0 0).result = .ok cp ∧
      cp.has_voxel_size = false ∧
      cp.voxel_size = (some Float32.one, some Float32.one, some Float32.one) :=
  Exists.elim
    (Run.returns_of_ending
      (x := CaptureDataFrame.new
        (sampleReader { smallFile with voxel := ⟨false, some ⟨7⟩, none, some ⟨9⟩⟩ }
          kNoExceptionsMasked) 0 0) (by decide))
    (fun cp h => ⟨cp, h,
      Exists.elim
        (C10_voxel_size_defined_or_defaulted
          (sampleReader { smallFile with voxel := ⟨false, some ⟨7⟩, none, some ⟨9⟩⟩ }
            kNoExceptionsMasked) 0 0 cp h)
        (fun reply hr => hr.2.1 (congrArg VoxelReply.ret (Except.ok.inj hr.1.symm)))⟩)

/-! ## Loops that run to their end, loops that are cut short -/

theorem Run.eq_of_parts {α : Type} {x : Run α} {ev : List Event} {res : Except Abort α}
    (h1 : x.events = ev) (h2 : x.result = res) : x = ⟨ev, res⟩ := by
  cases x
  simp only at h1 h2
  rw [h1, h2]

theorem flatMap_range_shift {β : Type} (ev : Int → List β) (a : Int) (n : Nat) :
    (List.range (n + 1)).flatMap (fun k => ev (a + (k : Nat)))
      = ev a ++ (List.range n).flatMap (fun k => ev (a + 1 + (k : Nat))) := by
  rw [List.range_succ_eq_map, List.flatMap_cons, List.flatMap_map]
  have h0 : a + ((0 : Nat) : Int) = a := by simp
  rw [h0]
  congr 1
  refine congrArg (fun f => List.flatMap (List.range n) f) ?_
  funext k
  have hk : a + ((k.succ : Nat) : Int) = a + 1 + (k : Int) := by push_cast; ring
  simp only [Function.comp, hk]

/-- A loop all of whose passes return produces the events of the passes in order and
returns; `Inv` is a property of the state the passes keep, `ev i` the events of pass `i`. -/
theorem forFrom_run_ok {σ : Type} (body : Int → σ → Run σ) (ev : Int → List Event)
    (Inv : σ → Prop) :
    ∀ (n : Nat) (a : Int) (s : σ), Inv s →
      (∀ k : Nat, k < n → ∀ s1, Inv s1 →
        (body (a + k) s1).events = ev (a + k) ∧
        ∃ s2, (body (a + k) s1).result = .ok s2 ∧ Inv s2) →
      (forFrom body n a s).events = (List.range n).flatMap (fun k => ev (a + (k : Nat))) ∧
      ∃ s2, (forFrom body n a s).result = .ok s2 ∧ Inv s2 := by
  intro n
  induction n with
  | zero =>
    intro a s hs _
    exact ⟨rfl, s, rfl, hs⟩
  | succ n ih =>
    intro a s hs hstep
    obtain ⟨hev, s1, hres, hs1⟩ := hstep 0 (by omega) s hs
    simp only [Nat.cast_zero, add_zero] at hev hres
    have hrest := ih (a + 1) s1 hs1 (by
      intro k hk t ht
      have hthis := hstep (k + 1) (by omega) t ht
      have hidx : a + ((k + 1 : Nat) : Int) = a + 1 + (k : Int) := by push_cast; ring
      rw [hidx] at hthis
      exact hthis)
    obtain ⟨hev2, s2, hres2, hs2⟩ := hrest
    have hunf : forFrom body (n + 1) a s
        = Run.bind (body a s) (fun s1 => forFrom body n (a + 1) s1) := rfl
    rw [hunf, Run.bind_of_ok hres]
    refine ⟨?_, s2, hres2, hs2⟩
    simp only
    rw [hev, hev2, flatMap_range_shift]

/-- A loop whose pass `j` is cut short produces the events of the passes before it and of
that pass, and is cut short the same way: no later pass runs. -/
theorem forFrom_run_abort {σ : Type} (body : Int → σ → Run σ) (ev : Int → List Event)
    (Inv : σ → Prop) (evLast : List Event) (e : Abort) :
    ∀ (j n : Nat) (a : Int) (s : σ), j < n → Inv s →
      (∀ k : Nat, k < j → ∀ s1, Inv s1 →
        (body (a + k) s1).events = ev (a + k) ∧
        ∃ s2, (body (a + k) s1).result = .ok s2 ∧ Inv s2) →
      (∀ s1, Inv s1 →
        (body (a + j) s1).events = evLast ∧ (body (a + j) s1).result = .error e) →
      (forFrom body n a s).events
        = (List.range j).flatMap (fun k => ev (a + (k : Nat))) ++ evLast ∧
      (forFrom body n a s).result = .error e := by
  intro j
  induction j with
  | zero =>
    intro n a s hjn hs _ hlast
    obtain ⟨m, rfl⟩ : ∃ m, n = m + 1 := ⟨n - 1, by omega⟩
    obtain ⟨hev, hres⟩ := hlast s hs
    simp only [Nat.cast_zero, add_zero] at hev hres
    have hunf : forFrom body (m + 1) a s
        = Run.bind (body a s) (fun s1 => forFrom body m (a + 1) s1) := rfl
    rw [hunf, Run.bind_of_error hres]
    exact ⟨by simp [hev], rfl⟩
  | succ j ih =>
    intro n a s hjn hs hstep hlast
    obtain ⟨m, rfl⟩ : ∃ m, n = m + 1 := ⟨n - 1, by omega⟩
    obtain ⟨hev, s1, hres, hs1⟩ := hstep 0 (by omega) s hs
    simp only [Nat.cast_zero, add_zero] at hev hres
    have hidx : ∀ k : Nat, a + ((k + 1 : Nat) : Int) = a + 1 + (k : Int) := by
      intro k
      push_cast
      ring
    have hrest := ih m (a + 1) s1 (by omega) hs1 (by
      intro k hk t ht
      have hthis := hstep (k + 1) (by omega) t ht
      rw [hidx] at hthis
      exact hthis) (by
      intro t ht
      have hthis := hlast t ht
      rw [hidx] at hthis
      exact hthis)
    obtain ⟨hev2, hres2⟩ := hrest
    have hunf : forFrom body (m + 1) a s
        = Run.bind (body a s) (fun s1 => forFrom body m (a + 1) s1) := rfl
    rw [hunf, Run.bind_of_ok hres]
    refine ⟨?_, hres2⟩
    simp only
    rw [hev, hev2, flatMap_range_shift, List.append_assoc]

theorem forInt_run_ok {σ : Type} (body : Int → σ → Run σ) (ev : Int → List Event)
    (Inv : σ → Prop) (n : Int) (s : σ) (hs : Inv s)
    (hstep : ∀ k : Nat, k < n.toNat → ∀ s1, Inv s1 →
      (body k s1).events = ev k ∧ ∃ s2, (body k s1).result = .ok s2 ∧ Inv s2) :
    (forInt n body s).events = (List.range n.toNat).flatMap (fun k => ev (k : Nat)) ∧
    ∃ s2, (forInt n body s).result = .ok s2 ∧ Inv s2 := by
  have h := forFrom_run_ok body ev Inv n.toNat 0 s hs (by
    intro k hk s1 hs1
    rw [zero_add]
    exact hstep k hk s1 hs1)
  simp only [zero_add] at h
  exact h

theorem forInt_run_abort {σ : Type} (body : Int → σ → Run σ) (ev : Int → List Event)
    (Inv : σ → Prop) (evLast : List Event) (e : Abort) (j : Nat) (n : Int) (s : σ)
    (hjn : j < n.toNat) (hs : Inv s)
    (hstep : ∀ k : Nat, k < j → ∀ s1, Inv s1 →
      (body k s1).events = ev k ∧ ∃ s2, (body k s1).result = .ok s2 ∧ Inv s2)
    (hlast : ∀ s1, Inv s1 → (body j s1).events = evLast ∧ (body j s1).result = .error e) :
    (forInt n body s).events = (List.range j).flatMap (fun k => ev (k : Nat)) ++ evLast ∧
    (forInt n body s).result = .error e := by
  have h := forFrom_run_abort body ev Inv evLast e j n.toNat 0 s hjn hs (by
    intro k hk s1 hs1
    rw [zero_add]
    exact hstep k hk s1 hs1) (by
    intro s1 hs1
    rw [zero_add]
    exact hlast s1 hs1)
  simp only [zero_add] at h
  exact h

/-! ## The three loops of the traversal -/

theorem readZ_ok (r : SBReadFile) (planeSize capture_index t c z : Int) (cp : CaptureDataFrame)
    (b : Bool) (h : r.ReadImagePlaneBuf capture_index 0 t (toUInt16 z) c = .ok b) :
    readZ r planeSize capture_index t c z cp
      = ⟨[.readPlane (toSizeT (toSizeT z * planeSize)) capture_index 0 t (toUInt16 z) c],
         .ok cp⟩ := by
  unfold readZ
  simp only [Run.bind_eq, Run.pure_eq]
  rw [Run.emit_bind, h, Run.ofReader_ok_bind]
  rfl

theorem readZ_raise (r : SBReadFile) (planeSize capture_index t c z : Int)
    (cp : CaptureDataFrame) (e : Exception)
    (h : r.ReadImagePlaneBuf capture_index 0 t (toUInt16 z) c = .error e) :
    readZ r planeSize capture_index t c z cp
      = ⟨[.readPlane (toSizeT (toSizeT z * planeSize)) capture_index 0 t (toUInt16 z) c],
         .error (.exception e)⟩ := by
  unfold readZ
  simp only [Run.bind_eq, Run.pure_eq]
  rw [Run.emit_bind, h, Run.ofReader_error_bind]

/-- The Z loop when none of its reads raises: one read per plane, the frame unchanged. -/
theorem zLoop_ok (r : SBReadFile) (planeSize capture_index t c : Int) (cp : CaptureDataFrame)
    (Z : Int)
    (h : ∀ z : Nat, z < Z.toNat →
      ∃ b, r.ReadImagePlaneBuf capture_index 0 t (toUInt16 z) c = .ok b) :
    forInt Z (readZ r planeSize capture_index t c) cp
      = ⟨zReads planeSize capture_index t c Z.toNat, .ok cp⟩ := by
  obtain ⟨hev, s2, hres, hs2⟩ := forInt_run_ok (readZ r planeSize capture_index t c)
    (fun z => [.readPlane (toSizeT (toSizeT z * planeSize)) capture_index 0 t (toUInt16 z) c])
    (fun s => s = cp) Z cp rfl (by
      intro k hk s1 hs1
      obtain ⟨b, hb⟩ := h k hk
      rw [readZ_ok r planeSize capture_index t c k s1 b hb]
      exact ⟨rfl, s1, rfl, hs1⟩)
  rw [hs2] at hres
  exact Run.eq_of_parts hev hres

theorem zReads_succ (planeSize capture_index t c : Int) (z0 : Nat) :
    zReads planeSize capture_index t c (z0 + 1)
      = zReads planeSize capture_index t c z0
        ++ [.readPlane (toSizeT (toSizeT z0 * planeSize)) capture_index 0 t (toUInt16 z0) c] := by
  unfold zReads
  rw [List.range_succ, List.flatMap_append]
  simp

/-- The Z loop when the read of plane `z0` is the first to raise: the reads up to and
including `z0`, then the exception. -/
theorem zLoop_raise (r : SBReadFile) (planeSize capture_index t c : Int)
    (cp : CaptureDataFrame) (Z : Int) (z0 : Nat) (e : Exception) (hz0 : z0 < Z.toNat)
    (h : ∀ z : Nat, z < z0 →
      ∃ b, r.ReadImagePlaneBuf capture_index 0 t (toUInt16 z) c = .ok b)
    (hraise : r.ReadImagePlaneBuf capture_index 0 t (toUInt16 z0) c = .error e) :
    forInt Z (readZ r planeSize capture_index t c) cp
      = ⟨zReads planeSize capture_index t c (z0 + 1), .error (.exception e)⟩ := by
  obtain ⟨hev, hres⟩ := forInt_run_abort (readZ r planeSize capture_index t c)
    (fun z => [.readPlane (toSizeT (toSizeT z * planeSize)) capture_index 0 t (toUInt16 z) c])
    (fun s => s = cp)
    [.readPlane (toSizeT (toSizeT z0 * planeSize)) capture_index 0 t (toUInt16 z0) c]
    (.exception e) z0 Z cp hz0 rfl (by
      intro k hk s1 hs1
      obtain ⟨b, hb⟩ := h k hk
      rw [readZ_ok r planeSize capture_index t c k s1 b hb]
      exact ⟨rfl, s1, rfl, hs1⟩) (by
      intro s1 _
      rw [readZ_raise r planeSize capture_index t c z0 s1 e hraise]
      exact ⟨rfl, rfl⟩)
  rw [zReads_succ]
  exact Run.eq_of_parts hev hres

/-- One pass of the channel loop when none of its reads raises. -/
theorem channelBody_ok (r : SBReadFile) (planeSize capture_index t c : Int)
    (cp : CaptureDataFrame)
    (h : ∀ z : Nat, z < cp.zDim.toNat →
      ∃ b, r.ReadImagePlaneBuf capture_index 0 t (toUInt16 z) c = .ok b) :
    channelBody r planeSize capture_index t c cp
      = ⟨channelEvents planeSize capture_index cp.zDim.toNat t c,
         .ok { cp with channels_index := some c }⟩ := by
  unfold channelBody
  simp only [Run.bind_eq, Run.pure_eq]
  rw [zLoop_ok r planeSize capture_index t c _ cp.zDim h]
  rfl

/-- One pass of the channel loop when the read of plane `z0` is the first to raise: the
line of the pass is not printed. -/
theorem channelBody_raise (r : SBReadFile) (planeSize capture_index t c : Int)
    (cp : CaptureDataFrame) (z0 : Nat) (e : Exception) (hz0 : z0 < cp.zDim.toNat)
    (h : ∀ z : Nat, z < z0 →
      ∃ b, r.ReadImagePlaneBuf capture_index 0 t (toUInt16 z) c = .ok b)
    (hraise : r.ReadImagePlaneBuf capture_index 0 t (toUInt16 z0) c = .error e) :
    channelBody r planeSize capture_index t c cp
      = ⟨zReads planeSize capture_index t c (z0 + 1), .error (.exception e)⟩ := by
  unfold channelBody
  simp only [Run.bind_eq, Run.pure_eq]
  rw [zLoop_raise r planeSize capture_index t c _ cp.zDim z0 e hz0 h hraise]
  rfl

/-- What the loops keep of the frame: the three counts they are bounded by. -/
theorem timepointBody_ok (r : SBReadFile) (planeSize capture_index t : Int)
    (cp : CaptureDataFrame) (C Z : Nat) (hC : cp.number_channels.toNat = C)
    (hZ : cp.zDim.toNat = Z)
    (h : ∀ c z : Nat, c < C → z < Z →
      ∃ b, r.ReadImagePlaneBuf capture_index 0 t (toUInt16 z) c = .ok b) :
    (timepointBody r planeSize capture_index t cp).events
      = timepointEvents planeSize capture_index C Z t ∧
    ∃ s2, (timepointBody r planeSize capture_index t cp).result = .ok s2 ∧
      s2.number_channels = cp.number_channels ∧ s2.zDim = cp.zDim ∧
      s2.number_timepoints = cp.number_timepoints := by
  unfold timepointBody
  have hrun := forInt_run_ok (channelBody r planeSize capture_index t)
    (fun c => channelEvents planeSize capture_index Z t c)
    (fun s => s.number_channels = cp.number_channels ∧ s.zDim = cp.zDim ∧
      s.number_timepoints = cp.number_timepoints)
    cp.number_channels { cp with timepoint_index := some t } ⟨rfl, rfl, rfl⟩ (by
      intro k hk s1 hs1
      have hz1 : s1.zDim.toNat = Z := by rw [hs1.2.1]; exact hZ
      rw [channelBody_ok r planeSize capture_index t k s1 (by
        intro z hz
        rw [hz1] at hz
        exact h k z (by rw [← hC]; exact hk) hz), hz1]
      exact ⟨rfl, _, rfl, hs1⟩)
  rw [hC] at hrun
  exact hrun

theorem timepointBody_raise (r : SBReadFile) (planeSize capture_index t : Int)
    (cp : CaptureDataFrame) (C Z : Nat) (hC : cp.number_channels.toNat = C)
    (hZ : cp.zDim.toNat = Z) (c0 z0 : Nat) (e : Exception) (hc0 : c0 < C) (hz0 : z0 < Z)
    (h : ∀ c z : Nat, c < c0 → z < Z →
      ∃ b, r.ReadImagePlaneBuf capture_index 0 t (toUInt16 z) c = .ok b)
    (hz : ∀ z : Nat, z < z0 →
      ∃ b, r.ReadImagePlaneBuf capture_index 0 t (toUInt16 z) c0 = .ok b)
    (hraise : r.ReadImagePlaneBuf capture_index 0 t (toUInt16 z0) c0 = .error e) :
    (timepointBody r planeSize capture_index t cp).events
      = (List.range c0).flatMap (fun c => channelEvents planeSize capture_index Z t (c : Nat))
        ++ zReads planeSize capture_index t c0 (z0 + 1) ∧
    (timepointBody r planeSize capture_index t cp).result = .error (.exception e) := by
  unfold timepointBody
  exact forInt_run_abort (channelBody r planeSize capture_index t)
    (fun c => channelEvents planeSize capture_index Z t c)
    (fun s => s.number_channels = cp.number_channels ∧ s.zDim = cp.zDim ∧
      s.number_timepoints = cp.number_timepoints)
    (zReads planeSize capture_index t c0 (z0 + 1)) (.exception e) c0
    cp.number_channels { cp with timepoint_index := some t } (by rw [hC]; exact hc0)
    ⟨rfl, rfl, rfl⟩ (by
      intro k hk s1 hs1
      have hz1 : s1.zDim.toNat = Z := by rw [hs1.2.1]; exact hZ
      rw [channelBody_ok r planeSize capture_index t k s1 (by
        intro z hzz
        rw [hz1] at hzz
        exact h k z hk hzz), hz1]
      exact ⟨rfl, _, rfl, hs1⟩) (by
      intro s1 hs1
      have hz1 : s1.zDim.toNat = Z := by rw [hs1.2.1]; exact hZ
      rw [channelBody_raise r planeSize capture_index t c0 s1 z0 e (by rw [hz1]; exact hz0)
        hz hraise]
      exact ⟨rfl, rfl⟩)

/-- The traversal when none of its reads raises: it runs to its end and its events are
those of `traversalEvents`. -/
theorem traversal_ok (r : SBReadFile) (planeSize capture_index : Int) (cp : CaptureDataFrame)
    (T C Z : Nat) (hT : cp.number_timepoints.toNat = T) (hC : cp.number_channels.toNat = C)
    (hZ : cp.zDim.toNat = Z)
    (h : ∀ t c z : Nat, t < T → c < C → z < Z →
      ∃ b, r.ReadImagePlaneBuf capture_index 0 t (toUInt16 z) c = .ok b) :
    (traversal r planeSize capture_index cp).events
      = traversalEvents planeSize capture_index T C Z ∧
    ∃ s2, (traversal r planeSize capture_index cp).result = .ok s2 := by
  unfold traversal
  have hrun := forInt_run_ok (timepointBody r planeSize capture_index)
    (fun t => timepointEvents planeSize capture_index C Z t)
    (fun s => s.number_channels = cp.number_channels ∧ s.zDim = cp.zDim ∧
      s.number_timepoints = cp.number_timepoints)
    cp.number_timepoints cp ⟨rfl, rfl, rfl⟩ (by
      intro k hk s1 hs1
      obtain ⟨hev, s2, hres, h1, h2, h3⟩ := timepointBody_ok r planeSize capture_index k s1 C Z
        (by rw [hs1.1]; exact hC) (by rw [hs1.2.1]; exact hZ)
        (fun c z hc hz => h k c z (by rw [← hT]; exact hk) hc hz)
      exact ⟨hev, s2, hres, h1.trans hs1.1, h2.trans hs1.2.1, h3.trans hs1.2.2⟩)
  rw [hT] at hrun
  obtain ⟨hev, s2, hres, _⟩ := hrun
  exact ⟨hev, s2, hres⟩

/-- The traversal when the read at `(t0, c0, z0)` is the first to raise: the events up to
and including that read, then the exception; nothing after it. -/
theorem traversal_raise (r : SBReadFile) (planeSize capture_index : Int)
    (cp : CaptureDataFrame) (T C Z : Nat) (hT : cp.number_timepoints.toNat = T)
    (hC : cp.number_channels.toNat = C) (hZ : cp.zDim.toNat = Z) (t0 c0 z0 : Nat)
    (e : Exception) (ht0 : t0 < T) (hc0 : c0 < C) (hz0 : z0 < Z)
    (h : ∀ t c z : Nat, t < T → c < C → z < Z →
      (t < t0 ∨ (t = t0 ∧ (c < c0 ∨ (c = c0 ∧ z < z0)))) →
      ∃ b, r.ReadImagePlaneBuf capture_index 0 t (toUInt16 z) c = .ok b)
    (hraise : r.ReadImagePlaneBuf capture_index 0 t0 (toUInt16 z0) c0 = .error e) :
    (traversal r planeSize capture_index cp).events
      = (List.range t0).flatMap
          (fun t => timepointEvents planeSize capture_index C Z (t : Nat))
        ++ ((List.range c0).flatMap
            (fun c => channelEvents planeSize capture_index Z t0 (c : Nat))
          ++ zReads planeSize capture_index t0 c0 (z0 + 1)) ∧
    (traversal r planeSize capture_index cp).result = .error (.exception e) := by
  unfold traversal
  exact forInt_run_abort (timepointBody r planeSize capture_index)
    (fun t => timepointEvents planeSize capture_index C Z t)
    (fun s => s.number_channels = cp.number_channels ∧ s.zDim = cp.zDim ∧
      s.number_timepoints = cp.number_timepoints) _ (.exception e) t0
    cp.number_timepoints cp (by rw [hT]; exact ht0) ⟨rfl, rfl, rfl⟩ (by
      intro k hk s1 hs1
      obtain ⟨hev, s2, hres, h1, h2, h3⟩ := timepointBody_ok r planeSize capture_index k s1 C Z
        (by rw [hs1.1]; exact hC) (by rw [hs1.2.1]; exact hZ)
        (fun c z hc hz => h k c z (by omega) hc hz (Or.inl hk))
      exact ⟨hev, s2, hres, h1.trans hs1.1, h2.trans hs1.2.1, h3.trans hs1.2.2⟩) (by
      intro s1 hs1
      exact timepointBody_raise r planeSize capture_index t0 s1 C Z
        (by rw [hs1.1]; exact hC) (by rw [hs1.2.1]; exact hZ) c0 z0 e hc0 hz0
        (fun c z hc hz => h t0 c z ht0 (by omega) hz (Or.inr ⟨rfl, Or.inl hc⟩))
        (fun z hz => h t0 c0 z ht0 hc0 (by omega) (Or.inr ⟨rfl, Or.inr ⟨rfl, hz⟩⟩))
        hraise)

/-! ## What the reader receives -/

theorem planeReads_append (l1 l2 : List Event) :
    planeReads (l1 ++ l2) = planeReads l1 ++ planeReads l2 := by
  induction l1 with
  | nil => rfl
  | cons ev rest ih =>
    cases ev <;> simp [planeReads, ih]

theorem planeReads_flatMap {α : Type} (l : List α) (f : α → List Event) :
    planeReads (l.flatMap f) = l.flatMap (fun a => planeReads (f a)) := by
  induction l with
  | nil => rfl
  | cons a rest ih => simp [List.flatMap_cons, planeReads_append, ih]

theorem toUInt16_of_lt {z : Nat} (h : z < 65536) : toUInt16 (z : Int) = (z : Int) := by
  unfold toUInt16
  omega

theorem planeReads_zReads (planeSize capture_index t c : Int) (Z : Nat) (hZ : Z ≤ 65536) :
    planeReads (zReads planeSize capture_index t c Z)
      = (List.range Z).map (fun z => (t, c, ((z : Nat) : Int))) := by
  induction Z with
  | zero => rfl
  | succ n ih =>
    rw [zReads_succ, planeReads_append, ih (by omega), List.range_succ, List.map_append,
      toUInt16_of_lt (by omega : n < 65536)]
    rfl

theorem planeReads_channelEvents (planeSize capture_index t c : Int) (Z : Nat)
    (hZ : Z ≤ 65536) :
    planeReads (channelEvents planeSize capture_index Z t c)
      = (List.range Z).map (fun z => (t, c, ((z : Nat) : Int))) := by
  unfold channelEvents
  rw [planeReads_append, planeReads_zReads _ _ _ _ _ hZ]
  simp [planeReads]

theorem planeReads_timepointEvents (planeSize capture_index t : Int) (C Z : Nat)
    (hZ : Z ≤ 65536) :
    planeReads (timepointEvents planeSize capture_index C Z t)
      = (List.range C).flatMap
          (fun c => (List.range Z).map (fun z => (t, ((c : Nat) : Int), ((z : Nat) : Int)))) := by
  unfold timepointEvents
  rw [planeReads_flatMap]
  refine congrArg (fun f => List.flatMap (List.range C) f) ?_
  funext c
  exact planeReads_channelEvents planeSize capture_index t c Z hZ

theorem planeReads_traversalEvents (planeSize capture_index : Int) (T C Z : Nat)
    (hZ : Z ≤ 65536) :
    planeReads (traversalEvents planeSize capture_index T C Z) = lexTriples T C Z := by
  unfold traversalEvents lexTriples
  rw [planeReads_flatMap]
  refine congrArg (fun f => List.flatMap (List.range T) f) ?_
  funext t
  exact planeReads_timepointEvents planeSize capture_index t C Z hZ

/-! ## The cross product `[0,T) x [0,C) x [0,Z)` -/

theorem lexTriples_eq_product (T C Z : Nat) :
    lexTriples T C Z
      = (List.range T ×ˢ (List.range C ×ˢ List.range Z)).map
          (fun p => ((p.1 : Int), (p.2.1 : Int), (p.2.2 : Int))) := by
  unfold lexTriples
  simp [SProd.sprod, List.product, List.map_flatMap, List.flatMap_map, Function.comp_def]

theorem lexTriples_length (T C Z : Nat) : (lexTriples T C Z).length = T * C * Z := by
  rw [lexTriples_eq_product, List.length_map, List.length_product, List.length_product,
    List.length_range, List.length_range, List.length_range, Nat.mul_assoc]

theorem lexTriples_nodup (T C Z : Nat) : (lexTriples T C Z).Nodup := by
  rw [lexTriples_eq_product]
  refine List.Nodup.map ?_
    (List.Nodup.product (List.nodup_range T)
      (List.Nodup.product (List.nodup_range C) (List.nodup_range Z)))
  intro p q hpq
  simp only [Prod.mk.injEq, Nat.cast_inj] at hpq
  obtain ⟨h1, h2, h3⟩ := hpq
  exact Prod.ext h1 (Prod.ext h2 h3)

theorem mem_lexTriples (T C Z : Nat) (t c z : Int) :
    (t, c, z) ∈ lexTriples T C Z
      ↔ (0 ≤ t ∧ t < T) ∧ (0 ≤ c ∧ c < C) ∧ (0 ≤ z ∧ z < Z) := by
  unfold lexTriples
  simp only [List.mem_flatMap, List.mem_map, List.mem_range, Prod.mk.injEq]
  constructor
  · rintro ⟨a, ha, b, hb, d, hd, rfl, rfl, rfl⟩
    omega
  · rintro ⟨⟨h1, h2⟩, ⟨h3, h4⟩, h5, h6⟩
    exact ⟨t.toNat, by omega, c.toNat, by omega, z.toNat, by omega, by omega, by omega,
      by omega⟩

theorem Run.ending_of_ok {α : Type} {x : Run α} {a : α} (h : x.result = .ok a) :
    x.ending = none := by
  unfold Run.ending
  rw [h]

theorem Run.ending_of_error {α : Type} {x : Run α} {e : Abort} (h : x.result = .error e) :
    x.ending = some e := by
  unfold Run.ending
  rw [h]

/-- C1 (as amended): for every capture with `T` timepoints, `C` channels and `Z` planes
(`T, C, Z ≥ 0`) with `Z ≤ 65536`, and as long as no plane read of the capture raises an
exception, the traversal runs to its end, issues exactly `T*C*Z` `ReadImagePlaneBuf` calls,
and the `(timepoint, channel, zPlane)` arguments the reader receives are exactly the
elements of `[0,T) x [0,C) x [0,Z)`, each exactly once. -/
theorem C1_traversal_reads_cross_product (r : SBReadFile) (planeSize capture_index : Int)
    (cp : CaptureDataFrame) (T C Z : Nat) (hT : cp.number_timepoints = T)
    (hC : cp.number_channels = C) (hZ : cp.zDim = Z) (hZ16 : Z ≤ 65536)
    (hok : ∀ t c z : Nat, t < T → c < C → z < Z →
      ∃ b, r.ReadImagePlaneBuf capture_index 0 t z c = .ok b) :
    (traversal r planeSize capture_index cp).ending = none ∧
    (planeReads (traversal r planeSize capture_index cp).events).length = T * C * Z ∧
    (planeReads (traversal r planeSize capture_index cp).events).Nodup ∧
    ∀ t c z : Int, (t, c, z) ∈ planeReads (traversal r planeSize capture_index cp).events
      ↔ (0 ≤ t ∧ t < T) ∧ (0 ≤ c ∧ c < C) ∧ (0 ≤ z ∧ z < Z) := by
  obtain ⟨hev, s2, hres⟩ := traversal_ok r planeSize capture_index cp T C Z
    (by rw [hT]; rfl) (by rw [hC]; rfl) (by rw [hZ]; rfl) (by
      intro t c z ht hc hz
      rw [toUInt16_of_lt (by omega : z < 65536)]
      exact hok t c z ht hc hz)
  rw [hev, planeReads_traversalEvents planeSize capture_index T C Z hZ16]
  exact ⟨Run.ending_of_ok hres, lexTriples_length T C Z, lexTriples_nodup T C Z,
    fun t c z => mem_lexTriples T C Z t c z⟩

/-- C1, witness: the sample capture of 3 timepoints, 2 channels and 3 planes, every plane
readable: 18 reads. -/
theorem C1_traversal_witness :
    (traversal (sampleReader smallFile kNoExceptionsMasked) 16 0
      (frameOf (sampleReader smallFile kNoExceptionsMasked) 3 2 4 4 3)).ending = none ∧
    (planeReads (traversal (sampleReader smallFile kNoExceptionsMasked) 16 0
      (frameOf (sampleReader smallFile kNoExceptionsMasked) 3 2 4 4 3)).events).length
      = 3 * 2 * 3 ∧
    (planeReads (traversal (sampleReader smallFile kNoExceptionsMasked) 16 0
      (frameOf (sampleReader smallFile kNoExceptionsMasked) 3 2 4 4 3)).events).Nodup ∧
    ∀ t c z : Int,
      (t, c, z) ∈ planeReads (traversal (sampleReader smallFile kNoExceptionsMasked) 16 0
          (frameOf (sampleReader smallFile kNoExceptionsMasked) 3 2 4 4 3)).events
        ↔ (0 ≤ t ∧ t < (3 : Nat)) ∧ (0 ≤ c ∧ c < (2 : Nat)) ∧ (0 ≤ z ∧ z < (3 : Nat)) :=
  C1_traversal_reads_cross_product (sampleReader smallFile kNoExceptionsMasked) 16 0
    (frameOf (sampleReader smallFile kNoExceptionsMasked) 3 2 4 4 3) 3 2 3 rfl rfl rfl
    (by decide) (fun _ _ _ _ _ _ => ⟨true, rfl⟩)

/-- The Z planes the reader receives in one Z loop, whatever the number of planes: the
loop counter reduced to a `PlaneIndex`. -/
theorem planeReads_zReads_raw (planeSize capture_index t c : Int) (Z : Nat) :
    planeReads (zReads planeSize capture_index t c Z)
      = (List.range Z).map (fun (z : Nat) => (t, c, toUInt16 (z : Int))) := by
  induction Z with
  | zero => rfl
  | succ n ih =>
    rw [zReads_succ, planeReads_append, ih, List.range_succ, List.map_append]
    rfl

theorem planeReads_single_stack (planeSize capture_index : Int) (Z : Nat) :
    planeReads (traversalEvents planeSize capture_index 1 1 Z)
      = (List.range Z).map (fun (z : Nat) => ((0 : Int), (0 : Int), toUInt16 (z : Int))) := by
  have h : traversalEvents planeSize capture_index 1 1 Z
      = zReads planeSize capture_index 0 0 Z
        ++ [Event.print (readBufferLine capture_index 0 0)] := by
    have h1 : List.range 1 = [0] := rfl
    simp [traversalEvents, timepointEvents, channelEvents, h1]
  rw [h, planeReads_append, planeReads_zReads_raw]
  simp [planeReads]

/-- C1, counterexample. First, a capture of 1 timepoint, 1 channel and 65537 planes, every
plane readable: 65537 reads are issued, but the reader never receives `(0, 0, 65536)` and
receives `(0, 0, 0)` twice. Second, the sample capture (3 timepoints, 2 channels, 3 planes)
when the read at `(t, c, z) = (2, 0, 1)` raises: 14 reads are issued, not 18. -/
theorem C1_counterexample_plane_index_and_raise :
    ((planeReads (traversal
        (sampleReader tallFile kNoExceptionsMasked) 16 0
        (frameOf (sampleReader tallFile kNoExceptionsMasked) 1 1 4 4 65537)).events).length = 65537 ∧
      ((0 : Int), (0 : Int), (65536 : Int)) ∉ planeReads (traversal
        (sampleReader tallFile kNoExceptionsMasked) 16 0
        (frameOf (sampleReader tallFile kNoExceptionsMasked) 1 1 4 4 65537)).events ∧
      ¬ (planeReads (traversal
        (sampleReader tallFile kNoExceptionsMasked) 16 0
        (frameOf (sampleReader tallFile kNoExceptionsMasked) 1 1 4 4 65537)).events).Nodup) ∧
    ((planeReads (traversal
        (sampleReader brokenFile kNoExceptionsMasked) 16 0
        (frameOf (sampleReader brokenFile kNoExceptionsMasked) 3 2 4 4 3)).events).length = 14 ∧
      (traversal
        (sampleReader brokenFile kNoExceptionsMasked) 16 0
        (frameOf (sampleReader brokenFile kNoExceptionsMasked) 3 2 4 4 3)).ending = some (.exception sampleException)) := by
  refine ⟨?_, by decide⟩
  obtain ⟨hev, _⟩ := traversal_ok
    (sampleReader tallFile kNoExceptionsMasked) 16 0
    (frameOf (sampleReader tallFile kNoExceptionsMasked) 1 1 4 4 65537) 1 1 65537 rfl rfl rfl
    (fun _ _ _ _ _ _ => ⟨true, rfl⟩)
  rw [hev, planeReads_single_stack]
  refine ⟨by simp, ?_, ?_⟩
  · intro hmem
    rw [List.mem_map] at hmem
    obtain ⟨z, _, hz⟩ := hmem
    have h3 : toUInt16 (z : Int) = 65536 := (Prod.mk.inj (Prod.mk.inj hz).2).2
    unfold toUInt16 at h3
    omega
  · rw [List.range_succ, List.map_append]
    intro hnd
    have hdisj := (List.nodup_append.mp hnd).2.2
    refine hdisj (a := ((0 : Int), (0 : Int), (0 : Int))) ?_ ?_
    · rw [List.mem_map]
      exact ⟨0, by simp, by decide⟩
    · simp [toUInt16]

/-! ## A read that raises -/

theorem planeReads_cut_short (planeSize capture_index : Int) (C Z t0 c0 z0 : Nat)
    (hZ : Z ≤ 65536) (hz0 : z0 < Z) :
    planeReads
      ((List.range t0).flatMap
          (fun (t : Nat) => timepointEvents planeSize capture_index C Z (t : Int))
        ++ ((List.range c0).flatMap
            (fun (c : Nat) => channelEvents planeSize capture_index Z (t0 : Int) (c : Int))
          ++ zReads planeSize capture_index t0 c0 (z0 + 1)))
      = lexTriplesUpTo C Z t0 c0 z0 := by
  have h1 := planeReads_traversalEvents planeSize capture_index t0 C Z hZ
  have h2 := planeReads_timepointEvents planeSize capture_index t0 c0 Z hZ
  have h3 := planeReads_zReads planeSize capture_index t0 c0 (z0 + 1) (by omega)
  unfold traversalEvents at h1
  unfold timepointEvents at h2
  rw [planeReads_append, planeReads_append, h1, h2, h3]
  unfold lexTriplesUpTo
  rw [List.append_assoc]

theorem lexTriplesUpTo_getLast (C Z t0 c0 z0 : Nat) :
    (lexTriplesUpTo C Z t0 c0 z0).getLast? = some ((t0 : Int), (c0 : Int), (z0 : Int)) := by
  unfold lexTriplesUpTo
  rw [List.range_succ, List.map_append, ← List.append_assoc]
  exact List.getLast?_concat _

theorem lexTriplesUpTo_le (C Z t0 c0 z0 : Nat) (t c z : Int)
    (h : (t, c, z) ∈ lexTriplesUpTo C Z t0 c0 z0) :
    lexLe (t, c, z) ((t0 : Int), (c0 : Int), (z0 : Int)) := by
  unfold lexTriplesUpTo at h
  unfold lexLe
  simp only [List.mem_append, List.mem_flatMap, List.mem_map, List.mem_range,
    Prod.mk.injEq] at h
  rcases h with (h | h) | h
  · have hm := (mem_lexTriples t0 C Z t c z).mp h
    exact Or.inl hm.1.2
  · obtain ⟨a, ha, b, _, rfl, rfl, rfl⟩ := h
    refine Or.inr ⟨rfl, Or.inl ?_⟩
    simp only
    omega
  · obtain ⟨a, ha, rfl, rfl, rfl⟩ := h
    refine Or.inr ⟨rfl, Or.inr ⟨rfl, ?_⟩⟩
    simp only
    omega

/-- The function-try-block of `ConvertSBImages`: when the body is cut short by an
`III::Exception`, its description is printed and the process exits with status 1. -/
theorem ConvertSBImages_of_exception
    (III_NewSBReadFile : Nat → Except Exception (Option SBReadFile)) (e : Exception)
    (h : (ConvertSBImages.body III_NewSBReadFile).result = .error (.exception e)) :
    ConvertSBImages III_NewSBReadFile
      = ⟨(ConvertSBImages.body III_NewSBReadFile).events
          ++ [.print ("Failed with exception: ".toList ++ e.GetDescription ++ "\n".toList)],
         .error (.exit 1)⟩ := by
  unfold ConvertSBImages
  simp only
  rw [h]

/-- C3 (as amended): for every capture (with `Z ≤ 65536`) and every triple `(t0, c0, z0)`
at which the plane read raises an `III::Exception` while the reads before it return (a
failure raises when the reader is opened with `III::kNoExceptionsMasked`), the traversal
is cut short by that exception: the reads issued are those of the triples up to and
including `(t0, c0, z0)` in traversal order, the last one is `(t0, c0, z0)`, and no read is
issued for a triple that follows it. -/
theorem C3_raising_read_ends_traversal (r : SBReadFile) (planeSize capture_index : Int)
    (cp : CaptureDataFrame) (T C Z : Nat) (hT : cp.number_timepoints = T)
    (hC : cp.number_channels = C) (hZ : cp.zDim = Z) (hZ16 : Z ≤ 65536) (t0 c0 z0 : Nat)
    (e : Exception) (ht0 : t0 < T) (hc0 : c0 < C) (hz0 : z0 < Z)
    (hbefore : ∀ t c z : Nat, t < T → c < C → z < Z →
      (t < t0 ∨ (t = t0 ∧ (c < c0 ∨ (c = c0 ∧ z < z0)))) →
      ∃ b, r.ReadImagePlaneBuf capture_index 0 t z c = .ok b)
    (hraise : r.ReadImagePlaneBuf capture_index 0 t0 z0 c0 = .error e) :
    (traversal r planeSize capture_index cp).ending = some (.exception e) ∧
    planeReads (traversal r planeSize capture_index cp).events
      = lexTriplesUpTo C Z t0 c0 z0 ∧
    (planeReads (traversal r planeSize capture_index cp).events).getLast?
      = some ((t0 : Int), (c0 : Int), (z0 : Int)) ∧
    ∀ t c z : Int, (t, c, z) ∈ planeReads (traversal r planeSize capture_index cp).events →
      lexLe (t, c, z) ((t0 : Int), (c0 : Int), (z0 : Int)) := by
  obtain ⟨hev, hres⟩ := traversal_raise r planeSize capture_index cp T C Z
    (by rw [hT]; rfl) (by rw [hC]; rfl) (by rw [hZ]; rfl) t0 c0 z0 e ht0 hc0 hz0 (by
      intro t c z ht hc hz hlt
      rw [toUInt16_of_lt (by omega : z < 65536)]
      exact hbefore t c z ht hc hz hlt) (by
      rw [toUInt16_of_lt (by omega : z0 < 65536)]
      exact hraise)
  have hreads := planeReads_cut_short planeSize capture_index C Z t0 c0 z0 hZ16 hz0
  rw [hev, hreads]
  exact ⟨Run.ending_of_error hres, rfl, lexTriplesUpTo_getLast C Z t0 c0 z0,
    fun t c z h => lexTriplesUpTo_le C Z t0 c0 z0 t c z h⟩

/-- C3, witness: the sample capture when the read at `(t, c, z) = (2, 0, 1)` raises. -/
theorem C3_raising_read_witness :
    (traversal (sampleReader brokenFile kNoExceptionsMasked) 16 0
      (frameOf (sampleReader brokenFile kNoExceptionsMasked) 3 2 4 4 3)).ending
      = some (.exception sampleException) ∧
    planeReads (traversal (sampleReader brokenFile kNoExceptionsMasked) 16 0
      (frameOf (sampleReader brokenFile kNoExceptionsMasked) 3 2 4 4 3)).events
      = lexTriplesUpTo 2 3 2 0 1 ∧
    (planeReads (traversal (sampleReader brokenFile kNoExceptionsMasked) 16 0
      (frameOf (sampleReader brokenFile kNoExceptionsMasked) 3 2 4 4 3)).events).getLast?
      = some (((2 : Nat) : Int), ((0 : Nat) : Int), ((1 : Nat) : Int)) ∧
    ∀ t c z : Int,
      (t, c, z) ∈ planeReads (traversal (sampleReader brokenFile kNoExceptionsMasked) 16 0
        (frameOf (sampleReader brokenFile kNoExceptionsMasked) 3 2 4 4 3)).events →
      lexLe (t, c, z) (((2 : Nat) : Int), ((0 : Nat) : Int), ((1 : Nat) : Int)) :=
  C3_raising_read_ends_traversal (sampleReader brokenFile kNoExceptionsMasked) 16 0
    (frameOf (sampleReader brokenFile kNoExceptionsMasked) 3 2 4 4 3) 3 2 3 rfl rfl rfl
    (by decide) 2 0 1 sampleException (by decide) (by decide) (by decide)
    (fun t c z ht hc hz hlt => by
      interval_cases t <;> interval_cases c <;> interval_cases z <;>
        first | exact ⟨true, rfl⟩ | omega)
    rfl

/-- C3, counterexample: `ConvertSBImages` on the sample file whose plane at
`(t=2, c=0, z=1)` cannot be read. The reader is opened with `III::kNoExceptionsMasked`, the
failed read raises, the handler prints the description and the process exits with status
1: 14 of the 18 reads were issued, the last one for `(2, 0, 1)`; the reads for `(2, 0, 2)`
and `(2, 1, 0)` are never issued. -/
theorem C3_counterexample_failure_aborts :
    (ConvertSBImages (openSample brokenFile)).ending = some (.exit 1) ∧
    (planeReads (ConvertSBImages (openSample brokenFile)).events).length = 14 ∧
    (planeReads (ConvertSBImages (openSample brokenFile)).events).getLast? = some (2, 0, 1) ∧
    ((2 : Int), (0 : Int), (2 : Int)) ∉ planeReads (ConvertSBImages (openSample brokenFile)).events ∧
    ((2 : Int), (1 : Int), (0 : Int)) ∉ planeReads (ConvertSBImages (openSample brokenFile)).events ∧
    (printed (ConvertSBImages (openSample brokenFile)).events).getLast?
      = some "Failed with exception: plane read failed\n".toList := by
  decide

/-! ## The value `ReadImagePlaneBuf` returns -/

theorem readZ_independent (r1 r2 : SBReadFile) (planeSize capture_index t c : Int)
    (h1 : ∀ p t z c, ∃ b, r1.ReadImagePlaneBuf capture_index p t z c = .ok b)
    (h2 : ∀ p t z c, ∃ b, r2.ReadImagePlaneBuf capture_index p t z c = .ok b) :
    readZ r1 planeSize capture_index t c = readZ r2 planeSize capture_index t c := by
  funext z cp
  obtain ⟨b1, hb1⟩ := h1 0 t (toUInt16 z) c
  obtain ⟨b2, hb2⟩ := h2 0 t (toUInt16 z) c
  rw [readZ_ok r1 planeSize capture_index t c z cp b1 hb1,
    readZ_ok r2 planeSize capture_index t c z cp b2 hb2]

theorem channelBody_independent (r1 r2 : SBReadFile) (planeSize capture_index t : Int)
    (h1 : ∀ p t z c, ∃ b, r1.ReadImagePlaneBuf capture_index p t z c = .ok b)
    (h2 : ∀ p t z c, ∃ b, r2.ReadImagePlaneBuf capture_index p t z c = .ok b) :
    channelBody r1 planeSize capture_index t = channelBody r2 planeSize capture_index t := by
  funext c cp
  unfold channelBody
  rw [readZ_independent r1 r2 planeSize capture_index t c h1 h2]

theorem timepointBody_independent (r1 r2 : SBReadFile) (planeSize capture_index : Int)
    (h1 : ∀ p t z c, ∃ b, r1.ReadImagePlaneBuf capture_index p t z c = .ok b)
    (h2 : ∀ p t z c, ∃ b, r2.ReadImagePlaneBuf capture_index p t z c = .ok b) :
    timepointBody r1 planeSize capture_index = timepointBody r2 planeSize capture_index := by
  funext t cp
  unfold timepointBody
  rw [channelBody_independent r1 r2 planeSize capture_index t h1 h2]

theorem sampleReader_masked_returns (f : SampleFile) (capture_index p t z c : Int) :
    ∃ b, (sampleReader f kAllExceptionsMasked).ReadImagePlaneBuf capture_index p t z c
      = .ok b := by
  unfold sampleReader
  simp only
  by_cases hbad : f.badPlane t z c = true
  · exact ⟨false, by simp [hbad, kAllExceptionsMasked]⟩
  · exact ⟨true, by simp [hbad]⟩

/-! ## Where the planes are written -/

theorem planeOffsets_append (l1 l2 : List Event) :
    planeOffsets (l1 ++ l2) = planeOffsets l1 ++ planeOffsets l2 := by
  induction l1 with
  | nil => rfl
  | cons ev rest ih =>
    cases ev <;> simp [planeOffsets, ih]

theorem planeOffsets_flatMap {α : Type} (l : List α) (f : α → List Event) :
    planeOffsets (l.flatMap f) = l.flatMap (fun a => planeOffsets (f a)) := by
  induction l with
  | nil => rfl
  | cons a rest ih => simp [List.flatMap_cons, planeOffsets_append, ih]

theorem planeOffsets_zReads (planeSize capture_index t c : Int) (Z : Nat) :
    planeOffsets (zReads planeSize capture_index t c Z)
      = (List.range Z).map (fun (z : Nat) =>
          ((t, c, toUInt16 (z : Int)), toSizeT (toSizeT (z : Int) * planeSize))) := by
  induction Z with
  | zero => rfl
  | succ n ih =>
    rw [zReads_succ, planeOffsets_append, ih, List.range_succ, List.map_append]
    rfl

/-- Every plane read of a traversal that runs to its end was issued for a loop counter
`z < Z` and with the offset `z * planeSize` formed in `std::size_t`. -/
theorem mem_planeOffsets_traversalEvents (planeSize capture_index : Int) (T C Z : Nat)
    (entry : (Int × Int × Int) × Int)
    (h : entry ∈ planeOffsets (traversalEvents planeSize capture_index T C Z)) :
    ∃ t c z : Nat, t < T ∧ c < C ∧ z < Z ∧
      entry = (((t : Int), (c : Int), toUInt16 (z : Int)),
        toSizeT (toSizeT (z : Int) * planeSize)) := by
  unfold traversalEvents timepointEvents channelEvents at h
  simp only [planeOffsets_flatMap, planeOffsets_append, planeOffsets_zReads, planeOffsets,
    List.append_nil, List.mem_flatMap, List.mem_map, List.mem_range] at h
  obtain ⟨t, ht, c, hc, z, hz, rfl⟩ := h
  exact ⟨t, c, z, ht, hc, hz, rfl⟩

/-- C2, where the sizes fit: for a capture with `xDim, yDim, zDim ≥ 0` whose sample count
`xDim*yDim*zDim` is at most `INT_MAX`, the buffer holds `xDim*yDim*zDim` samples and every
plane read of the traversal (none raising) is issued for some `z < zDim` with the offset
`z*xDim*yDim`; the range `[z*xDim*yDim, (z+1)*xDim*yDim)` ends where the range of plane
`z+1` starts and lies inside the buffer. -/
theorem C2_planes_inside_buffer_when_size_fits (r : SBReadFile) (capture_index : Int)
    (cp : CaptureDataFrame) (T C Z x y : Nat) (hT : cp.number_timepoints = T)
    (hC : cp.number_channels = C) (hZ : cp.zDim = Z) (hx : cp.xDim = x) (hy : cp.yDim = y)
    (hfit : x * y * Z ≤ 2147483647)
    (hok : ∀ t c z : Nat, t < T → c < C → z < Z →
      ∃ b, r.ReadImagePlaneBuf capture_index 0 t (toUInt16 z) c = .ok b) :
    bufferSizeOf cp = ((x * y * Z : Nat) : Int) ∧
    ∀ entry ∈ planeOffsets (traversal r (planeSizeOf cp) capture_index cp).events,
      ∃ z : Nat, z < Z ∧ entry.1.2.2 = toUInt16 (z : Int) ∧
        entry.2 = ((z * x * y : Nat) : Int) ∧
        entry.2 + ((x * y : Nat) : Int) = (((z + 1) * x * y : Nat) : Int) ∧
        (((z + 1) * x * y : Nat) : Int) ≤ bufferSizeOf cp := by
  have hbuf : bufferSizeOf cp = ((x * y * Z : Nat) : Int) := by
    unfold bufferSizeOf
    rw [hx, hy, hZ]
    by_cases hZ0 : Z = 0
    · subst hZ0
      simp [toSInt32]
    · have hxy : x * y ≤ x * y * Z := Nat.le_mul_of_pos_right _ (Nat.pos_of_ne_zero hZ0)
      have h1 : toSInt32 ((x : Int) * (y : Int)) = ((x * y : Nat) : Int) := by
        rw [← Nat.cast_mul]
        exact toSInt32_of_lt (by omega)
      rw [h1, ← Nat.cast_mul]
      exact toSInt32_of_lt (by omega)
  refine ⟨hbuf, ?_⟩
  intro entry hentry
  obtain ⟨hev, _⟩ := traversal_ok r (planeSizeOf cp) capture_index cp T C Z
    (by rw [hT]; rfl) (by rw [hC]; rfl) (by rw [hZ]; rfl) hok
  rw [hev] at hentry
  obtain ⟨t, c, z, _, _, hz, rfl⟩ :=
    mem_planeOffsets_traversalEvents (planeSizeOf cp) capture_index T C Z entry hentry
  have hle : (z + 1) * (x * y) ≤ Z * (x * y) := Nat.mul_le_mul_right _ (by omega)
  have hxy : x * y ≤ 2147483647 := by
    have : 1 * (x * y) ≤ Z * (x * y) := Nat.mul_le_mul_right _ (by omega)
    rw [Nat.mul_comm (x * y) Z] at hfit
    omega
  have hplane : planeSizeOf cp = ((x * y : Nat) : Int) := by
    unfold planeSizeOf
    rw [hx, hy, ← Nat.cast_mul, toSInt32_of_lt (by omega)]
    unfold toSizeT
    omega
  have hzxy : z * (x * y) ≤ 2147483647 := by
    have : z * (x * y) ≤ (z + 1) * (x * y) := Nat.mul_le_mul_right _ (by omega)
    rw [Nat.mul_comm (x * y) Z] at hfit
    omega
  have hoff : toSizeT (toSizeT (z : Int) * planeSizeOf cp) = ((z * x * y : Nat) : Int) := by
    rw [hplane, Nat.mul_assoc]
    rcases Nat.eq_zero_or_pos (x * y) with h0 | hpos
    · rw [h0]
      simp [toSizeT]
    · have hzle : z * 1 ≤ z * (x * y) := Nat.mul_le_mul_left _ hpos
      have hz64 : toSizeT (z : Int) = (z : Int) := by
        unfold toSizeT
        omega
      rw [hz64, ← Nat.cast_mul]
      unfold toSizeT
      omega
  refine ⟨z, hz, rfl, hoff, ?_, ?_⟩
  · simp only
    rw [hoff]
    push_cast
    ring
  · rw [hbuf]
    have : (z + 1) * x * y ≤ x * y * Z := by
      rw [Nat.mul_assoc, Nat.mul_comm (x * y) Z]
      exact hle
    exact_mod_cast this

/-- C2, where the sizes fit, on the sample capture: 4 x 4 pixels, 3 planes, a buffer of 48
samples, every plane `z` written at `16 * z`. -/
theorem C2_planes_inside_buffer_witness :
    bufferSizeOf (frameOf (sampleReader smallFile kNoExceptionsMasked) 3 2 4 4 3)
      = ((4 * 4 * 3 : Nat) : Int) ∧
    ∀ entry ∈ planeOffsets (traversal (sampleReader smallFile kNoExceptionsMasked)
        (planeSizeOf (frameOf (sampleReader smallFile kNoExceptionsMasked) 3 2 4 4 3)) 0
        (frameOf (sampleReader smallFile kNoExceptionsMasked) 3 2 4 4 3)).events,
      ∃ z : Nat, z < 3 ∧ entry.1.2.2 = toUInt16 (z : Int) ∧
        entry.2 = ((z * 4 * 4 : Nat) : Int) ∧
        entry.2 + ((4 * 4 : Nat) : Int) = (((z + 1) * 4 * 4 : Nat) : Int) ∧
        (((z + 1) * 4 * 4 : Nat) : Int)
          ≤ bufferSizeOf (frameOf (sampleReader smallFile kNoExceptionsMasked) 3 2 4 4 3) :=
  C2_planes_inside_buffer_when_size_fits (sampleReader smallFile kNoExceptionsMasked) 0
    (frameOf (sampleReader smallFile kNoExceptionsMasked) 3 2 4 4 3) 3 2 3 4 4 rfl rfl rfl rfl
    rfl (by decide) (fun _ _ _ _ _ _ => ⟨true, rfl⟩)

set_option maxRecDepth 100000 in
/-- C2, the failing input: a capture of 4096 x 4096 pixels and 256 planes (`2^32` samples),
one timepoint, one channel, every plane readable. The `int` product
`xDim * yDim * zDim` is 0, so the buffer allocated holds 0 samples, while the 256 planes of
`2^24` samples each are written at the offsets `z * 2^24`: no written range lies inside the
allocated buffer. -/
theorem C2_failing_input_buffer_too_small :
    toSInt32 (toSInt32 (4096 * 4096) * 256) = 0 ∧
    (ConvertSBImages (openSample hugeFile)).ending = none ∧
    pixelBuffers (ConvertSBImages (openSample hugeFile)).events = [0] ∧
    (planeOffsets (ConvertSBImages (openSample hugeFile)).events).length = 256 ∧
    (planeOffsets (ConvertSBImages (openSample hugeFile)).events).take 3
      = [((0, 0, 0), 0), ((0, 0, 1), 16777216), ((0, 0, 2), 33554432)] ∧
    (planeOffsets (ConvertSBImages (openSample hugeFile)).events).getLast?
      = some ((0, 0, 255), 4278190080) := by
  decide

/-! ## The constructor returns -/

theorem Run.bind_returns {α β : Type} {x : Run α} {f : α → Run β}
    (hx : ∃ a, x.result = .ok a) (hf : ∀ a, ∃ b, (f a).result = .ok b) :
    ∃ b, (x >>= f).result = .ok b := by
  obtain ⟨a, ha⟩ := hx
  obtain ⟨b, hb⟩ := hf a
  refine ⟨b, ?_⟩
  rw [Run.bind_eq, Run.bind_of_ok ha]
  exact hb

theorem Run.ofReader_returns {α : Type} {q : Except Exception α} (h : ∃ v, q = .ok v) :
    ∃ a, (Run.ofReader q).result = .ok a := by
  obtain ⟨v, hv⟩ := h
  exact ⟨v, by rw [hv]; rfl⟩

theorem GetString_returns (r : SBReadFile) (capture_index : Int) (g : StringGetter)
    (h : stringReturns (r.call g false capture_index) (r.call g true capture_index)) :
    ∃ s, (CaptureDataFrame.GetString r capture_index g).result = .ok s := by
  obtain ⟨reply1, h1, hsecond⟩ := h
  by_cases hpos : 0 < toSInt32 reply1.ret
  · obtain ⟨reply2, h2, hfit, hnul⟩ := hsecond hpos
    rw [GetString_of_positive r capture_index g reply1 reply2 h1 hpos h2 hfit hnul]
    exact ⟨_, rfl⟩
  · rw [GetString_of_nonpositive r capture_index g reply1 h1 hpos]
    exact ⟨_, rfl⟩

theorem GetChannelString_returns (r : SBReadFile) (capture_index channel_index : Int)
    (g : ChannelStringGetter)
    (h : stringReturns (r.callChannel g false capture_index channel_index)
      (r.callChannel g true capture_index channel_index)) :
    ∃ s, (CaptureDataFrame.GetChannelString r capture_index channel_index g).result
      = .ok s := by
  obtain ⟨reply1, h1, hsecond⟩ := h
  by_cases hpos : 0 < toSInt32 reply1.ret
  · obtain ⟨reply2, h2, hfit, hnul⟩ := hsecond hpos
    rw [GetChannelString_of_positive r capture_index channel_index g reply1 reply2 h1 hpos h2
      hfit hnul]
    exact ⟨_, rfl⟩
  · rw [GetChannelString_of_nonpositive r capture_index channel_index g reply1 h1 hpos]
    exact ⟨_, rfl⟩

theorem forFrom_returns {σ : Type} (body : Int → σ → Run σ)
    (h : ∀ i s, ∃ s2, (body i s).result = .ok s2) :
    ∀ (n : Nat) (a : Int) (s : σ), ∃ s2, (forFrom body n a s).result = .ok s2 := by
  intro n
  induction n with
  | zero => intro a s; exact ⟨s, rfl⟩
  | succ n ih =>
    intro a s
    obtain ⟨s1, hs1⟩ := h a s
    obtain ⟨s2, hs2⟩ := ih (a + 1) s1
    refine ⟨s2, ?_⟩
    have hunf : forFrom body (n + 1) a s
        = Run.bind (body a s) (fun s1 => forFrom body n (a + 1) s1) := rfl
    rw [hunf, Run.bind_of_ok hs1]
    exact hs2

/-- On a reader all of whose queries for the capture return, the constructor returns a
frame. -/
theorem new_returns (r : SBReadFile) (capture_index position_index : Int)
    (h : Constructible r capture_index) :
    ∃ cp, (CaptureDataFrame.new r capture_index position_index).result = .ok cp := by
  unfold CaptureDataFrame.new
  refine Run.bind_returns ?_ ?_
  · unfold CaptureDataFrame.init
    refine Run.bind_returns (Run.ofReader_returns h.numCaptures) (fun _ => ?_)
    refine Run.bind_returns (Run.ofReader_returns h.numPositions) (fun _ => ?_)
    refine Run.bind_returns (Run.ofReader_returns h.numChannels) (fun _ => ?_)
    refine Run.bind_returns (Run.ofReader_returns h.numTimepoints) (fun _ => ?_)
    refine Run.bind_returns (Run.ofReader_returns h.xColumns) (fun _ => ?_)
    refine Run.bind_returns (Run.ofReader_returns h.yRows) (fun _ => ?_)
    refine Run.bind_returns (Run.ofReader_returns h.zPlanes) (fun _ => ?_)
    refine Run.bind_returns (GetString_returns r capture_index _ (h.strings _)) (fun _ => ?_)
    refine Run.bind_returns (GetString_returns r capture_index _ (h.strings _)) (fun _ => ?_)
    refine Run.bind_returns (GetString_returns r capture_index _ (h.strings _)) (fun _ => ?_)
    refine Run.bind_returns (GetString_returns r capture_index _ (h.strings _)) (fun _ => ?_)
    refine Run.bind_returns (Run.ofReader_returns (h.elapsed _)) (fun _ => ?_)
    exact ⟨_, rfl⟩
  · intro cp0
    unfold CaptureDataFrame.body
    refine Run.bind_returns (Run.ofReader_returns h.voxel) (fun reply => ?_)
    unfold forInt
    refine forFrom_returns _ ?_ _ _ _
    intro i s
    unfold CaptureDataFrame.pushChannel
    refine Run.bind_returns
      (GetChannelString_returns r capture_index i _ (h.channelStrings _ i)) (fun _ => ?_)
    refine Run.bind_returns (Run.ofReader_returns (h.exposure i)) (fun _ => ?_)
    exact ⟨_, rfl⟩

/-! ## What the traversal prints -/

theorem printed_append (l1 l2 : List Event) :
    printed (l1 ++ l2) = printed l1 ++ printed l2 := by
  induction l1 with
  | nil => rfl
  | cons ev rest ih =>
    cases ev <;> simp [printed, ih]

/-- The lines printed by a loop are an initial segment of the lines of its passes, `full i`
for pass `i`, when every pass prints an initial segment of its lines and all of them if it
returns; they are all the lines if the loop returns. -/
theorem forFrom_printed_prefix {σ : Type} (body : Int → σ → Run σ)
    (full : Int → List (List Char)) (Inv : σ → Prop) :
    ∀ (n : Nat) (a : Int) (s : σ), Inv s →
      (∀ k : Nat, k < n → ∀ s1, Inv s1 →
        printed (body (a + k) s1).events <+: full (a + k) ∧
        ∀ s2, (body (a + k) s1).result = .ok s2 →
          printed (body (a + k) s1).events = full (a + k) ∧ Inv s2) →
      printed (forFrom body n a s).events
        <+: (List.range n).flatMap (fun k => full (a + (k : Nat))) ∧
      ∀ s2, (forFrom body n a s).result = .ok s2 →
        printed (forFrom body n a s).events
          = (List.range n).flatMap (fun k => full (a + (k : Nat))) ∧ Inv s2 := by
  intro n
  induction n with
  | zero =>
    intro a s hs _
    refine ⟨List.prefix_refl _, ?_⟩
    intro s2 h
    have hs2 : s = s2 := Except.ok.inj h
    rw [← hs2]
    exact ⟨rfl, hs⟩
  | succ n ih =>
    intro a s hs hstep
    obtain ⟨hpre, hret⟩ := hstep 0 (by omega) s hs
    simp only [Nat.cast_zero, add_zero] at hpre hret
    have hunf : forFrom body (n + 1) a s
        = Run.bind (body a s) (fun s1 => forFrom body n (a + 1) s1) := rfl
    rw [hunf, flatMap_range_shift]
    cases hres : (body a s).result with
    | error e =>
      rw [Run.bind_of_error hres]
      refine ⟨hpre.trans (List.prefix_append _ _), ?_⟩
      intro s2 h
      simp at h
    | ok s1 =>
      obtain ⟨hfull, hs1⟩ := hret s1 hres
      have hrest := ih (a + 1) s1 hs1 (by
        intro k hk t ht
        have hthis := hstep (k + 1) (by omega) t ht
        have hidx : a + ((k + 1 : Nat) : Int) = a + 1 + (k : Int) := by push_cast; ring
        rw [hidx] at hthis
        exact hthis)
      rw [Run.bind_of_ok hres]
      simp only
      rw [printed_append, hfull]
      refine ⟨(List.prefix_append_right_inj _).mpr hrest.1, ?_⟩
      intro s2 h
      obtain ⟨heq, hinv⟩ := hrest.2 s2 h
      rw [heq]
      exact ⟨rfl, hinv⟩

theorem forInt_printed_prefix {σ : Type} (body : Int → σ → Run σ)
    (full : Int → List (List Char)) (Inv : σ → Prop) (n : Int) (s : σ) (hs : Inv s)
    (hstep : ∀ k : Nat, k < n.toNat → ∀ s1, Inv s1 →
      printed (body k s1).events <+: full k ∧
      ∀ s2, (body k s1).result = .ok s2 → printed (body k s1).events = full k ∧ Inv s2) :
    printed (forInt n body s).events
      <+: (List.range n.toNat).flatMap (fun k => full (k : Nat)) ∧
    ∀ s2, (forInt n body s).result = .ok s2 →
      printed (forInt n body s).events
        = (List.range n.toNat).flatMap (fun k => full (k : Nat)) ∧ Inv s2 := by
  have h := forFrom_printed_prefix body full Inv n.toNat 0 s hs (by
    intro k hk s1 hs1
    rw [zero_add]
    exact hstep k hk s1 hs1)
  simp only [zero_add] at h
  exact h

theorem readZ_prints_nothing (r : SBReadFile) (planeSize capture_index t c z : Int)
    (cp : CaptureDataFrame) :
    printed (readZ r planeSize capture_index t c z cp).events = [] ∧
    ∀ s2, (readZ r planeSize capture_index t c z cp).result = .ok s2 → s2 = cp := by
  cases hread : r.ReadImagePlaneBuf capture_index 0 t (toUInt16 z) c with
  | ok b =>
    rw [readZ_ok r planeSize capture_index t c z cp b hread]
    exact ⟨rfl, fun s2 h => (Except.ok.inj h).symm⟩
  | error e =>
    rw [readZ_raise r planeSize capture_index t c z cp e hread]
    refine ⟨rfl, ?_⟩
    intro s2 h
    simp at h

theorem flatMap_nil_const {α β : Type} (l : List α) :
    l.flatMap (fun _ => ([] : List β)) = [] := by
  induction l with
  | nil => rfl
  | cons a rest ih => simp [List.flatMap_cons, ih]

/-- The Z loop prints nothing and leaves the frame as it is. -/
theorem zLoop_prints_nothing (r : SBReadFile) (planeSize capture_index t c : Int)
    (cp : CaptureDataFrame) (Z : Int) :
    printed (forInt Z (readZ r planeSize capture_index t c) cp).events = [] ∧
    ∀ s2, (forInt Z (readZ r planeSize capture_index t c) cp).result = .ok s2 → s2 = cp := by
  obtain ⟨hpre, hret⟩ := forInt_printed_prefix (readZ r planeSize capture_index t c)
    (fun _ => []) (fun s => s = cp) Z cp rfl (by
      intro k _ s1 hs1
      obtain ⟨hnone, hsame⟩ := readZ_prints_nothing r planeSize capture_index t c k s1
      rw [hnone]
      exact ⟨List.prefix_refl _, fun s2 h => ⟨rfl, (hsame s2 h).trans hs1⟩⟩)
  rw [flatMap_nil_const] at hpre
  exact ⟨List.prefix_nil.mp hpre, fun s2 h => (hret s2 h).2⟩

/-- One pass of the channel loop prints its line if it returns and nothing otherwise. -/
theorem channelBody_prints (r : SBReadFile) (planeSize capture_index t c : Int)
    (cp : CaptureDataFrame) :
    printed (channelBody r planeSize capture_index t c cp).events
      <+: [readBufferLine capture_index t c] ∧
    ∀ s2, (channelBody r planeSize capture_index t c cp).result = .ok s2 →
      printed (channelBody r planeSize capture_index t c cp).events
        = [readBufferLine capture_index t c] ∧
      s2 = { cp with channels_index := some c } := by
  obtain ⟨hnone, hsame⟩ := zLoop_prints_nothing r planeSize capture_index t c
    { cp with channels_index := some c } cp.zDim
  have hunf : channelBody r planeSize capture_index t c cp
      = Run.bind (forInt cp.zDim (readZ r planeSize capture_index t c)
          { cp with channels_index := some c })
        (fun cp2 => Run.bind (Run.emit (.print (readBufferLine capture_index t c)))
          (fun _ => Run.pure cp2)) := rfl
  rw [hunf]
  cases hres : (forInt cp.zDim (readZ r planeSize capture_index t c)
      { cp with channels_index := some c }).result with
  | error e =>
    rw [Run.bind_of_error hres]
    simp only
    rw [hnone]
    refine ⟨List.nil_prefix, ?_⟩
    intro s2 h
    simp at h
  | ok cp2 =>
    rw [Run.bind_of_ok hres]
    simp only
    rw [printed_append, hnone, Run.emit_bind]
    have hcp2 := hsame cp2 hres
    refine ⟨List.prefix_refl _, ?_⟩
    intro s2 h
    refine ⟨rfl, ?_⟩
    have h2 : cp2 = s2 := Except.ok.inj h
    rw [← h2, hcp2]

/-- One pass of the timepoint loop prints an initial segment of the lines of its
channels, all of them if it returns. -/
theorem timepointBody_prints (r : SBReadFile) (planeSize capture_index t : Int)
    (cp : CaptureDataFrame) :
    printed (timepointBody r planeSize capture_index t cp).events
      <+: (List.range cp.number_channels.toNat).flatMap
          (fun (c : Nat) => [readBufferLine capture_index t c]) ∧
    ∀ s2, (timepointBody r planeSize capture_index t cp).result = .ok s2 →
      printed (timepointBody r planeSize capture_index t cp).events
        = (List.range cp.number_channels.toNat).flatMap
            (fun (c : Nat) => [readBufferLine capture_index t c]) ∧
      s2.number_channels = cp.number_channels ∧
      s2.number_timepoints = cp.number_timepoints := by
  unfold timepointBody
  exact forInt_printed_prefix (channelBody r planeSize capture_index t)
    (fun c => [readBufferLine capture_index t c])
    (fun s => s.number_channels = cp.number_channels ∧
      s.number_timepoints = cp.number_timepoints)
    cp.number_channels { cp with timepoint_index := some t } ⟨rfl, rfl⟩ (by
      intro k _ s1 hs1
      obtain ⟨hpre, hret⟩ := channelBody_prints r planeSize capture_index t k s1
      refine ⟨hpre, ?_⟩
      intro s2 h
      obtain ⟨heq, hs2⟩ := hret s2 h
      refine ⟨heq, ?_⟩
      rw [hs2]
      exact hs1)

/-- The traversal prints an initial segment of its progress lines, all of them if it runs
to its end, whatever the reader does. -/
theorem traversal_prints (r : SBReadFile) (planeSize capture_index : Int)
    (cp : CaptureDataFrame) :
    printed (traversal r planeSize capture_index cp).events
      <+: progressLines capture_index cp.number_timepoints.toNat cp.number_channels.toNat ∧
    ((traversal r planeSize capture_index cp).ending = none →
      printed (traversal r planeSize capture_index cp).events
        = progressLines capture_index cp.number_timepoints.toNat
            cp.number_channels.toNat) := by
  have hloop := forInt_printed_prefix (timepointBody r planeSize capture_index)
    (fun t => (List.range cp.number_channels.toNat).flatMap
      (fun (c : Nat) => [readBufferLine capture_index t c]))
    (fun s => s.number_channels = cp.number_channels ∧
      s.number_timepoints = cp.number_timepoints)
    cp.number_timepoints cp ⟨rfl, rfl⟩ (by
      intro k _ s1 hs1
      obtain ⟨hpre, hret⟩ := timepointBody_prints r planeSize capture_index k s1
      rw [hs1.1] at hpre hret
      refine ⟨hpre, ?_⟩
      intro s2 h
      obtain ⟨heq, h1, h2⟩ := hret s2 h
      exact ⟨heq, h1, h2.trans hs1.2⟩)
  unfold traversal progressLines
  refine ⟨hloop.1, ?_⟩
  intro hend
  obtain ⟨s2, hs2⟩ := Run.returns_of_ending hend
  exact (hloop.2 s2 hs2).1

/-- C4 (as amended): the traversal records or reports no failing coordinate. Whatever the
reader does, the lines the traversal prints are an initial segment of its progress lines
`read buffer capture: k time: t channel: c`, one per `(t, c)` in order, and all of them if
it runs to its end; and the value `ReadImagePlaneBuf` returns is discarded: for two readers
none of whose plane reads raises, the run of the traversal (its events, the lines it
prints, the frame it leaves) is the same whatever the reads returned, `true` or `false`.
(A read that raises ends the run; the only report is then the description of the
exception, printed by the handler.) -/
theorem C4_no_failing_coordinate_recorded (r1 r2 : SBReadFile)
    (planeSize capture_index : Int) (cp : CaptureDataFrame) :
    printed (traversal r1 planeSize capture_index cp).events
      <+: progressLines capture_index cp.number_timepoints.toNat cp.number_channels.toNat ∧
    ((traversal r1 planeSize capture_index cp).ending = none →
      printed (traversal r1 planeSize capture_index cp).events
        = progressLines capture_index cp.number_timepoints.toNat
            cp.number_channels.toNat) ∧
    ((∀ p t z c, ∃ b, r1.ReadImagePlaneBuf capture_index p t z c = .ok b) →
      (∀ p t z c, ∃ b, r2.ReadImagePlaneBuf capture_index p t z c = .ok b) →
      traversal r1 planeSize capture_index cp = traversal r2 planeSize capture_index cp) := by
  obtain ⟨hpre, hall⟩ := traversal_prints r1 planeSize capture_index cp
  refine ⟨hpre, hall, ?_⟩
  intro h1 h2
  unfold traversal
  rw [timepointBody_independent r1 r2 planeSize capture_index h1 h2]

/-- C4, witness: the same frame traversed with a reader (exceptions masked) that reads
every plane and with one whose read at `(t=2, c=0, z=1)` returns `false`: the same run. -/
theorem C4_no_failing_coordinate_witness :
    traversal (sampleReader smallFile kAllExceptionsMasked) 16 0
        (frameOf (sampleReader smallFile kAllExceptionsMasked) 3 2 4 4 3)
      = traversal (sampleReader brokenFile kAllExceptionsMasked) 16 0
        (frameOf (sampleReader smallFile kAllExceptionsMasked) 3 2 4 4 3) :=
  (C4_no_failing_coordinate_recorded (sampleReader smallFile kAllExceptionsMasked)
    (sampleReader brokenFile kAllExceptionsMasked) 16 0
    (frameOf (sampleReader smallFile kAllExceptionsMasked) 3 2 4 4 3)).2.2
    (fun p t z c => sampleReader_masked_returns smallFile 0 p t z c)
    (fun p t z c => sampleReader_masked_returns brokenFile 0 p t z c)

/-- C4, counterexample. With exceptions masked, the read at `(t=2, c=0, z=1)` of the broken
sample file returns `false`, yet the traversal runs to its end with exactly the events of
the traversal of the intact file: the failing coordinate is recorded nowhere. With the mask
`ConvertSBImages` uses, a stack whose plane 1 fails and a stack whose plane 2 fails make the
program print exactly the same lines, the last one the description of the exception: the
report does not tell the failing coordinate. -/
theorem C4_counterexample_nothing_recorded :
    ((sampleReader brokenFile kAllExceptionsMasked).ReadImagePlaneBuf 0 0 2 1 0 = .ok false ∧
      (sampleReader smallFile kAllExceptionsMasked).ReadImagePlaneBuf 0 0 2 1 0 = .ok true ∧
      (traversal (sampleReader brokenFile kAllExceptionsMasked) 16 0
        (frameOf (sampleReader brokenFile kAllExceptionsMasked) 3 2 4 4 3)).ending = none ∧
      (traversal (sampleReader brokenFile kAllExceptionsMasked) 16 0
        (frameOf (sampleReader brokenFile kAllExceptionsMasked) 3 2 4 4 3)).events
        = (traversal (sampleReader smallFile kAllExceptionsMasked) 16 0
          (frameOf (sampleReader smallFile kAllExceptionsMasked) 3 2 4 4 3)).events) ∧
    ((sampleReader (brokenStack 1) kNoExceptionsMasked).ReadImagePlaneBuf 0 0 0 1 0
        = .error sampleException ∧
      (sampleReader (brokenStack 2) kNoExceptionsMasked).ReadImagePlaneBuf 0 0 0 1 0
        = .ok true ∧
      (sampleReader (brokenStack 2) kNoExceptionsMasked).ReadImagePlaneBuf 0 0 0 2 0
        = .error sampleException ∧
      printed (ConvertSBImages (openSample (brokenStack 1))).events
        = printed (ConvertSBImages (openSample (brokenStack 2))).events ∧
      (printed (ConvertSBImages (openSample (brokenStack 1))).events).getLast?
        = some "Failed with exception: plane read failed\n".toList) :=
  ⟨⟨rfl, rfl, by decide, by decide⟩, rfl, rfl, rfl, by decide, by decide⟩

/-! ## The scalars of a constructed frame -/

theorem SameShape.refl (a : CaptureDataFrame) : CaptureDataFrame.SameShape a a :=
  ⟨rfl, rfl, rfl, rfl, rfl, rfl, rfl, rfl, rfl, rfl, rfl, rfl, rfl, rfl, rfl⟩

theorem SameShape.trans {a b c : CaptureDataFrame} (h1 : CaptureDataFrame.SameShape a b)
    (h2 : CaptureDataFrame.SameShape b c) : CaptureDataFrame.SameShape a c :=
  ⟨h1.sb_read_file.trans h2.sb_read_file, h1.number_captures.trans h2.number_captures,
    h1.number_positions.trans h2.number_positions,
    h1.number_channels.trans h2.number_channels,
    h1.number_timepoints.trans h2.number_timepoints,
    h1.capture_index.trans h2.capture_index, h1.position_index.trans h2.position_index,
    h1.xDim.trans h2.xDim, h1.yDim.trans h2.yDim, h1.zDim.trans h2.zDim,
    h1.capture_index_fmt.trans h2.capture_index_fmt,
    h1.channel_index_fmt.trans h2.channel_index_fmt,
    h1.position_index_fmt.trans h2.position_index_fmt,
    h1.timepoint_index_fmt.trans h2.timepoint_index_fmt,
    h1.elapsed_range_fmt.trans h2.elapsed_range_fmt⟩

theorem BuiltFrom.of_sameShape {r : SBReadFile} {capture_index position_index : Int}
    {a b : CaptureDataFrame} (h : CaptureDataFrame.SameShape a b)
    (hb : CaptureDataFrame.BuiltFrom r capture_index position_index b) :
    CaptureDataFrame.BuiltFrom r capture_index position_index a := by
  obtain ⟨elapsed, he1, he2⟩ := hb.elapsed_range_fmt
  exact
    { sb_read_file := h.sb_read_file.trans hb.sb_read_file
      capture_index := h.capture_index.trans hb.capture_index
      position_index := h.position_index.trans hb.position_index
      number_captures := by rw [h.number_captures]; exact hb.number_captures
      number_positions := by rw [h.number_positions]; exact hb.number_positions
      number_channels := by rw [h.number_channels]; exact hb.number_channels
      number_timepoints := by rw [h.number_timepoints]; exact hb.number_timepoints
      xDim := by rw [h.xDim]; exact hb.xDim
      yDim := by rw [h.yDim]; exact hb.yDim
      zDim := by rw [h.zDim]; exact hb.zDim
      capture_index_fmt := by rw [h.capture_index_fmt, h.number_captures]; exact hb.capture_index_fmt
      channel_index_fmt := by rw [h.channel_index_fmt, h.number_channels]; exact hb.channel_index_fmt
      position_index_fmt := by
        rw [h.position_index_fmt, h.number_positions]; exact hb.position_index_fmt
      timepoint_index_fmt := by
        rw [h.timepoint_index_fmt, h.number_timepoints]; exact hb.timepoint_index_fmt
      elapsed_range_fmt := ⟨elapsed, by rw [h.number_timepoints]; exact he1,
        by rw [h.elapsed_range_fmt]; exact he2⟩ }

/-- The member initialisers store the reader's answers as they are. -/
theorem init_builtFrom (r : SBReadFile) (capture_index position_index : Int)
    (cp : CaptureDataFrame)
    (h : (CaptureDataFrame.init r capture_index position_index).result = .ok cp) :
    CaptureDataFrame.BuiltFrom r capture_index position_index cp := by
  unfold CaptureDataFrame.init at h
  obtain ⟨v1, h1, h⟩ := Run.bind_result_ok h
  obtain ⟨v2, h2, h⟩ := Run.bind_result_ok h
  obtain ⟨v3, h3, h⟩ := Run.bind_result_ok h
  obtain ⟨v4, h4, h⟩ := Run.bind_result_ok h
  obtain ⟨v5, h5, h⟩ := Run.bind_result_ok h
  obtain ⟨v6, h6, h⟩ := Run.bind_result_ok h
  obtain ⟨v7, h7, h⟩ := Run.bind_result_ok h
  obtain ⟨v8, _, h⟩ := Run.bind_result_ok h
  obtain ⟨v9, _, h⟩ := Run.bind_result_ok h
  obtain ⟨v10, _, h⟩ := Run.bind_result_ok h
  obtain ⟨v11, _, h⟩ := Run.bind_result_ok h
  obtain ⟨v12, h12, h⟩ := Run.bind_result_ok h
  have he : r.GetElapsedTime capture_index (toSInt32 (v4 - 1)) = .ok v12 :=
    Run.ofReader_result_ok h12
  have hcp := Run.pure_result_ok h
  have e1 : cp.number_captures = v1 := by rw [← hcp]
  have e2 : cp.number_positions = v2 := by rw [← hcp]
  have e3 : cp.number_channels = v3 := by rw [← hcp]
  have e4 : cp.number_timepoints = v4 := by rw [← hcp]
  have e5 : cp.xDim = v5 := by rw [← hcp]
  have e6 : cp.yDim = v6 := by rw [← hcp]
  have e7 : cp.zDim = v7 := by rw [← hcp]
  have f1 : cp.capture_index_fmt = RangePrinter.new 1 v1 := by rw [← hcp]
  have f2 : cp.channel_index_fmt = RangePrinter.new 1 v3 := by rw [← hcp]
  have f3 : cp.position_index_fmt = RangePrinter.new 1 v2 := by rw [← hcp]
  have f4 : cp.timepoint_index_fmt = RangePrinter.new 1 v4 := by rw [← hcp]
  have f5 : cp.elapsed_range_fmt = RangePrinter.new 0 (toSInt32 (v12 : Int)) := by rw [← hcp]
  exact
    { sb_read_file := by rw [← hcp]
      capture_index := by rw [← hcp]
      position_index := by rw [← hcp]
      number_captures := by rw [e1]; exact Run.ofReader_result_ok h1
      number_positions := by rw [e2]; exact Run.ofReader_result_ok h2
      number_channels := by rw [e3]; exact Run.ofReader_result_ok h3
      number_timepoints := by rw [e4]; exact Run.ofReader_result_ok h4
      xDim := by rw [e5]; exact Run.ofReader_result_ok h5
      yDim := by rw [e6]; exact Run.ofReader_result_ok h6
      zDim := by rw [e7]; exact Run.ofReader_result_ok h7
      capture_index_fmt := by rw [f1, e1]
      channel_index_fmt := by rw [f2, e3]
      position_index_fmt := by rw [f3, e2]
      timepoint_index_fmt := by rw [f4, e4]
      elapsed_range_fmt := ⟨v12, by rw [e4]; exact he, f5⟩ }

theorem setVoxel_sameShape (cp : CaptureDataFrame) (reply : VoxelReply) :
    CaptureDataFrame.SameShape (cp.setVoxel reply) cp := by
  unfold CaptureDataFrame.setVoxel
  dsimp only
  split <;> exact ⟨rfl, rfl, rfl, rfl, rfl, rfl, rfl, rfl, rfl, rfl, rfl, rfl, rfl, rfl, rfl⟩

theorem pushChannel_loop_sameShape (r : SBReadFile) (capture_index : Int) (n : Int)
    (cp cp2 : CaptureDataFrame)
    (h : (forInt n (CaptureDataFrame.pushChannel r capture_index) cp).result = .ok cp2) :
    CaptureDataFrame.SameShape cp2 cp := by
  refine forInt_invariant (CaptureDataFrame.pushChannel r capture_index) n
    (fun _ s => CaptureDataFrame.SameShape s cp) cp (SameShape.refl cp) ?_ cp2 h
  intro k _ s1 s2 hinv hb
  obtain ⟨nm, ex, _, _, hs2⟩ := pushChannel_result_ok r capture_index k s1 s2 hb
  refine SameShape.trans ?_ hinv
  rw [hs2]
  exact ⟨rfl, rfl, rfl, rfl, rfl, rfl, rfl, rfl, rfl, rfl, rfl, rfl, rfl, rfl, rfl⟩

/-- The constructed frame carries the reader's answers as they are. -/
theorem new_builtFrom (r : SBReadFile) (capture_index position_index : Int)
    (cp : CaptureDataFrame)
    (h : (CaptureDataFrame.new r capture_index position_index).result = .ok cp) :
    CaptureDataFrame.BuiltFrom r capture_index position_index cp := by
  obtain ⟨cp0, reply, hinit, _, hloop⟩ := new_result_ok r capture_index position_index cp h
  have h0 := init_builtFrom r capture_index position_index cp0 hinit
  have h1 := pushChannel_loop_sameShape r capture_index _ _ cp hloop
  exact BuiltFrom.of_sameShape (SameShape.trans h1 (setVoxel_sameShape cp0 reply)) h0

/-- C11 (as amended): for every reader and capture index, each count and pixel dimension of
the constructed `CaptureDataFrame` (`number_captures`, `number_positions`,
`number_channels`, `number_timepoints`, `xDim`, `yDim`, `zDim`) equals the value the reader
returned for the corresponding query, unchanged; every `exposure_time[i]` is the reader's
`UInt32` exposure time converted to `SInt32`, which is that value unchanged whenever it is
below `2^31`. -/
theorem C11_scalars_taken_verbatim (r : SBReadFile) (capture_index position_index : Int)
    (cp : CaptureDataFrame)
    (hnew : (CaptureDataFrame.new r capture_index position_index).result = .ok cp) :
    r.GetNumCaptures = .ok cp.number_captures ∧
    r.GetNumPositions capture_index = .ok cp.number_positions ∧
    r.GetNumChannels capture_index = .ok cp.number_channels ∧
    r.GetNumTimepoints capture_index = .ok cp.number_timepoints ∧
    r.GetNumXColumns capture_index = .ok cp.xDim ∧
    r.GetNumYRows capture_index = .ok cp.yDim ∧
    r.GetNumZPlanes capture_index = .ok cp.zDim ∧
    ∀ i : Nat, (i : Int) < cp.number_channels → ∃ exposure,
      r.GetExposureTime capture_index i = .ok exposure ∧
      cp.exposure_time[i]? = some (toSInt32 exposure) ∧
      (exposure < 2147483648 → cp.exposure_time[i]? = some (exposure : Int)) := by
  have hb := new_builtFrom r capture_index position_index cp hnew
  refine ⟨hb.number_captures, hb.number_positions, hb.number_channels, hb.number_timepoints,
    hb.xDim, hb.yDim, hb.zDim, ?_⟩
  obtain ⟨cp0, reply, hinit, _, hloop⟩ := new_result_ok r capture_index position_index cp hnew
  obtain ⟨_, hnames, hexp, _⟩ := init_result_ok r capture_index position_index cp0 hinit
  obtain ⟨_, _, hkeep⟩ := pushChannel_loop_keeps r capture_index _ _ cp hloop
  obtain ⟨_, _, hall⟩ := pushChannel_loop_appends r capture_index _ _ cp
    (by rw [setVoxel_channel_names]; exact hnames)
    (by rw [setVoxel_exposure_time]; exact hexp) hloop
  rw [hkeep, setVoxel_number_channels]
  intro i hi
  obtain ⟨nm, ex, _, h2, _, h4⟩ := hall i (by omega)
  refine ⟨ex, h2, h4, ?_⟩
  intro hsmall
  rw [h4, toSInt32_of_lt hsmall]

/-- C11, witness: the sample frame; its counts are those of the sample file. -/
theorem C11_scalars_witness :
    ∃ cp, (CaptureDataFrame.new (sampleReader smallFile kNoExceptionsMasked) 0 0).result
        = .ok cp ∧
      (sampleReader smallFile kNoExceptionsMasked).GetNumTimepoints 0
        = .ok cp.number_timepoints ∧
      (sampleReader smallFile kNoExceptionsMasked).GetNumZPlanes 0 = .ok cp.zDim :=
  Exists.elim
    (Run.returns_of_ending
      (x := CaptureDataFrame.new (sampleReader smallFile kNoExceptionsMasked) 0 0) (by decide))
    (fun cp h => ⟨cp, h,
      (C11_scalars_taken_verbatim (sampleReader smallFile kNoExceptionsMasked) 0 0 cp
        h).2.2.2.1,
      (C11_scalars_taken_verbatim (sampleReader smallFile kNoExceptionsMasked) 0 0 cp
        h).2.2.2.2.2.2.1⟩)

/-- C11, counterexample: a reader whose exposure time is `4294967295` ms (the largest
`UInt32`) for every channel. The frame is constructed and its `exposure_time` holds `-1`
for both channels: the value is not the one the reader returned. -/
theorem C11_counterexample_exposure_converted :
    (sampleReader { smallFile with exposure := fun _ => 4294967295 }
      kNoExceptionsMasked).GetExposureTime 0 1 = .ok 4294967295 ∧
    (CaptureDataFrame.new
      (sampleReader { smallFile with exposure := fun _ => 4294967295 } kNoExceptionsMasked)
      0 0).result.toOption.map (fun cp => cp.exposure_time) = some [-1, -1] :=
  ⟨rfl, by decide⟩

/-! ## Properties of every event of a run -/

theorem Run.bind_forall {α β : Type} {x : Run α} {f : α → Run β} {P : Event → Prop}
    (hx : ∀ ev ∈ x.events, P ev)
    (hf : ∀ a, x.result = .ok a → ∀ ev ∈ (f a).events, P ev) :
    ∀ ev ∈ (x >>= f).events, P ev := by
  rw [Run.bind_eq]
  cases hres : x.result with
  | ok a =>
    rw [Run.bind_of_ok hres]
    intro ev hev
    rcases List.mem_append.mp hev with h | h
    · exact hx ev h
    · exact hf a hres ev h
  | error e =>
    rw [Run.bind_of_error hres]
    exact hx

theorem Run.emit_forall {P : Event → Prop} {e : Event} (h : P e) :
    ∀ ev ∈ (Run.emit e).events, P ev := by
  intro ev hev
  rw [Run.emit_events, List.mem_singleton] at hev
  rw [hev]
  exact h

theorem Run.ofReader_forall {α : Type} {P : Event → Prop} (q : Except Exception α) :
    ∀ ev ∈ (Run.ofReader q).events, P ev := by
  cases q <;> intro ev hev <;> simp [Run.ofReader] at hev

theorem Run.ofDefined_forall {α : Type} {P : Event → Prop} (q : Option α) :
    ∀ ev ∈ (Run.ofDefined q).events, P ev := by
  cases q <;> intro ev hev <;> simp [Run.ofDefined] at hev

theorem Run.pure_forall {α : Type} {P : Event → Prop} (a : α) :
    ∀ ev ∈ (pure a : Run α).events, P ev := by
  intro ev hev
  rw [Run.pure_eq] at hev
  simp [Run.pure] at hev

/-- A property of the events of every pass is a property of the events of the loop; `Inv`
is a property of the state the passes keep. -/
theorem forFrom_forall {σ : Type} (body : Int → σ → Run σ) (P : Event → Prop)
    (Inv : σ → Prop) :
    ∀ (n : Nat) (a : Int) (s : σ), Inv s →
      (∀ k : Nat, k < n → ∀ s1, Inv s1 →
        (∀ ev ∈ (body (a + k) s1).events, P ev) ∧
        ∀ s2, (body (a + k) s1).result = .ok s2 → Inv s2) →
      ∀ ev ∈ (forFrom body n a s).events, P ev := by
  intro n
  induction n with
  | zero =>
    intro a s _ _ ev hev
    simp [forFrom, Run.pure] at hev
  | succ n ih =>
    intro a s hs hstep
    obtain ⟨hev, hret⟩ := hstep 0 (by omega) s hs
    simp only [Nat.cast_zero, add_zero] at hev hret
    have hunf : forFrom body (n + 1) a s
        = (body a s >>= fun s1 => forFrom body n (a + 1) s1) := rfl
    rw [hunf]
    refine Run.bind_forall hev ?_
    intro s1 hs1
    refine ih (a + 1) s1 (hret s1 hs1) ?_
    intro k hk t ht
    have hthis := hstep (k + 1) (by omega) t ht
    have hidx : a + ((k + 1 : Nat) : Int) = a + 1 + (k : Int) := by push_cast; ring
    rw [hidx] at hthis
    exact hthis

theorem forInt_forall {σ : Type} (body : Int → σ → Run σ) (P : Event → Prop)
    (Inv : σ → Prop) (n : Int) (s : σ) (hs : Inv s)
    (hstep : ∀ k : Nat, k < n.toNat → ∀ s1, Inv s1 →
      (∀ ev ∈ (body k s1).events, P ev) ∧ ∀ s2, (body k s1).result = .ok s2 → Inv s2) :
    ∀ ev ∈ (forInt n body s).events, P ev := by
  unfold forInt
  refine forFrom_forall body P Inv n.toNat 0 s hs ?_
  intro k hk s1 hs1
  rw [zero_add]
  exact hstep k hk s1 hs1

/-! ## The events of the constructor -/

theorem isStringWork_stringQuery (g : StringGetter) (b : Option Nat) (c : Int) :
    (Event.stringQuery g b c).isStringWork := True.intro
theorem isStringWork_channelStringQuery (g : ChannelStringGetter) (b : Option Nat)
    (c i : Int) : (Event.channelStringQuery g b c i).isStringWork := True.intro
theorem isStringWork_newChars (n : Nat) : (Event.newChars n).isStringWork := True.intro
theorem isStringWork_deleteChars : Event.deleteChars.isStringWork := True.intro

theorem Run.cons_forall {α : Type} {P : Event → Prop} {e : Event} {l : List Event} {res : Except Abort α}
    (he : P e) (hl : ∀ ev ∈ l, P ev) : ∀ ev ∈ (Run.mk (e :: l) res).events, P ev := by
  intro ev hev
  rcases List.mem_cons.mp hev with h | h
  · rw [h]; exact he
  · exact hl ev h

theorem Run.nil_forall {α : Type} {P : Event → Prop} {res : Except Abort α} :
    ∀ ev ∈ (Run.mk [] res).events, P ev := by
  intro ev hev
  cases hev

theorem GetString_stringWork (r : SBReadFile) (capture_index : Int) (g : StringGetter) :
    ∀ ev ∈ (CaptureDataFrame.GetString r capture_index g).events, ev.isStringWork := by
  unfold CaptureDataFrame.GetString
  simp only [Run.bind_eq, Run.pure_eq]
  rw [Run.emit_bind]
  refine Run.cons_forall (isStringWork_stringQuery _ _ _) ?_
  cases hq : r.call g false capture_index with
  | error e =>
    rw [Run.ofReader_error_bind]
    exact Run.nil_forall
  | ok first =>
    rw [Run.ofReader_ok_bind]
    by_cases hpos : 0 < toSInt32 first.ret
    · simp only [hpos, if_true]
      rw [Run.emit_bind]
      refine Run.cons_forall (isStringWork_newChars _) ?_
      rw [Run.emit_bind]
      refine Run.cons_forall (isStringWork_stringQuery _ _ _) ?_
      cases hq2 : r.call g true capture_index with
      | error e =>
        rw [Run.ofReader_error_bind]
        exact Run.nil_forall
      | ok second =>
        rw [Run.ofReader_ok_bind]
        cases hc : cString (toSInt32 first.ret).toNat second.written with
        | none => exact Run.nil_forall
        | some s =>
          rw [Run.ofDefined_some_bind, Run.emit_bind]
          exact Run.cons_forall isStringWork_deleteChars Run.nil_forall
    · simp only [hpos, if_false]
      exact Run.nil_forall

theorem GetChannelString_stringWork (r : SBReadFile) (capture_index channel_index : Int)
    (g : ChannelStringGetter) :
    ∀ ev ∈ (CaptureDataFrame.GetChannelString r capture_index channel_index g).events,
      ev.isStringWork := by
  unfold CaptureDataFrame.GetChannelString
  simp only [Run.bind_eq, Run.pure_eq]
  rw [Run.emit_bind]
  refine Run.cons_forall (isStringWork_channelStringQuery _ _ _ _) ?_
  cases hq : r.callChannel g false capture_index channel_index with
  | error e =>
    rw [Run.ofReader_error_bind]
    exact Run.nil_forall
  | ok first =>
    rw [Run.ofReader_ok_bind]
    by_cases hpos : 0 < toSInt32 first.ret
    · simp only [hpos, if_true]
      rw [Run.emit_bind]
      refine Run.cons_forall (isStringWork_newChars _) ?_
      rw [Run.emit_bind]
      refine Run.cons_forall (isStringWork_channelStringQuery _ _ _ _) ?_
      cases hq2 : r.callChannel g true capture_index channel_index with
      | error e =>
        rw [Run.ofReader_error_bind]
        exact Run.nil_forall
      | ok second =>
        rw [Run.ofReader_ok_bind]
        cases hc : cString (toSInt32 first.ret).toNat second.written with
        | none => exact Run.nil_forall
        | some s =>
          rw [Run.ofDefined_some_bind, Run.emit_bind]
          exact Run.cons_forall isStringWork_deleteChars Run.nil_forall
    · simp only [hpos, if_false]
      exact Run.nil_forall

/-- The constructor does nothing but retrieve strings: every event of it is a string
query, a `new char[]` or a `delete[]`. -/
theorem new_stringWork (r : SBReadFile) (capture_index position_index : Int) :
    ∀ ev ∈ (CaptureDataFrame.new r capture_index position_index).events,
      ev.isStringWork := by
  unfold CaptureDataFrame.new
  refine Run.bind_forall ?_ (fun cp0 _ => ?_)
  · unfold CaptureDataFrame.init
    refine Run.bind_forall (Run.ofReader_forall _) (fun _ _ => ?_)
    refine Run.bind_forall (Run.ofReader_forall _) (fun _ _ => ?_)
    refine Run.bind_forall (Run.ofReader_forall _) (fun _ _ => ?_)
    refine Run.bind_forall (Run.ofReader_forall _) (fun _ _ => ?_)
    refine Run.bind_forall (Run.ofReader_forall _) (fun _ _ => ?_)
    refine Run.bind_forall (Run.ofReader_forall _) (fun _ _ => ?_)
    refine Run.bind_forall (Run.ofReader_forall _) (fun _ _ => ?_)
    refine Run.bind_forall (GetString_stringWork r capture_index _) (fun _ _ => ?_)
    refine Run.bind_forall (GetString_stringWork r capture_index _) (fun _ _ => ?_)
    refine Run.bind_forall (GetString_stringWork r capture_index _) (fun _ _ => ?_)
    refine Run.bind_forall (GetString_stringWork r capture_index _) (fun _ _ => ?_)
    refine Run.bind_forall (Run.ofReader_forall _) (fun _ _ => ?_)
    exact Run.pure_forall _
  · unfold CaptureDataFrame.body
    refine Run.bind_forall (Run.ofReader_forall _) (fun reply _ => ?_)
    refine forInt_forall _ _ (fun _ => True) _ _ trivial ?_
    intro k _ s1 _
    refine ⟨?_, fun _ _ => trivial⟩
    unfold CaptureDataFrame.pushChannel
    refine Run.bind_forall (GetChannelString_stringWork r capture_index _ _) (fun _ _ => ?_)
    refine Run.bind_forall (Run.ofReader_forall _) (fun _ _ => ?_)
    exact Run.pure_forall _

/-! ## The plane reads of the traversal, whatever the reader does -/

theorem readZ_forall (r : SBReadFile) (planeSize capture_index t c z : Int)
    (cp : CaptureDataFrame) (T C Z : Int) (ht : 0 ≤ t ∧ t < T) (hc : 0 ≤ c ∧ c < C)
    (hz : 0 ≤ z ∧ z < Z) :
    ∀ ev ∈ (readZ r planeSize capture_index t c z cp).events,
      TraversalRead planeSize capture_index T C Z ev := by
  have hread : TraversalRead planeSize capture_index T C Z
      (.readPlane (toSizeT (toSizeT z * planeSize)) capture_index 0 t (toUInt16 z) c) :=
    ⟨rfl, rfl, ht, hc, z, hz, rfl, rfl⟩
  cases hq : r.ReadImagePlaneBuf capture_index 0 t (toUInt16 z) c with
  | ok b =>
    rw [readZ_ok r planeSize capture_index t c z cp b hq]
    exact Run.cons_forall hread (fun _ h => absurd h (List.not_mem_nil _))
  | error e =>
    rw [readZ_raise r planeSize capture_index t c z cp e hq]
    exact Run.cons_forall hread (fun _ h => absurd h (List.not_mem_nil _))

theorem channelBody_forall (r : SBReadFile) (planeSize capture_index t c : Int)
    (cp : CaptureDataFrame) (T C : Int) (ht : 0 ≤ t ∧ t < T) (hc : 0 ≤ c ∧ c < C) :
    ∀ ev ∈ (channelBody r planeSize capture_index t c cp).events,
      TraversalRead planeSize capture_index T C cp.zDim ev := by
  have hunf : channelBody r planeSize capture_index t c cp
      = (forInt cp.zDim (readZ r planeSize capture_index t c)
          { cp with channels_index := some c } >>=
        fun cp2 => Run.emit (.print (readBufferLine capture_index t c)) >>=
          fun _ => pure cp2) := rfl
  rw [hunf]
  refine Run.bind_forall ?_ (fun _ _ => ?_)
  · refine forInt_forall _ _ (fun _ => True) _ _ trivial ?_
    intro k hk s1 _
    exact ⟨readZ_forall r planeSize capture_index t c k s1 T C cp.zDim ht hc
      ⟨by omega, by omega⟩, fun _ _ => trivial⟩
  · refine Run.bind_forall (Run.emit_forall True.intro) (fun _ _ => ?_)
    exact Run.pure_forall _

/-- What one pass of the timepoint loop leaves of the counts the loops read. -/
theorem timepointBody_keeps (r : SBReadFile) (planeSize capture_index t : Int)
    (cp s2 : CaptureDataFrame)
    (h : (timepointBody r planeSize capture_index t cp).result = .ok s2) :
    s2.number_channels = cp.number_channels ∧ s2.zDim = cp.zDim := by
  unfold timepointBody at h
  refine forInt_invariant (channelBody r planeSize capture_index t) cp.number_channels
    (fun _ s => s.number_channels = cp.number_channels ∧ s.zDim = cp.zDim)
    { cp with timepoint_index := some t } ⟨rfl, rfl⟩ ?_ s2 h
  intro k _ s1 s3 hs1 hs3
  rw [((channelBody_prints r planeSize capture_index t k s1).2 s3 hs3).2]
  exact hs1

theorem timepointBody_forall (r : SBReadFile) (planeSize capture_index t : Int)
    (cp : CaptureDataFrame) (T : Int) (ht : 0 ≤ t ∧ t < T) :
    ∀ ev ∈ (timepointBody r planeSize capture_index t cp).events,
      TraversalRead planeSize capture_index T cp.number_channels cp.zDim ev := by
  unfold timepointBody
  refine forInt_forall _ _
    (fun s => s.number_channels = cp.number_channels ∧ s.zDim = cp.zDim) _ _ ⟨rfl, rfl⟩ ?_
  intro k hk s1 hs1
  have hk2 : k < cp.number_channels.toNat := hk
  refine ⟨?_, ?_⟩
  · have hthis := channelBody_forall r planeSize capture_index t k s1 T cp.number_channels ht
      ⟨by omega, by omega⟩
    rw [hs1.2] at hthis
    exact hthis
  · intro s2 hs2
    rw [((channelBody_prints r planeSize capture_index t k s1).2 s2 hs2).2]
    exact hs1

/-- Every plane read the traversal issues, whatever the reader answers, is a read for the
capture at position 0 with timepoint, channel and Z counter within the counts of the
frame. -/
theorem traversal_forall (r : SBReadFile) (planeSize capture_index : Int)
    (cp : CaptureDataFrame) :
    ∀ ev ∈ (traversal r planeSize capture_index cp).events,
      TraversalRead planeSize capture_index cp.number_timepoints cp.number_channels
        cp.zDim ev := by
  unfold traversal
  refine forInt_forall _ _
    (fun s => s.number_channels = cp.number_channels ∧ s.zDim = cp.zDim) _ _ ⟨rfl, rfl⟩ ?_
  intro k hk s1 hs1
  have hk2 : k < cp.number_timepoints.toNat := hk
  refine ⟨?_, ?_⟩
  · have hthis := timepointBody_forall r planeSize capture_index k s1 cp.number_timepoints
      ⟨by omega, by omega⟩
    rw [hs1.1, hs1.2] at hthis
    exact hthis
  · intro s2 hs2
    obtain ⟨h1, h2⟩ := timepointBody_keeps r planeSize capture_index k s1 s2 hs2
    exact ⟨h1.trans hs1.1, h2.trans hs1.2⟩

/-! ## The plane reads of `ConvertSBImages`, whatever the reader does -/

theorem CaptureRead.of_stringWork {r : SBReadFile} {capture_index : Int} {ev : Event}
    (h : ev.isStringWork) : CaptureRead r capture_index ev := by
  cases ev <;> first | exact True.intro | exact False.elim h

theorem CaptureRead.of_traversalRead {r : SBReadFile} {capture_index : Int}
    {cp : CaptureDataFrame} {ev : Event}
    (hb : CaptureDataFrame.BuiltFrom r capture_index 0 cp)
    (h : TraversalRead (planeSizeOf cp) capture_index cp.number_timepoints
      cp.number_channels cp.zDim ev) : CaptureRead r capture_index ev := by
  cases ev <;> first | exact True.intro | exact ⟨cp, hb, h⟩

theorem ProgramRead.of_captureRead {r : SBReadFile} {capture_index n : Int} {ev : Event}
    (hn : r.GetNumCaptures = .ok n) (hk : 0 ≤ capture_index ∧ capture_index < n)
    (h : CaptureRead r capture_index ev) : ProgramRead r ev := by
  cases ev with
  | readPlane offset capture position t zPlane c =>
    obtain ⟨cp, hb, hcap, hrest⟩ := h
    rw [hcap]
    exact ⟨⟨n, hn, hk⟩, cp, hb, rfl, hrest⟩
  | _ => exact True.intro

/-- Every plane read of one pass of the capture loop is a read of the traversal over the
frame the constructor built for that capture. -/
theorem captureBody_forall (r : SBReadFile) (capture_index : Int) :
    ∀ ev ∈ (captureBody r capture_index ()).events, CaptureRead r capture_index ev := by
  have hunf : captureBody r capture_index ()
      = (CaptureDataFrame.new r capture_index 0 >>= fun cp =>
          Run.emit (.print (cp.GetHeader capture_index cp.position_index ++ "\n".toList)) >>=
          fun _ => if bufferSizeOf cp < 0 then Run.abort .uncaught
            else Run.emit (.newPixels (bufferSizeOf cp).toNat) >>= fun _ =>
              traversal r (planeSizeOf cp) capture_index cp >>= fun _ =>
              Run.emit .deletePixels) := rfl
  rw [hunf]
  refine Run.bind_forall ?_ (fun cp hcp => ?_)
  · intro ev hev
    exact CaptureRead.of_stringWork (new_stringWork r capture_index 0 ev hev)
  have hb := new_builtFrom r capture_index 0 cp hcp
  refine Run.bind_forall (Run.emit_forall True.intro) (fun _ _ => ?_)
  by_cases hneg : bufferSizeOf cp < 0
  · rw [if_pos hneg]
    intro ev hev
    cases hev
  · rw [if_neg hneg]
    refine Run.bind_forall (Run.emit_forall True.intro) (fun _ _ => ?_)
    refine Run.bind_forall ?_ (fun _ _ => Run.emit_forall True.intro)
    intro ev hev
    exact CaptureRead.of_traversalRead hb (traversal_forall r (planeSizeOf cp) capture_index cp ev hev)

theorem ConvertSBImages.body_forall
    (III_NewSBReadFile : Nat → Except Exception (Option SBReadFile)) (r : SBReadFile)
    (hopen : III_NewSBReadFile kNoExceptionsMasked = .ok (some r)) :
    ∀ ev ∈ (ConvertSBImages.body III_NewSBReadFile).events, ProgramRead r ev := by
  unfold ConvertSBImages.body
  rw [hopen]
  simp only [Run.bind_eq, Run.pure_eq]
  rw [Run.ofReader_ok_bind, Run.ofDefined_some_bind, Run.emit_bind]
  refine Run.cons_forall True.intro ?_
  cases hn : r.GetNumCaptures with
  | error e =>
    rw [Run.ofReader_error_bind]
    exact Run.nil_forall
  | ok n =>
    rw [Run.ofReader_ok_bind, Run.emit_bind]
    refine Run.cons_forall True.intro ?_
    rw [Run.ofReader_ok_bind]
    refine forInt_forall _ _ (fun _ => True) _ _ trivial ?_
    intro k hk _ _
    refine ⟨?_, fun _ _ => trivial⟩
    intro ev hev
    exact ProgramRead.of_captureRead hn ⟨by omega, by omega⟩
      (captureBody_forall r k ev hev)

/-- Every plane read `ConvertSBImages` issues on the reader the library opened is a read of
the pass of the capture loop for a capture index within the reader's number of captures,
issued by the traversal over the frame built for that capture. -/
theorem ConvertSBImages_forall
    (III_NewSBReadFile : Nat → Except Exception (Option SBReadFile)) (r : SBReadFile)
    (hopen : III_NewSBReadFile kNoExceptionsMasked = .ok (some r)) :
    ∀ ev ∈ (ConvertSBImages III_NewSBReadFile).events, ProgramRead r ev := by
  have hbody := ConvertSBImages.body_forall III_NewSBReadFile r hopen
  cases hres : (ConvertSBImages.body III_NewSBReadFile).result with
  | ok u =>
    have heq : ConvertSBImages III_NewSBReadFile = ConvertSBImages.body III_NewSBReadFile := by
      unfold ConvertSBImages
      simp only
      rw [hres]
    rw [heq]
    exact hbody
  | error a =>
    cases a with
    | exception e =>
      rw [ConvertSBImages_of_exception III_NewSBReadFile e hres]
      intro ev hev
      rcases List.mem_append.mp hev with h | h
      · exact hbody ev h
      · rw [List.mem_singleton.mp h]
        exact True.intro
    | _ =>
      have heq : ConvertSBImages III_NewSBReadFile
          = ConvertSBImages.body III_NewSBReadFile := by
        unfold ConvertSBImages
        simp only
        rw [hres]
      rw [heq]
      exact hbody

theorem mem_readArgs (evs : List Event) (offset capture position t z c : Int) :
    (offset, capture, position, t, z, c) ∈ readArgs evs
      ↔ Event.readPlane offset capture position t z c ∈ evs := by
  induction evs with
  | nil => simp [readArgs]
  | cons e rest ih =>
    cases e <;> simp [readArgs, ih]

/-! ## The indices of the plane reads -/

theorem toUInt16_bounds {z Z : Int} (h : 0 ≤ z ∧ z < Z) :
    0 ≤ toUInt16 z ∧ toUInt16 z < Z := by
  unfold toUInt16
  omega

/-- C12 (as amended): whatever the reader the library opened answers, every
`ReadImagePlaneBuf` request `ConvertSBImages` issues carries a capture index in
`[0, GetNumCaptures())`, a timepoint index in `[0, GetNumTimepoints(capture))`, a channel
index in `[0, GetNumChannels(capture))`, a Z plane index in `[0, GetNumZPlanes(capture))`,
and the position index 0, which is below `GetNumPositions(capture)` exactly when the capture
declares at least one position. -/
theorem C12_read_indices_in_range
    (III_NewSBReadFile : Nat → Except Exception (Option SBReadFile)) (r : SBReadFile)
    (hopen : III_NewSBReadFile kNoExceptionsMasked = .ok (some r))
    (offset capture position t z c : Int)
    (hread : (offset, capture, position, t, z, c)
      ∈ readArgs (ConvertSBImages III_NewSBReadFile).events) :
    ∃ n P T C Z : Int,
      r.GetNumCaptures = .ok n ∧ r.GetNumPositions capture = .ok P ∧
      r.GetNumTimepoints capture = .ok T ∧ r.GetNumChannels capture = .ok C ∧
      r.GetNumZPlanes capture = .ok Z ∧
      (0 ≤ capture ∧ capture < n) ∧ (0 ≤ t ∧ t < T) ∧ (0 ≤ c ∧ c < C) ∧ (0 ≤ z ∧ z < Z) ∧
      position = 0 ∧ (position < P ↔ 1 ≤ P) := by
  have hev := ConvertSBImages_forall III_NewSBReadFile r hopen _
    ((mem_readArgs _ offset capture position t z c).mp hread)
  obtain ⟨⟨n, hn, hcap⟩, cp, hb, _, hpos, ht, hc, z0, hz0, hz, _⟩ := hev
  refine ⟨n, cp.number_positions, cp.number_timepoints, cp.number_channels, cp.zDim, hn,
    hb.number_positions, hb.number_timepoints, hb.number_channels, hb.zDim, hcap, ht, hc, ?_,
    hpos, ?_⟩
  · rw [hz]
    exact toUInt16_bounds hz0
  · rw [hpos]
    omega

/-- C12, an instance: the first plane read of the sample run, `(capture, position,
timepoint, zPlane, channel) = (0, 0, 0, 0, 0)` at offset 0, has every index within the
counts of the sample file. -/
theorem C12_read_indices_witness :
    ∃ n P T C Z : Int,
      (sampleReader smallFile kNoExceptionsMasked).GetNumCaptures = .ok n ∧
      (sampleReader smallFile kNoExceptionsMasked).GetNumPositions 0 = .ok P ∧
      (sampleReader smallFile kNoExceptionsMasked).GetNumTimepoints 0 = .ok T ∧
      (sampleReader smallFile kNoExceptionsMasked).GetNumChannels 0 = .ok C ∧
      (sampleReader smallFile kNoExceptionsMasked).GetNumZPlanes 0 = .ok Z ∧
      ((0 : Int) ≤ 0 ∧ 0 < n) ∧ ((0 : Int) ≤ 0 ∧ 0 < T) ∧ ((0 : Int) ≤ 0 ∧ 0 < C) ∧
      ((0 : Int) ≤ 0 ∧ 0 < Z) ∧ (0 : Int) = 0 ∧ ((0 : Int) < P ↔ 1 ≤ P) :=
  C12_read_indices_in_range (openSample smallFile)
    (sampleReader smallFile kNoExceptionsMasked) rfl 0 0 0 0 0 0 (by decide)

/-- C12 as stated fails: on the sample file whose capture declares 0 positions (and, as
before, 3 timepoints, 2 channels, 3 Z planes) `ConvertSBImages` runs to its end and issues
its 18 plane reads, the first being `(capture, position, timepoint, zPlane, channel) =
(0, 0, 0, 0, 0)`: the position index 0 of every read is not below the 0 positions the
reader reports for the capture. -/
theorem C12_counterexample_no_position :
    (sampleReader noPositionFile kNoExceptionsMasked).GetNumPositions 0 = .ok 0 ∧
    (ConvertSBImages (openSample noPositionFile)).ending = none ∧
    (readArgs (ConvertSBImages (openSample noPositionFile)).events).length = 18 ∧
    (0, 0, 0, 0, 0, 0) ∈ readArgs (ConvertSBImages (openSample noPositionFile)).events ∧
    (∀ q ∈ readArgs (ConvertSBImages (openSample noPositionFile)).events, q.2.2.1 = 0) ∧
    ¬ ((0 : Int) < 0) :=
  ⟨rfl, by decide, by decide, by decide, by decide, by decide⟩

/-! ## The size of the pixel buffer -/

/-- C13, the failing inputs. A capture of 32768 x 32768 pixels and 5 planes, one timepoint,
one channel, every plane readable, has `5 * 2^30 = 5368709120` samples; the `int` product
`xDim * yDim * zDim` is `2^30`, so the buffer `ConvertSBImages` allocates holds
`1073741824` samples, not the mathematical product, and the five planes are read to the
sample offsets `z * 2^30` (byte offsets `z * 2^30 * 2`), four of them past the end of the
buffer. A capture of 65536 x 65536 pixels and 2 planes has planes of `2^32` samples; the
`int` product `xDim * yDim` is 0, the buffer holds 0 samples and both planes are read to
offset 0, not to `z * xDim * yDim`. -/
theorem C13_failing_input_size_is_int_product :
    ((32768 : Int) * 32768 * 5 = 5368709120 ∧
      (ConvertSBImages (openSample deepFile)).ending = none ∧
      pixelBuffers (ConvertSBImages (openSample deepFile)).events = [1073741824] ∧
      planeOffsets (ConvertSBImages (openSample deepFile)).events
        = [((0, 0, 0), 0), ((0, 0, 1), 1073741824), ((0, 0, 2), 2147483648),
           ((0, 0, 3), 3221225472), ((0, 0, 4), 4294967296)]) ∧
    ((65536 : Int) * 65536 * 2 = 8589934592 ∧
      (ConvertSBImages (openSample broadFile)).ending = none ∧
      pixelBuffers (ConvertSBImages (openSample broadFile)).events = [0] ∧
      planeOffsets (ConvertSBImages (openSample broadFile)).events
        = [((0, 0, 0), 0), ((0, 0, 1), 0)]) := by
  decide

/-! ## The arguments of the plane reads -/

theorem readArgs_append (l1 l2 : List Event) :
    readArgs (l1 ++ l2) = readArgs l1 ++ readArgs l2 := by
  induction l1 with
  | nil => rfl
  | cons ev rest ih =>
    cases ev <;> simp [readArgs, ih]

theorem readArgs_flatMap {α : Type} (l : List α) (f : α → List Event) :
    readArgs (l.flatMap f) = l.flatMap (fun a => readArgs (f a)) := by
  induction l with
  | nil => rfl
  | cons a rest ih => simp [List.flatMap_cons, readArgs_append, ih]

theorem readArgs_zReads (planeSize capture_index t c : Int) (Z : Nat) :
    readArgs (zReads planeSize capture_index t c Z)
      = (List.range Z).map (fun (z : Nat) =>
          (toSizeT (toSizeT (z : Int) * planeSize), capture_index, (0 : Int), t,
            toUInt16 (z : Int), c)) := by
  induction Z with
  | zero => rfl
  | succ n ih =>
    rw [zReads_succ, readArgs_append, ih, List.range_succ, List.map_append]
    rfl

theorem readArgs_channelEvents (planeSize capture_index t c : Int) (Z : Nat) :
    readArgs (channelEvents planeSize capture_index Z t c)
      = (List.range Z).map (fun (z : Nat) =>
          (toSizeT (toSizeT (z : Int) * planeSize), capture_index, (0 : Int), t,
            toUInt16 (z : Int), c)) := by
  unfold channelEvents
  rw [readArgs_append, readArgs_zReads]
  simp [readArgs]

/-- The arguments of the plane reads of a traversal that runs to its end, as the code forms
them: the Z counter reduced to a `PlaneIndex`, the offset formed in `std::size_t`. -/
theorem readArgs_traversalEvents (planeSize capture_index : Int) (T C Z : Nat) :
    readArgs (traversalEvents planeSize capture_index T C Z)
      = (lexTriples T C Z).map (fun p =>
          (toSizeT (toSizeT p.2.2 * planeSize), capture_index, (0 : Int), p.1,
            toUInt16 p.2.2, p.2.1)) := by
  unfold traversalEvents timepointEvents lexTriples
  simp only [readArgs_flatMap, readArgs_channelEvents, List.map_flatMap, List.map_map,
    Function.comp_def]

theorem planeSizeOf_of_fits (cp : CaptureDataFrame) (x y : Nat) (hx : cp.xDim = x)
    (hy : cp.yDim = y) (hfit : x * y ≤ 2147483647) :
    planeSizeOf cp = ((x * y : Nat) : Int) := by
  unfold planeSizeOf
  rw [hx, hy, ← Nat.cast_mul, toSInt32_of_lt (by omega)]
  unfold toSizeT
  omega

theorem offset_of_fits (z xy : Nat) (hz : z ≤ 65536) (hxy : xy ≤ 2147483647) :
    toSizeT (toSizeT (z : Int) * ((xy : Nat) : Int)) = ((z * xy : Nat) : Int) := by
  have hmul : z * xy ≤ 65536 * 2147483647 := Nat.mul_le_mul hz hxy
  have hz64 : toSizeT (z : Int) = (z : Int) := by
    unfold toSizeT
    omega
  rw [hz64, ← Nat.cast_mul]
  unfold toSizeT
  omega

/-- C14 (as amended): for the frame `cp` the constructor built for capture `capture_index`
(at position 0, as `ConvertSBImages` builds it), with at most 65536 Z planes and
`xDim * yDim` an `int`: the frame's `position_index` is 0; whatever the reader does, every
plane read of the traversal passes, for some visited triple `(t, c, z)`, the buffer offset
`z * xDim * yDim`, the capture index, the frame's `position_index`, `t` as timepoint, `z` as
Z plane and `c` as channel; and when no read raises the requests are exactly these, one per
triple of `[0,T) x [0,C) x [0,Z)` in traversal order. -/
theorem C14_read_arguments (r : SBReadFile) (capture_index : Int) (cp : CaptureDataFrame)
    (hnew : (CaptureDataFrame.new r capture_index 0).result = .ok cp)
    (T C Z x y : Nat) (hT : cp.number_timepoints = T) (hC : cp.number_channels = C)
    (hZ : cp.zDim = Z) (hx : cp.xDim = x) (hy : cp.yDim = y) (hZ16 : Z ≤ 65536)
    (hplane : x * y ≤ 2147483647) :
    cp.position_index = 0 ∧
    (∀ q ∈ readArgs (traversal r (planeSizeOf cp) capture_index cp).events,
      ∃ t c z : Nat, t < T ∧ c < C ∧ z < Z ∧
        q = (((z * (x * y) : Nat) : Int), capture_index, cp.position_index, (t : Int),
          (z : Int), (c : Int))) ∧
    ((∀ t c z : Nat, t < T → c < C → z < Z →
        ∃ b, r.ReadImagePlaneBuf capture_index 0 t z c = .ok b) →
      readArgs (traversal r (planeSizeOf cp) capture_index cp).events
        = (lexTriples T C Z).map (fun p =>
            (p.2.2 * ((x * y : Nat) : Int), capture_index, cp.position_index, p.1, p.2.2,
              p.2.1))) := by
  have hpos : cp.position_index = 0 :=
    (new_builtFrom r capture_index 0 cp hnew).position_index
  have hps := planeSizeOf_of_fits cp x y hx hy hplane
  refine ⟨hpos, ?_, ?_⟩
  · rintro ⟨off, cap, pos, t, zp, c⟩ hq
    have hev := traversal_forall r (planeSizeOf cp) capture_index cp _
      ((mem_readArgs _ off cap pos t zp c).mp hq)
    rw [hT, hC, hZ] at hev
    obtain ⟨hcap, hpos0, ht, hc, z0, hz0, hzp, hoff⟩ := hev
    obtain ⟨tn, rfl⟩ := Int.eq_ofNat_of_zero_le ht.1
    obtain ⟨cn, rfl⟩ := Int.eq_ofNat_of_zero_le hc.1
    obtain ⟨zn, rfl⟩ := Int.eq_ofNat_of_zero_le hz0.1
    have hzn : zn < Z := by omega
    refine ⟨tn, cn, zn, by omega, by omega, hzn, ?_⟩
    rw [hoff, hzp, hcap, hpos0, hpos, hps, offset_of_fits zn (x * y) (by omega) hplane,
      toUInt16_of_lt (by omega : zn < 65536)]
  · intro hok
    obtain ⟨hev, _⟩ := traversal_ok r (planeSizeOf cp) capture_index cp T C Z
      (by rw [hT]; rfl) (by rw [hC]; rfl) (by rw [hZ]; rfl) (by
        intro t c z ht hc hz
        rw [toUInt16_of_lt (by omega : z < 65536)]
        exact hok t c z ht hc hz)
    rw [hev, readArgs_traversalEvents]
    refine List.map_congr_left ?_
    rintro ⟨t, c, z⟩ hmem
    obtain ⟨_, _, hz⟩ := (mem_lexTriples T C Z t c z).mp hmem
    obtain ⟨zn, rfl⟩ := Int.eq_ofNat_of_zero_le hz.1
    have hzn : zn < Z := by omega
    simp only
    rw [hps, offset_of_fits zn (x * y) (by omega) hplane,
      toUInt16_of_lt (by omega : zn < 65536), hpos, Nat.cast_mul]

/-- C14, an instance: the sample capture (3 timepoints, 2 channels, 3 planes of 4 x 4
pixels). -/
theorem C14_read_arguments_witness :
    ∃ cp : CaptureDataFrame,
      cp.position_index = 0 ∧
      (∀ q ∈ readArgs (traversal (sampleReader smallFile kNoExceptionsMasked)
          (planeSizeOf cp) 0 cp).events,
        ∃ t c z : Nat, t < 3 ∧ c < 2 ∧ z < 3 ∧
          q = (((z * (4 * 4) : Nat) : Int), (0 : Int), cp.position_index, (t : Int),
            (z : Int), (c : Int))) ∧
      ((∀ t c z : Nat, t < 3 → c < 2 → z < 3 →
          ∃ b, (sampleReader smallFile kNoExceptionsMasked).ReadImagePlaneBuf 0 0 t z c
            = .ok b) →
        readArgs (traversal (sampleReader smallFile kNoExceptionsMasked)
            (planeSizeOf cp) 0 cp).events
          = (lexTriples 3 2 3).map (fun p =>
              (p.2.2 * ((4 * 4 : Nat) : Int), (0 : Int), cp.position_index, p.1, p.2.2,
                p.2.1))) :=
  Exists.elim
    (Run.returns_of_ending
      (x := CaptureDataFrame.new (sampleReader smallFile kNoExceptionsMasked) 0 0)
      (by decide))
    (fun cp hcp =>
      have hb := new_builtFrom (sampleReader smallFile kNoExceptionsMasked) 0 0 cp hcp
      ⟨cp, C14_read_arguments (sampleReader smallFile kNoExceptionsMasked) 0 cp hcp 3 2 3 4 4
        (Except.ok.inj (hb.number_timepoints.symm.trans rfl))
        (Except.ok.inj (hb.number_channels.symm.trans rfl))
        (Except.ok.inj (hb.zDim.symm.trans rfl))
        (Except.ok.inj (hb.xDim.symm.trans rfl))
        (Except.ok.inj (hb.yDim.symm.trans rfl))
        (by decide) (by decide)⟩)

theorem readArgs_single_stack (planeSize capture_index : Int) (Z : Nat) :
    readArgs (traversalEvents planeSize capture_index 1 1 Z)
      = (List.range Z).map (fun (z : Nat) =>
          (toSizeT (toSizeT (z : Int) * planeSize), capture_index, (0 : Int), (0 : Int),
            toUInt16 (z : Int), (0 : Int))) := by
  have h : traversalEvents planeSize capture_index 1 1 Z
      = channelEvents planeSize capture_index Z 0 0 := by
    have h1 : List.range 1 = [0] := rfl
    simp [traversalEvents, timepointEvents, h1]
  rw [h, readArgs_channelEvents]

/-- C14 as stated fails. On a capture of 1 timepoint, 1 channel and 65537 planes of 4 x 4
pixels, every plane readable, the read for the loop counter `z = 65536` (the last of the
65537) passes the Z plane index 0, not 65536, with the offset `65536 * 16`. On a capture of
2 planes of 65536 x 65536 pixels the read for `z = 1` is given the offset 0, not
`1 * 65536 * 65536`. -/
theorem C14_counterexample_z_index_and_offset :
    (readArgs (traversal (sampleReader tallFile kNoExceptionsMasked) 16 0
        (frameOf (sampleReader tallFile kNoExceptionsMasked) 1 1 4 4 65537)).events)[65536]?
      = some (1048576, 0, 0, 0, 0, 0) ∧
    readArgs (ConvertSBImages (openSample broadFile)).events
      = [(0, 0, 0, 0, 0, 0), (0, 0, 0, 0, 1, 0)] := by
  refine ⟨?_, by decide⟩
  obtain ⟨hev, _⟩ := traversal_ok
    (sampleReader tallFile kNoExceptionsMasked) 16 0
    (frameOf (sampleReader tallFile kNoExceptionsMasked) 1 1 4 4 65537) 1 1 65537 rfl rfl rfl
    (fun _ _ _ _ _ _ => ⟨true, rfl⟩)
  rw [hev, readArgs_single_stack, List.getElem?_map,
    List.getElem?_range (by decide : 65536 < 65537)]
  decide

/-! ## The order of the triples -/

theorem flatMap_range_map {β : Type} (f : Nat → Nat → β) (A B : Nat) :
    (List.range A).flatMap (fun a => (List.range B).map (f a))
      = (List.range (A * B)).map (fun k => f (k / B) (k % B)) := by
  induction A with
  | zero => simp
  | succ n ih =>
    rw [List.range_succ, List.flatMap_append, ih, Nat.succ_mul, List.range_add,
      List.map_append, List.map_map]
    congr 1
    simp only [List.flatMap_cons, List.flatMap_nil, List.append_nil]
    refine List.map_congr_left ?_
    intro k hk
    have hkB : k < B := List.mem_range.mp hk
    have hB : 0 < B := by omega
    simp only [Function.comp]
    rw [Nat.mul_comm n B, Nat.mul_add_div hB, Nat.div_eq_of_lt hkB, Nat.add_zero,
      Nat.mul_add_mod, Nat.mod_eq_of_lt hkB]

/-- The triples in traversal order, by their place: the triple at place `k` is
`(k div (C*Z), (k div Z) mod C, k mod Z)`. -/
theorem lexTriples_eq_map_tripleAt (T C Z : Nat) :
    lexTriples T C Z = (List.range (T * C * Z)).map (tripleAt C Z) := by
  unfold lexTriples
  have hinner : ∀ t : Nat,
      ((List.range C).flatMap fun (c : Nat) =>
          (List.range Z).map fun (z : Nat) => ((t : Int), (c : Int), (z : Int)))
        = (List.range (C * Z)).map (fun j => ((t : Int), ((j / Z : Nat) : Int),
            ((j % Z : Nat) : Int))) :=
    fun t => flatMap_range_map (fun c z => ((t : Int), (c : Int), (z : Int))) C Z
  simp only [hinner]
  rw [flatMap_range_map (fun t j => ((t : Int), ((j / Z : Nat) : Int),
    ((j % Z : Nat) : Int))) T (C * Z), Nat.mul_assoc]
  refine List.map_congr_left ?_
  intro k _
  unfold tripleAt
  rw [Nat.mod_mul_left_div_self, Nat.mod_mul_left_mod]

theorem lexTriples_getElem (T C Z k : Nat) (hk : k < T * C * Z) :
    (lexTriples T C Z)[k]? = some (tripleAt C Z k) := by
  rw [lexTriples_eq_map_tripleAt, List.getElem?_map, List.getElem?_range hk]
  rfl

theorem lexTriples_pairwise (T C Z : Nat) : (lexTriples T C Z).Pairwise lexLt := by
  unfold lexTriples
  rw [List.pairwise_flatMap]
  refine ⟨?_, ?_⟩
  · intro t _
    rw [List.pairwise_flatMap]
    refine ⟨?_, ?_⟩
    · intro c _
      rw [List.pairwise_map]
      refine List.Pairwise.imp ?_ (List.pairwise_lt_range Z)
      intro z1 z2 hz
      exact Or.inr ⟨rfl, Or.inr ⟨rfl, by simp only; omega⟩⟩
    · refine List.Pairwise.imp ?_ (List.pairwise_lt_range C)
      intro c1 c2 hc x hx y hy
      obtain ⟨z1, _, rfl⟩ := List.mem_map.mp hx
      obtain ⟨z2, _, rfl⟩ := List.mem_map.mp hy
      exact Or.inr ⟨rfl, Or.inl (by simp only; omega)⟩
  · refine List.Pairwise.imp ?_ (List.pairwise_lt_range T)
    intro t1 t2 ht x hx y hy
    obtain ⟨c1, _, hx1⟩ := List.mem_flatMap.mp hx
    obtain ⟨z1, _, rfl⟩ := List.mem_map.mp hx1
    obtain ⟨c2, _, hy1⟩ := List.mem_flatMap.mp hy
    obtain ⟨z2, _, rfl⟩ := List.mem_map.mp hy1
    exact Or.inl (by simp only; omega)

theorem lexTriples_eq_upTo (T C Z : Nat) :
    lexTriples (T + 1) (C + 1) (Z + 1) = lexTriplesUpTo (C + 1) (Z + 1) T C Z := by
  unfold lexTriplesUpTo
  unfold lexTriples
  rw [List.range_succ (n := T), List.flatMap_append, List.append_assoc]
  congr 1
  simp only [List.flatMap_cons, List.flatMap_nil, List.append_nil]
  rw [List.range_succ (n := C), List.flatMap_append]
  simp only [List.flatMap_cons, List.flatMap_nil, List.append_nil]

theorem lexTriples_head (T C Z : Nat) (hT : 1 ≤ T) (hC : 1 ≤ C) (hZ : 1 ≤ Z) :
    (lexTriples T C Z).head? = some (0, 0, 0) := by
  have hpos : 0 < T * C * Z := Nat.mul_pos (Nat.mul_pos hT hC) hZ
  rw [List.head?_eq_getElem?, lexTriples_getElem T C Z 0 hpos]
  simp [tripleAt]

theorem lexTriples_getLast (T C Z : Nat) (hT : 1 ≤ T) (hC : 1 ≤ C) (hZ : 1 ≤ Z) :
    (lexTriples T C Z).getLast?
      = some ((T : Int) - 1, (C : Int) - 1, (Z : Int) - 1) := by
  obtain ⟨T0, rfl⟩ : ∃ T0, T = T0 + 1 := ⟨T - 1, by omega⟩
  obtain ⟨C0, rfl⟩ : ∃ C0, C = C0 + 1 := ⟨C - 1, by omega⟩
  obtain ⟨Z0, rfl⟩ : ∃ Z0, Z = Z0 + 1 := ⟨Z - 1, by omega⟩
  rw [lexTriples_eq_upTo, lexTriplesUpTo_getLast]
  push_cast
  simp

/-- C15 (as amended): for every capture with `T, C, Z ≥ 1` and `Z ≤ 65536`, as long as no
plane read of the capture raises, the sequence of `(t, c, z)` triples the traversal requests
is strictly increasing in lexicographic order (timepoint, then channel, then Z), its first
element is `(0,0,0)`, its last is `(T-1, C-1, Z-1)`, and for every `k < T*C*Z` its element
at place `k` (0-based) is `(k div (C*Z), (k div Z) mod C, k mod Z)`. -/
theorem C15_requests_in_lexicographic_order (r : SBReadFile) (planeSize capture_index : Int)
    (cp : CaptureDataFrame) (T C Z : Nat) (hT : cp.number_timepoints = T)
    (hC : cp.number_channels = C) (hZ : cp.zDim = Z) (hT1 : 1 ≤ T) (hC1 : 1 ≤ C)
    (hZ1 : 1 ≤ Z) (hZ16 : Z ≤ 65536)
    (hok : ∀ t c z : Nat, t < T → c < C → z < Z →
      ∃ b, r.ReadImagePlaneBuf capture_index 0 t z c = .ok b) :
    (planeReads (traversal r planeSize capture_index cp).events).Pairwise lexLt ∧
    (planeReads (traversal r planeSize capture_index cp).events).head? = some (0, 0, 0) ∧
    (planeReads (traversal r planeSize capture_index cp).events).getLast?
      = some ((T : Int) - 1, (C : Int) - 1, (Z : Int) - 1) ∧
    ∀ k : Nat, k < T * C * Z →
      (planeReads (traversal r planeSize capture_index cp).events)[k]?
        = some (((k / (C * Z) : Nat) : Int), ((k / Z % C : Nat) : Int),
            ((k % Z : Nat) : Int)) := by
  obtain ⟨hev, _⟩ := traversal_ok r planeSize capture_index cp T C Z
    (by rw [hT]; rfl) (by rw [hC]; rfl) (by rw [hZ]; rfl) (by
      intro t c z ht hc hz
      rw [toUInt16_of_lt (by omega : z < 65536)]
      exact hok t c z ht hc hz)
  rw [hev, planeReads_traversalEvents planeSize capture_index T C Z hZ16]
  exact ⟨lexTriples_pairwise T C Z, lexTriples_head T C Z hT1 hC1 hZ1,
    lexTriples_getLast T C Z hT1 hC1 hZ1, fun k hk => lexTriples_getElem T C Z k hk⟩

/-- C15, an instance: the sample capture of 3 timepoints, 2 channels and 3 planes, every
plane readable. -/
theorem C15_requests_witness :
    (planeReads (traversal (sampleReader smallFile kNoExceptionsMasked) 16 0
      (frameOf (sampleReader smallFile kNoExceptionsMasked) 3 2 4 4 3)).events).Pairwise
        lexLt ∧
    (planeReads (traversal (sampleReader smallFile kNoExceptionsMasked) 16 0
      (frameOf (sampleReader smallFile kNoExceptionsMasked) 3 2 4 4 3)).events).head?
        = some (0, 0, 0) ∧
    (planeReads (traversal (sampleReader smallFile kNoExceptionsMasked) 16 0
      (frameOf (sampleReader smallFile kNoExceptionsMasked) 3 2 4 4 3)).events).getLast?
        = some (((3 : Nat) : Int) - 1, ((2 : Nat) : Int) - 1, ((3 : Nat) : Int) - 1) ∧
    ∀ k : Nat, k < 3 * 2 * 3 →
      (planeReads (traversal (sampleReader smallFile kNoExceptionsMasked) 16 0
        (frameOf (sampleReader smallFile kNoExceptionsMasked) 3 2 4 4 3)).events)[k]?
          = some (((k / (2 * 3) : Nat) : Int), ((k / 3 % 2 : Nat) : Int),
              ((k % 3 : Nat) : Int)) :=
  C15_requests_in_lexicographic_order (sampleReader smallFile kNoExceptionsMasked) 16 0
    (frameOf (sampleReader smallFile kNoExceptionsMasked) 3 2 4 4 3) 3 2 3 rfl rfl rfl
    (by decide) (by decide) (by decide) (by decide) (fun _ _ _ _ _ _ => ⟨true, rfl⟩)

/-- C15 as stated fails. On a capture of 1 timepoint, 1 channel and 65537 planes, every
plane readable, the request at place `k = 65536` is `(0, 0, 0)`, the same as the request at
place 0, and not `(k div (C*Z), (k div Z) mod C, k mod Z) = (0, 0, 65536)`: the sequence is
not strictly increasing and its last element is not `(T-1, C-1, Z-1)`. On the sample
capture (3 timepoints, 2 channels, 3 planes) when the read at `(2, 0, 1)` raises, the last
request is `(2, 0, 1)`, not `(2, 1, 2)`. -/
theorem C15_counterexample_order_breaks :
    ((planeReads (traversal (sampleReader tallFile kNoExceptionsMasked) 16 0
        (frameOf (sampleReader tallFile kNoExceptionsMasked) 1 1 4 4 65537)).events)[0]?
        = some (0, 0, 0) ∧
      (planeReads (traversal (sampleReader tallFile kNoExceptionsMasked) 16 0
        (frameOf (sampleReader tallFile kNoExceptionsMasked) 1 1 4 4 65537)).events)[65536]?
        = some (0, 0, 0) ∧
      (((65536 / (1 * 65537) : Nat) : Int), ((65536 / 65537 % 1 : Nat) : Int),
        ((65536 % 65537 : Nat) : Int)) = ((0 : Int), (0 : Int), (65536 : Int)) ∧
      ¬ lexLt ((0 : Int), (0 : Int), (0 : Int)) (0, 0, 0)) ∧
    (planeReads (traversal (sampleReader brokenFile kNoExceptionsMasked) 16 0
        (frameOf (sampleReader brokenFile kNoExceptionsMasked) 3 2 4 4 3)).events).getLast?
      = some (2, 0, 1) := by
  refine ⟨?_, by decide⟩
  obtain ⟨hev, _⟩ := traversal_ok
    (sampleReader tallFile kNoExceptionsMasked) 16 0
    (frameOf (sampleReader tallFile kNoExceptionsMasked) 1 1 4 4 65537) 1 1 65537 rfl rfl rfl
    (fun _ _ _ _ _ _ => ⟨true, rfl⟩)
  rw [hev, planeReads_single_stack, List.getElem?_map, List.getElem?_map,
    List.getElem?_range (by decide : 0 < 65537),
    List.getElem?_range (by decide : 65536 < 65537)]
  refine ⟨by decide, by decide, by decide, ?_⟩
  unfold lexLt
  simp

/-! ## The Z index the reader receives -/

theorem readZ_events (r : SBReadFile) (planeSize capture_index t c z : Int)
    (cp : CaptureDataFrame) :
    (readZ r planeSize capture_index t c z cp).events
      = [.readPlane (toSizeT (toSizeT z * planeSize)) capture_index 0 t (toUInt16 z) c] := by
  cases hq : r.ReadImagePlaneBuf capture_index 0 t (toUInt16 z) c with
  | ok b => rw [readZ_ok r planeSize capture_index t c z cp b hq]
  | error e => rw [readZ_raise r planeSize capture_index t c z cp e hq]

theorem toUInt16_natCast (z : Nat) : toUInt16 (z : Int) = ((z % 65536 : Nat) : Int) := by
  unfold toUInt16
  omega

/-- C16: the Z index handed to the reader is the loop counter converted to the 16-bit
unsigned `PlaneIndex`. For every reader, frame and loop value `z` of the Z loop, the pass
issues one read whose Z plane index is `z mod 65536` and whose buffer offset is
`z * planeSize`, formed in `std::size_t` from the loop value itself; for `z < 65536` the
index is `z`; for `z ≥ 65536` it is `z mod 65536`, which differs from `z`, while the offset
is `z * planeSize`, from the untruncated `z`. In the traversal, whatever the reader does,
every read stems from a loop value `z` in `[0, zDim)` in this way, and for every capture
with `zDim ≤ 65536` the reader receives exactly `z`. -/
theorem C16_z_index_is_plane_index (r : SBReadFile) (planeSize capture_index : Int)
    (cp : CaptureDataFrame) :
    (∀ (t c : Int) (z : Nat),
      readArgs (readZ r planeSize capture_index t c z cp).events
        = [(toSizeT (toSizeT (z : Int) * planeSize), capture_index, 0, t,
            ((z % 65536 : Nat) : Int), c)]) ∧
    (∀ (t c : Int) (z : Nat), z < 65536 →
      readArgs (readZ r planeSize capture_index t c z cp).events
        = [(toSizeT (toSizeT (z : Int) * planeSize), capture_index, 0, t, (z : Int), c)]) ∧
    (∀ (t c : Int) (z xy : Nat), 65536 ≤ z → planeSize = xy →
      z * xy < 18446744073709551616 →
      readArgs (readZ r planeSize capture_index t c z cp).events
        = [(((z * xy : Nat) : Int), capture_index, 0, t, ((z % 65536 : Nat) : Int), c)] ∧
      ((z % 65536 : Nat) : Int) ≠ (z : Int)) ∧
    (∀ q ∈ readArgs (traversal r planeSize capture_index cp).events,
      ∃ z : Nat, (z : Int) < cp.zDim ∧ q.2.2.2.2.1 = ((z % 65536 : Nat) : Int) ∧
        q.1 = toSizeT (toSizeT (z : Int) * planeSize) ∧
        (cp.zDim ≤ 65536 → q.2.2.2.2.1 = (z : Int))) := by
  have hpass : ∀ (t c : Int) (z : Nat),
      readArgs (readZ r planeSize capture_index t c z cp).events
        = [(toSizeT (toSizeT (z : Int) * planeSize), capture_index, 0, t,
            ((z % 65536 : Nat) : Int), c)] := by
    intro t c z
    rw [readZ_events, toUInt16_natCast]
    rfl
  refine ⟨hpass, ?_, ?_, ?_⟩
  · intro t c z hz
    rw [hpass, Nat.mod_eq_of_lt hz]
  · intro t c z xy hz hps hfit
    rw [hpass, hps]
    have hle : z * 1 ≤ z * xy ∨ xy = 0 := by
      rcases Nat.eq_zero_or_pos xy with h0 | hpos
      · exact Or.inr h0
      · exact Or.inl (Nat.mul_le_mul_left _ hpos)
    have hoff : toSizeT (toSizeT (z : Int) * ((xy : Nat) : Int)) = ((z * xy : Nat) : Int) := by
      rcases hle with hle | h0
      · have hz64 : toSizeT (z : Int) = (z : Int) := by
          unfold toSizeT
          omega
        rw [hz64, ← Nat.cast_mul]
        unfold toSizeT
        omega
      · rw [h0]
        simp [toSizeT]
    rw [hoff]
    exact ⟨rfl, by omega⟩
  · rintro ⟨off, cap, pos, t, zp, c⟩ hq
    have hev := traversal_forall r planeSize capture_index cp _
      ((mem_readArgs _ off cap pos t zp c).mp hq)
    obtain ⟨_, _, _, _, z0, hz0, hzp, hoff⟩ := hev
    obtain ⟨zn, rfl⟩ := Int.eq_ofNat_of_zero_le hz0.1
    refine ⟨zn, hz0.2, ?_, hoff, ?_⟩
    · rw [hzp]
      exact toUInt16_natCast zn
    · intro hZ
      simp only
      rw [hzp, toUInt16_natCast]
      have hzn : (zn : Int) < cp.zDim := hz0.2
      omega

/-- C16, an instance: on the sample reader, the pass of the Z loop for `z = 65537` with a
plane of 16 samples hands the reader the Z plane index 1 and the offset `65537 * 16`. -/
theorem C16_z_index_witness :
    readArgs (readZ (sampleReader tallFile kNoExceptionsMasked) 16 0 0 0 ((65537 : Nat) : Int)
        (frameOf (sampleReader tallFile kNoExceptionsMasked) 1 1 4 4 65537)).events
      = [(((65537 * 16 : Nat) : Int), 0, 0, 0, ((65537 % 65536 : Nat) : Int), 0)] ∧
    ((65537 % 65536 : Nat) : Int) ≠ ((65537 : Nat) : Int) :=
  (C16_z_index_is_plane_index (sampleReader tallFile kNoExceptionsMasked) 16 0
    (frameOf (sampleReader tallFile kNoExceptionsMasked) 1 1 4 4 65537)).2.2.1 0 0 65537 16
    (by decide) rfl (by decide)

/-! ## Fixed-width labels -/

theorem decDigits_fuel : ∀ (f g x : Nat), x < f → x < g → decDigits f x = decDigits g x := by
  intro f
  induction f with
  | zero => intro g x hx; omega
  | succ f ih =>
    intro g x hf hg
    obtain ⟨g0, rfl⟩ : ∃ g0, g = g0 + 1 := ⟨g - 1, by omega⟩
    unfold decDigits
    by_cases h : x < 10
    · simp only [h, if_true]
    · simp only [h, if_false]
      rw [ih g0 (x / 10) (by omega) (by omega)]

theorem toDecimal_of_lt {x : Nat} (h : x < 10) : toDecimal x = [Nat.digitChar x] := by
  unfold toDecimal decDigits
  simp only [h, if_true]

theorem toDecimal_of_ge {x : Nat} (h : 10 ≤ x) :
    toDecimal x = toDecimal (x / 10) ++ [Nat.digitChar (x % 10)] := by
  have hlt : ¬ x < 10 := by omega
  have hunf : toDecimal x = decDigits x (x / 10) ++ [Nat.digitChar (x % 10)] := by
    unfold toDecimal
    rw [decDigits]
    simp only [hlt, if_false]
  rw [hunf]
  unfold toDecimal
  rw [decDigits_fuel x (x / 10 + 1) (x / 10) (by omega) (by omega)]

theorem fixedDigits_succ (w x : Nat) :
    fixedDigits (w + 1) x = fixedDigits w (x / 10) ++ [Nat.digitChar (x % 10)] := rfl

theorem fixedDigits_length : ∀ (w x : Nat), (fixedDigits w x).length = w := by
  intro w
  induction w with
  | zero => intro x; rfl
  | succ w ih =>
    intro x
    unfold fixedDigits
    rw [List.length_append, ih]
    rfl

theorem fixedDigits_zero : ∀ w : Nat, fixedDigits w 0 = List.replicate w '0' := by
  intro w
  induction w with
  | zero => rfl
  | succ w ih =>
    unfold fixedDigits
    rw [Nat.zero_div, ih, List.replicate_succ']
    rfl

/-- Zero padding to `w` digits of a number below `10^w` gives its `w` digits. -/
theorem padded_eq_fixedDigits : ∀ (w x : Nat), 1 ≤ w → x < 10 ^ w →
    List.replicate (w - (toDecimal x).length) '0' ++ toDecimal x = fixedDigits w x := by
  intro w
  induction w with
  | zero => intro x hw; omega
  | succ k ih =>
    intro x _ hx
    unfold fixedDigits
    by_cases h : x < 10
    · rw [toDecimal_of_lt h, Nat.div_eq_of_lt h, Nat.mod_eq_of_lt h, fixedDigits_zero]
      simp
    · have h10 : 10 ≤ x := by omega
      have hk : 1 ≤ k := by
        rcases Nat.eq_zero_or_pos k with h0 | hpos
        · rw [h0] at hx
          omega
        · exact hpos
      have hdiv : x / 10 < 10 ^ k := by
        rw [Nat.pow_succ] at hx
        omega
      rw [toDecimal_of_ge h10, ← ih (x / 10) hk hdiv, List.length_append,
        List.length_singleton, Nat.add_sub_add_right, List.append_assoc]

theorem digitChar_lt : ∀ b : Nat, b < 10 → ∀ a : Nat, a < b →
    Nat.digitChar a < Nat.digitChar b := by
  decide

/-- Among numbers below `10^w` the smaller one has the lexicographically smaller field of
`w` digits: the two fields share a prefix after which the smaller number has the smaller
digit. -/
theorem fixedDigits_lt : ∀ (w x y : Nat), x < y → y < 10 ^ w →
    ∃ (p : List Char) (a b : Char) (u v : List Char),
      fixedDigits w x = p ++ a :: u ∧ fixedDigits w y = p ++ b :: v ∧ a < b := by
  intro w
  induction w with
  | zero =>
    intro x y hxy hy
    simp at hy
    omega
  | succ k ih =>
    intro x y hxy hy
    have hy10 : y / 10 < 10 ^ k := by
      rw [Nat.pow_succ] at hy
      omega
    by_cases hdiv : x / 10 < y / 10
    · obtain ⟨p, a, b, u, v, hx1, hy1, hab⟩ := ih (x / 10) (y / 10) hdiv hy10
      refine ⟨p, a, b, u ++ [Nat.digitChar (x % 10)], v ++ [Nat.digitChar (y % 10)], ?_, ?_,
        hab⟩
      · rw [fixedDigits_succ, hx1, List.append_assoc, List.cons_append]
      · rw [fixedDigits_succ, hy1, List.append_assoc, List.cons_append]
    · have heq : x / 10 = y / 10 := by omega
      have hmod : x % 10 < y % 10 := by omega
      refine ⟨fixedDigits k (y / 10), Nat.digitChar (x % 10), Nat.digitChar (y % 10), [], [],
        ?_, ?_, digitChar_lt _ (Nat.mod_lt _ (by omega)) _ hmod⟩
      · rw [fixedDigits_succ, heq]
      · rw [fixedDigits_succ]

theorem lex_of_common_prefix (p : List Char) (a b : Char) (u v : List Char) (hab : a < b) :
    List.Lex (fun c d : Char => c < d) (p ++ a :: u) (p ++ b :: v) :=
  List.Lex.append_left _ (List.Lex.rel hab) p

theorem ne_of_common_prefix (p : List Char) (a b : Char) (u v : List Char) (hab : a < b) :
    p ++ a :: u ≠ p ++ b :: v := by
  intro h
  have h1 := List.append_cancel_left h
  have h2 : a = b := (List.cons.inj h1).1
  rw [h2] at hab
  exact lt_irrefl b hab

/-- The text a printer gives for an index not above its maximum, both sums being
non-negative `int`s: the digits of `v + N` in a field of exactly `numDigits` digits. -/
theorem string_eq_fixedDigits (m N v : Int) (hmN : 0 ≤ m + N) (hmfit : m + N ≤ INT_MAX)
    (hv : 0 ≤ v + N) (hle : v + N ≤ m + N) :
    (RangePrinter.new N m).string v
      = some (fixedDigits (toDecimal (m + N).toNat).length (v + N).toNat) := by
  have hw := numDigits_of_fits m N hmN hmfit
  have hs : toSInt32 (v + N) = v + N :=
    toSInt32_of_range (by unfold INT_MIN; omega) (by omega)
  have hW1 : 1 ≤ (toDecimal (m + N).toNat).length := by
    rw [toDecimal_length]
    omega
  have hx : (v + N).toNat < 10 ^ (toDecimal (m + N).toNat).length := by
    rw [toDecimal_length]
    have h1 : (v + N).toNat ≤ (m + N).toNat := by omega
    exact lt_of_le_of_lt h1 (Nat.lt_pow_succ_log_self (by norm_num) _)
  unfold RangePrinter.string
  rw [hw]
  simp only [hs]
  rw [fmtZeroPad_nonneg (v + N) _ hv, padded_eq_fixedDigits _ _ hW1 hx]

/-- C17 (as amended): for every count `n ≥ 1` with `n + 1` an `int` (`n + 1 ≤ INT_MAX`) and
all indices `0 ≤ i < j < n`, the labels `RangePrinter<1>(n).string(i)` and
`RangePrinter<1>(n).string(j)` both have length exactly `numDigits`, are distinct, and
`string(i)` is lexicographically smaller than `string(j)` (characters compared by code). -/
theorem C17_labels_fixed_width_and_ordered (n i j : Int) (hn : 1 ≤ n)
    (hfit : n + 1 ≤ INT_MAX) (hi : 0 ≤ i) (hij : i < j) (hj : j < n) :
    ∃ (w : Nat) (si sj : List Char),
      (RangePrinter.new 1 n).numDigits = some (w : Int) ∧
      (RangePrinter.new 1 n).string i = some si ∧
      (RangePrinter.new 1 n).string j = some sj ∧
      si.length = w ∧ sj.length = w ∧ si ≠ sj ∧
      List.Lex (fun c d : Char => c < d) si sj := by
  have hw := numDigits_of_fits n 1 (by omega) hfit
  have hsi := string_eq_fixedDigits n 1 i (by omega) hfit (by omega) (by omega)
  have hsj := string_eq_fixedDigits n 1 j (by omega) hfit (by omega) (by omega)
  have hjx : (j + 1).toNat < 10 ^ (toDecimal (n + 1).toNat).length := by
    rw [toDecimal_length]
    have h1 : (j + 1).toNat ≤ (n + 1).toNat := by omega
    exact lt_of_le_of_lt h1 (Nat.lt_pow_succ_log_self (by norm_num) _)
  obtain ⟨p, a, b, u, v, hx1, hy1, hab⟩ :=
    fixedDigits_lt (toDecimal (n + 1).toNat).length (i + 1).toNat (j + 1).toNat (by omega) hjx
  refine ⟨_, _, _, hw, hsi, hsj, fixedDigits_length _ _, fixedDigits_length _ _, ?_, ?_⟩
  · rw [hx1, hy1]
    exact ne_of_common_prefix p a b u v hab
  · rw [hx1, hy1]
    exact lex_of_common_prefix p a b u v hab

/-- C17, an instance: with 12 captures the labels of the indices 8 and 9 are `09` and `10`,
both of the width 2, distinct and in order. -/
theorem C17_labels_witness :
    ((RangePrinter.new 1 12).string 8 = some ['0', '9'] ∧
      (RangePrinter.new 1 12).string 9 = some ['1', '0']) ∧
    ∃ (w : Nat) (si sj : List Char),
      (RangePrinter.new 1 12).numDigits = some (w : Int) ∧
      (RangePrinter.new 1 12).string 8 = some si ∧
      (RangePrinter.new 1 12).string 9 = some sj ∧
      si.length = w ∧ sj.length = w ∧ si ≠ sj ∧
      List.Lex (fun c d : Char => c < d) si sj :=
  ⟨by decide, C17_labels_fixed_width_and_ordered 12 8 9 (by decide) (by decide) (by decide)
    (by decide) (by decide)⟩

/-- C17 as stated fails: for the count `n = INT_MAX` and the indices `0 < 1 < n` the `int`
sum `n + 1` is negative, `numDigits` has no defined value and neither label is produced. -/
theorem C17_counterexample_count_int_max :
    (1 : Int) ≤ 2147483647 ∧ (0 : Int) ≤ 0 ∧ (0 : Int) < 1 ∧ (1 : Int) < 2147483647 ∧
    (RangePrinter.new 1 2147483647).numDigits = none ∧
    (RangePrinter.new 1 2147483647).string 0 = none ∧
    (RangePrinter.new 1 2147483647).string 1 = none := by
  decide

/-! ## Reading a label back -/

theorem parseFrom_cons (acc : Nat) (c : Char) (rest : List Char) :
    parseFrom acc (c :: rest)
      = (digitValue c).bind (fun d => parseFrom (acc * 10 + d) rest) := by
  rw [parseFrom]
  cases digitValue c <;> rfl

theorem parseDecimal_cons (c : Char) (rest : List Char) :
    parseDecimal (c :: rest)
      = if c = '-' then (parseNat rest).map (fun n => -(n : Int))
        else (parseNat (c :: rest)).map (fun n => (n : Int)) := rfl

theorem parseFrom_append (s t : List Char) : ∀ acc : Nat,
    parseFrom acc (s ++ t) = (parseFrom acc s).bind (fun a => parseFrom a t) := by
  induction s with
  | nil => intro acc; rfl
  | cons c rest ih =>
    intro acc
    rw [List.cons_append, parseFrom_cons, parseFrom_cons]
    cases digitValue c with
    | none => rfl
    | some d => exact ih (acc * 10 + d)

theorem parseFrom_zeros : ∀ k : Nat, parseFrom 0 (List.replicate k '0') = some 0 := by
  intro k
  induction k with
  | zero => rfl
  | succ k ih =>
    have h0 : digitValue '0' = some 0 := by decide
    rw [List.replicate_succ, parseFrom_cons, h0]
    exact ih

theorem digitValue_digitChar : ∀ d : Nat, d < 10 → digitValue (Nat.digitChar d) = some d := by
  decide

theorem parseFrom_toDecimal : ∀ (b x : Nat), x ≤ b → parseFrom 0 (toDecimal x) = some x := by
  intro b
  induction b with
  | zero =>
    intro x hx
    have h0 : x = 0 := by omega
    rw [h0]
    decide
  | succ b ih =>
    intro x hx
    by_cases h : x < 10
    · rw [toDecimal_of_lt h, parseFrom_cons, digitValue_digitChar x h]
      simp [parseFrom]
    · have h10 : 10 ≤ x := by omega
      rw [toDecimal_of_ge h10, parseFrom_append, ih (x / 10) (by omega)]
      simp only [Option.some_bind]
      rw [parseFrom_cons, digitValue_digitChar (x % 10) (Nat.mod_lt _ (by omega))]
      simp only [Option.some_bind, parseFrom]
      congr 1
      omega

theorem toDecimal_ne_nil (x : Nat) : toDecimal x ≠ [] := by
  intro h
  have hlen := toDecimal_length x
  rw [h] at hlen
  simp at hlen

/-- Zero padding does not change the number read back. -/
theorem parseDecimal_padded (k x : Nat) :
    parseDecimal (List.replicate k '0' ++ toDecimal x) = some (x : Int) := by
  have hne : List.replicate k '0' ++ toDecimal x ≠ [] := by
    intro h
    exact toDecimal_ne_nil x (List.append_eq_nil.mp h).2
  have hnat : parseNat (List.replicate k '0' ++ toDecimal x) = some x := by
    unfold parseNat
    rw [if_neg hne, parseFrom_append, parseFrom_zeros]
    exact parseFrom_toDecimal x x (le_refl x)
  cases hs : List.replicate k '0' ++ toDecimal x with
  | nil => exact absurd hs hne
  | cons c rest =>
    rw [hs] at hnat
    rw [parseDecimal_cons]
    by_cases hc : c = '-'
    · rw [hc] at hnat
      unfold parseNat at hnat
      have hminus : digitValue '-' = none := by decide
      rw [if_neg (List.cons_ne_nil _ _), parseFrom_cons, hminus] at hnat
      simp at hnat
    · rw [if_neg hc, hnat]
      rfl

/-- C18 (as amended): for every maxValue `m ≥ 0`, origin `N ∈ {0, 1}` and index `v` with
`v + N ≥ 0`, both sums `m + N` and `v + N` being `int`s (at most `INT_MAX`),
`RangePrinter<N>(m).string(v)` is a text whose reading as a decimal integer is `v + N`,
also when `v + N` has more digits than the width. -/
theorem C18_parsing_gives_back_index (m N v : Int) (hm : 0 ≤ m) (hN : N = 0 ∨ N = 1)
    (hmfit : m + N ≤ INT_MAX) (hv : 0 ≤ v + N) (hvfit : v + N ≤ INT_MAX) :
    ∃ s, (RangePrinter.new N m).string v = some s ∧ parseDecimal s = some (v + N) := by
  have hmN : 0 ≤ m + N := by rcases hN with h | h <;> omega
  have hw := numDigits_of_fits m N hmN hmfit
  have hs : toSInt32 (v + N) = v + N :=
    toSInt32_of_range (by unfold INT_MIN; omega) hvfit
  refine ⟨List.replicate
    ((toDecimal (m + N).toNat).length - (toDecimal (v + N).toNat).length) '0'
    ++ toDecimal (v + N).toNat, ?_, ?_⟩
  · unfold RangePrinter.string
    rw [hw]
    simp only [hs]
    exact fmtZeroPad_nonneg (v + N) _ hv
  · rw [parseDecimal_padded]
    congr 1
    omega

/-- C18, an instance: `RangePrinter<1>(5)` has width 1; the index 122 gives the text `123`,
wider than the width, which reads back as 123. -/
theorem C18_parsing_witness :
    ((RangePrinter.new 1 5).numDigits = some 1 ∧
      (RangePrinter.new 1 5).string 122 = some ['1', '2', '3']) ∧
    ∃ s, (RangePrinter.new 1 5).string 122 = some s ∧ parseDecimal s = some (122 + 1) :=
  ⟨by decide, C18_parsing_gives_back_index 5 1 122 (by decide) (Or.inr rfl) (by decide)
    (by decide) (by decide)⟩

/-- C18 as stated fails: with origin 1, maxValue 12 and index `v = INT_MAX` the sum `v + N`
is `2147483648 ≥ 0`, but the text is `-2147483648`, which reads back as `-2147483648`; and
with maxValue `INT_MAX` and origin 1 no text is produced for the index 0. -/
theorem C18_counterexample_reads_back_negative :
    ((0 : Int) ≤ 12 ∧ (0 : Int) ≤ 2147483647 + 1 ∧
      ((RangePrinter.new 1 12).string 2147483647).bind parseDecimal = some (-2147483648) ∧
      (-2147483648 : Int) ≠ 2147483647 + 1) ∧
    ((0 : Int) ≤ 2147483647 ∧ (0 : Int) ≤ 0 + 1 ∧
      (RangePrinter.new 1 2147483647).string 0 = none) := by
  decide

/-! ## `CaptureDataFrame::GetDetail` -/

/-- The two vectors of a constructed frame have `number_channels` elements (none when the
count is negative). -/
theorem new_vector_lengths (r : SBReadFile) (capture_index position_index : Int)
    (cp : CaptureDataFrame)
    (hnew : (CaptureDataFrame.new r capture_index position_index).result = .ok cp) :
    cp.channel_names.length = cp.number_channels.toNat ∧
    cp.exposure_time.length = cp.number_channels.toNat := by
  obtain ⟨cp0, reply, hinit, _, hloop⟩ := new_result_ok r capture_index position_index cp hnew
  obtain ⟨_, hnames, hexp, _⟩ := init_result_ok r capture_index position_index cp0 hinit
  obtain ⟨_, _, hkeep⟩ := pushChannel_loop_keeps r capture_index _ _ cp hloop
  obtain ⟨hlen1, hlen2, _⟩ := pushChannel_loop_appends r capture_index _ _ cp
    (by rw [setVoxel_channel_names]; exact hnames)
    (by rw [setVoxel_exposure_time]; exact hexp) hloop
  rw [setVoxel_number_channels] at hkeep
  rw [hkeep]
  exact ⟨hlen1, hlen2⟩

theorem detailChannels_in_bounds (cp : CaptureDataFrame) (channelRange : RangePrinter 1) :
    ∀ (count : Nat) (c : Int) (metaData : List Char), 0 ≤ c →
      c.toNat + count ≤ cp.channel_names.length →
      c.toNat + count ≤ cp.exposure_time.length →
      indexedOutOfBounds (cp.detailChannels channelRange count c metaData) = false := by
  intro count
  induction count with
  | zero => intro c metaData _ _ _; rfl
  | succ k ih =>
    intro c metaData hc h1 h2
    have hn : c.toNat < cp.channel_names.length := by omega
    have he : c.toNat < cp.exposure_time.length := by omega
    rw [CaptureDataFrame.detailChannels, List.getElem?_eq_getElem hn,
      List.getElem?_eq_getElem he]
    simp only
    cases hlabel : channelRange.string c with
    | none => rfl
    | some label =>
      simp only
      refine ih (c + 1) _ (by omega) ?_ ?_
      · have hsucc : (c + 1).toNat = c.toNat + 1 := by omega
        omega
      · have hsucc : (c + 1).toNat = c.toNat + 1 := by omega
        omega

/-- C19: for every `CaptureDataFrame` produced by its constructor, `channel_names` and
`exposure_time` have `number_channels` elements; so when `number_channels == 1` the index 0
is valid in both, every index `c` in `[0, number_channels)` is below the length of both,
and `GetDetail`, in either branch, makes no access past the end of either vector. -/
theorem C19_detail_indices_in_bounds (r : SBReadFile) (capture_index position_index : Int)
    (cp : CaptureDataFrame)
    (hnew : (CaptureDataFrame.new r capture_index position_index).result = .ok cp)
    (hn : 0 ≤ cp.number_channels) :
    (cp.channel_names.length : Int) = cp.number_channels ∧
    (cp.exposure_time.length : Int) = cp.number_channels ∧
    (cp.number_channels = 1 →
      0 < cp.channel_names.length ∧ 0 < cp.exposure_time.length) ∧
    (∀ c : Int, 0 ≤ c → c < cp.number_channels →
      c.toNat < cp.channel_names.length ∧ c.toNat < cp.exposure_time.length) ∧
    ∀ fmtFloat : Float32 → List Char, indexedOutOfBounds (cp.GetDetail fmtFloat) = false := by
  obtain ⟨hlen1, hlen2⟩ := new_vector_lengths r capture_index position_index cp hnew
  refine ⟨by omega, by omega, fun h1 => by omega, fun c hc0 hc => by omega, ?_⟩
  intro fmtFloat
  unfold CaptureDataFrame.GetDetail
  simp only
  split
  · by_cases hone : cp.number_channels = 1
    · have hn0 : 0 < cp.channel_names.length := by omega
      have he0 : 0 < cp.exposure_time.length := by omega
      rw [if_pos hone, List.getElem?_eq_getElem hn0, List.getElem?_eq_getElem he0]
      rfl
    · rw [if_neg hone]
      exact detailChannels_in_bounds cp _ _ 0 _ (le_refl 0) (by omega) (by omega)
  · rfl

/-- C19, an instance: the frame the constructor builds on the sample reader (2 channels,
the loop branch of `GetDetail`). -/
theorem C19_detail_witness :
    ∃ cp, (CaptureDataFrame.new (sampleReader smallFile kNoExceptionsMasked) 0 0).result
        = .ok cp ∧
      (cp.channel_names.length : Int) = cp.number_channels ∧
      (cp.exposure_time.length : Int) = cp.number_channels ∧
      (cp.number_channels = 1 →
        0 < cp.channel_names.length ∧ 0 < cp.exposure_time.length) ∧
      (∀ c : Int, 0 ≤ c → c < cp.number_channels →
        c.toNat < cp.channel_names.length ∧ c.toNat < cp.exposure_time.length) ∧
      ∀ fmtFloat : Float32 → List Char,
        indexedOutOfBounds (cp.GetDetail fmtFloat) = false :=
  Exists.elim
    (Run.returns_of_ending
      (x := CaptureDataFrame.new (sampleReader smallFile kNoExceptionsMasked) 0 0)
      (by decide))
    (fun cp hcp =>
      have hb := new_builtFrom (sampleReader smallFile kNoExceptionsMasked) 0 0 cp hcp
      have h2 : cp.number_channels = 2 := Except.ok.inj (hb.number_channels.symm.trans rfl)
      ⟨cp, hcp, C19_detail_indices_in_bounds (sampleReader smallFile kNoExceptionsMasked) 0 0
        cp hcp (by rw [h2]; decide)⟩)

/-- The text `GetDetail` gives for the frame built on the sample reader, and what it does on
frames the constructor did not build: with 2 channels, or 1 channel, and empty vectors the
first access is past the end. -/
theorem GetDetail_on_samples :
    ((CaptureDataFrame.new (sampleReader smallFile kNoExceptionsMasked) 0 0).result.toOption.bind
        (fun cp => (cp.GetDetail sampleFloat).toOption)).isSome = true ∧
    indexedOutOfBounds
      ((frameOf (sampleReader smallFile kNoExceptionsMasked) 3 2 4 4 3).GetDetail sampleFloat)
      = true ∧
    indexedOutOfBounds
      ((frameOf (sampleReader smallFile kNoExceptionsMasked) 3 1 4 4 3).GetDetail sampleFloat)
      = true := by
  decide

/-! ## `CaptureDataFrame::GetElapsedString` -/

theorem GetElapsedString_of_defined (cp : CaptureDataFrame) (t : Int) (elapsed : Nat)
    (text : List Char) (ht : cp.timepoint_index = some t)
    (hread : cp.sb_read_file.GetElapsedTime cp.capture_index t = .ok elapsed)
    (htext : cp.elapsed_range_fmt.string (toSInt32 elapsed) = some text) :
    cp.GetElapsedString = ⟨[], .ok text⟩ := by
  unfold CaptureDataFrame.GetElapsedString
  simp only [Run.bind_eq]
  rw [ht, Run.ofDefined_some_bind, hread, Run.ofReader_ok_bind, htext]
  rfl

/-- C20: the width of the elapsed-time formatter of a constructed frame is the digit count
of the reader's elapsed time at timepoint `number_timepoints - 1`; hence, for every capture
with `number_timepoints ≥ 1` whose elapsed times are non-decreasing in the timepoint index
and are non-negative `int`s (at most `INT_MAX`), `GetElapsedString` returns, for every
`timepoint_index` in `[0, number_timepoints)`, a text of exactly that width. -/
theorem C20_elapsed_string_has_last_width (r : SBReadFile)
    (capture_index position_index : Int) (cp : CaptureDataFrame) (elapsedAt : Int → Nat)
    (hnew : (CaptureDataFrame.new r capture_index position_index).result = .ok cp)
    (hT1 : 1 ≤ cp.number_timepoints) (hTfit : cp.number_timepoints ≤ INT_MAX)
    (hread : ∀ t : Int, 0 ≤ t → t < cp.number_timepoints →
      r.GetElapsedTime capture_index t = .ok (elapsedAt t))
    (hmono : ∀ s t : Int, 0 ≤ s → s ≤ t → t < cp.number_timepoints →
      elapsedAt s ≤ elapsedAt t)
    (hfit : ∀ t : Int, 0 ≤ t → t < cp.number_timepoints → (elapsedAt t : Int) ≤ INT_MAX) :
    cp.elapsed_range_fmt.numDigits
      = some (((toDecimal (elapsedAt (cp.number_timepoints - 1))).length : Nat) : Int) ∧
    ∀ t : Int, 0 ≤ t → t < cp.number_timepoints →
      ∃ text, { cp with timepoint_index := some t }.GetElapsedString = ⟨[], .ok text⟩ ∧
        text.length = (toDecimal (elapsedAt (cp.number_timepoints - 1))).length := by
  have hb := new_builtFrom r capture_index position_index cp hnew
  obtain ⟨e, he, hfmt⟩ := hb.elapsed_range_fmt
  have hlast : toSInt32 (cp.number_timepoints - 1) = cp.number_timepoints - 1 :=
    toSInt32_of_range (by unfold INT_MIN; omega) (by omega)
  rw [hlast, hread _ (by omega) (by omega)] at he
  have hee : elapsedAt (cp.number_timepoints - 1) = e := Except.ok.inj he
  have hefit : (e : Int) ≤ INT_MAX := by
    rw [← hee]
    exact hfit _ (by omega) (by omega)
  have hse : toSInt32 (e : Int) = (e : Int) :=
    toSInt32_of_range (by unfold INT_MIN; omega) hefit
  rw [hse] at hfmt
  have hw := numDigits_of_fits (e : Int) 0 (by omega) (by omega)
  have hnat : ((e : Int) + 0).toNat = e := by omega
  rw [hnat] at hw
  rw [hee]
  refine ⟨by rw [hfmt]; exact hw, ?_⟩
  intro t ht0 ht
  have hle : elapsedAt t ≤ e := by
    rw [← hee]
    exact hmono t _ ht0 (by omega) (by omega)
  have hst : toSInt32 (elapsedAt t : Int) = (elapsedAt t : Int) :=
    toSInt32_of_range (by unfold INT_MIN; omega) (hfit t ht0 ht)
  have hstr := string_eq_fixedDigits (e : Int) 0 (elapsedAt t : Int) (by omega) (by omega)
    (by omega) (by omega)
  rw [hnat] at hstr
  refine ⟨fixedDigits (toDecimal e).length ((elapsedAt t : Int) + 0).toNat,
    GetElapsedString_of_defined _ t (elapsedAt t) _ rfl ?_ ?_, ?_⟩
  · show cp.sb_read_file.GetElapsedTime cp.capture_index t = .ok (elapsedAt t)
    rw [hb.sb_read_file, hb.capture_index]
    exact hread t ht0 ht
  · show cp.elapsed_range_fmt.string (toSInt32 (elapsedAt t : Int)) = _
    rw [hst, hfmt]
    exact hstr
  · exact fixedDigits_length _ _

/-- C20, an instance: the sample capture has 3 timepoints with elapsed times 0, 100 and
200; the width is 3 and the texts are `000`, `100`, `200`. -/
theorem C20_elapsed_string_witness :
    ((CaptureDataFrame.new (sampleReader smallFile kNoExceptionsMasked) 0 0).result.toOption.bind
        (fun cp => ((List.range 3).map (fun (t : Nat) =>
          ({ cp with timepoint_index := some (t : Int) }.GetElapsedString).result.toOption)).allSome)
      = some [['0', '0', '0'], ['1', '0', '0'], ['2', '0', '0']]) ∧
    ∃ cp, (CaptureDataFrame.new (sampleReader smallFile kNoExceptionsMasked) 0 0).result
        = .ok cp ∧
      cp.elapsed_range_fmt.numDigits
        = some (((toDecimal (smallFile.elapsed (cp.number_timepoints - 1))).length : Nat)
            : Int) ∧
      ∀ t : Int, 0 ≤ t → t < cp.number_timepoints →
        ∃ text, { cp with timepoint_index := some t }.GetElapsedString = ⟨[], .ok text⟩ ∧
          text.length = (toDecimal (smallFile.elapsed (cp.number_timepoints - 1))).length := by
  refine ⟨by decide, ?_⟩
  obtain ⟨cp, hcp⟩ := Run.returns_of_ending
    (x := CaptureDataFrame.new (sampleReader smallFile kNoExceptionsMasked) 0 0) (by decide)
  have hb := new_builtFrom (sampleReader smallFile kNoExceptionsMasked) 0 0 cp hcp
  have h3 : cp.number_timepoints = 3 := Except.ok.inj (hb.number_timepoints.symm.trans rfl)
  exact ⟨cp, hcp, C20_elapsed_string_has_last_width
    (sampleReader smallFile kNoExceptionsMasked) 0 0 cp smallFile.elapsed hcp
    (by rw [h3]; decide) (by rw [h3]; decide) (fun _ _ _ => rfl)
    (fun s t h0 hst _ => by
      show (100 * s).toNat ≤ (100 * t).toNat
      omega)
    (fun t h0 ht => by
      rw [h3] at ht
      show ((100 * t).toNat : Int) ≤ 2147483647
      omega)⟩

/-! ## `ConvertSBImages` on a reader that never fails -/

theorem readArgs_of_stringWork : ∀ l : List Event, (∀ ev ∈ l, ev.isStringWork) →
    readArgs l = [] := by
  intro l
  induction l with
  | nil => intro _; rfl
  | cons e rest ih =>
    intro h
    have he : e.isStringWork := h e (List.mem_cons_self _ _)
    have hrest : readArgs rest = [] := ih (fun ev hev => h ev (List.mem_cons_of_mem _ hev))
    cases e <;> first | exact hrest | exact False.elim he

theorem flatMap_range_congr {β : Type} (f g : Nat → List β) :
    ∀ n : Nat, (∀ k : Nat, k < n → f k = g k) →
      (List.range n).flatMap f = (List.range n).flatMap g := by
  intro n
  induction n with
  | zero => intro _; rfl
  | succ n ih =>
    intro h
    rw [List.range_succ, List.flatMap_append, List.flatMap_append,
      ih (fun k hk => h k (by omega))]
    simp only [List.flatMap_cons, List.flatMap_nil, List.append_nil]
    rw [h n (by omega)]

/-- One pass of the capture loop when the constructor returns the frame `cp`, the `int`
buffer size is not negative and no plane read raises: the constructor, the header, the
allocation, the whole traversal, the release. -/
theorem captureBody_ok (r : SBReadFile) (k : Int) (cp : CaptureDataFrame) (T C Z : Nat)
    (hnew : (CaptureDataFrame.new r k 0).result = .ok cp) (hsize : 0 ≤ bufferSizeOf cp)
    (hT : cp.number_timepoints = T) (hC : cp.number_channels = C) (hZ : cp.zDim = Z)
    (hok : ∀ t c z : Nat, t < T → c < C → z < Z →
      ∃ b, r.ReadImagePlaneBuf k 0 t (toUInt16 z) c = .ok b) :
    captureBody r k ()
      = ⟨(CaptureDataFrame.new r k 0).events
          ++ (.print (cp.GetHeader k cp.position_index ++ "\n".toList)
            :: .newPixels (bufferSizeOf cp).toNat
            :: (traversalEvents (planeSizeOf cp) k T C Z ++ [.deletePixels])),
         .ok ()⟩ := by
  obtain ⟨hev, s2, hres⟩ := traversal_ok r (planeSizeOf cp) k cp T C Z
    (by rw [hT]; rfl) (by rw [hC]; rfl) (by rw [hZ]; rfl) hok
  have htrav := Run.eq_of_parts hev hres
  have hunf : captureBody r k ()
      = Run.bind (CaptureDataFrame.new r k 0) (fun cp =>
          Run.bind (Run.emit (.print (cp.GetHeader k cp.position_index ++ "\n".toList)))
            (fun _ => if bufferSizeOf cp < 0 then Run.abort .uncaught
              else Run.bind (Run.emit (.newPixels (bufferSizeOf cp).toNat)) (fun _ =>
                Run.bind (traversal r (planeSizeOf cp) k cp) (fun _ =>
                  Run.emit .deletePixels)))) := rfl
  have hneg : ¬ bufferSizeOf cp < 0 := by omega
  rw [hunf, Run.bind_of_ok hnew, Run.emit_bind, if_neg hneg, Run.emit_bind, htrav]
  rfl

/-- `ConvertSBImages` when the reader opens, reports `n` captures and every pass of the
capture loop returns: the two lines, then the passes for the capture indices
`0, 1, ..., n-1`, each once, in this order. -/
theorem ConvertSBImages_ok
    (III_NewSBReadFile : Nat → Except Exception (Option SBReadFile)) (r : SBReadFile)
    (n : Nat) (hopen : III_NewSBReadFile kNoExceptionsMasked = .ok (some r))
    (hn : r.GetNumCaptures = .ok (n : Int))
    (hpass : ∀ k : Nat, k < n → (captureBody r (k : Int) ()).result = .ok ()) :
    ConvertSBImages III_NewSBReadFile
      = ⟨.print "sb file loaded\n".toList
          :: .print ("captures: ".toList ++ fmtInt (n : Int) ++ "\n".toList)
          :: (List.range n).flatMap (fun (k : Nat) => (captureBody r (k : Int) ()).events),
         .ok ()⟩ := by
  obtain ⟨hev, s2, hres, _⟩ := forInt_run_ok (captureBody r)
    (fun k => (captureBody r k ()).events) (fun _ => True) (n : Int) () trivial (by
      intro k hk s1 _
      have hk2 : k < n := by omega
      exact ⟨rfl, (), hpass k hk2, trivial⟩)
  have hnat : ((n : Int)).toNat = n := by omega
  rw [hnat] at hev
  have hloop := Run.eq_of_parts hev hres
  have hbody : ConvertSBImages.body III_NewSBReadFile
      = ⟨.print "sb file loaded\n".toList
          :: .print ("captures: ".toList ++ fmtInt (n : Int) ++ "\n".toList)
          :: (List.range n).flatMap (fun (k : Nat) => (captureBody r (k : Int) ()).events),
         .ok ()⟩ := by
    unfold ConvertSBImages.body
    rw [hopen]
    simp only [Run.bind_eq, Run.pure_eq]
    rw [Run.ofReader_ok_bind, Run.ofDefined_some_bind, Run.emit_bind, hn,
      Run.ofReader_ok_bind, Run.emit_bind, Run.ofReader_ok_bind, hloop]
  unfold ConvertSBImages
  simp only
  rw [hbody]

theorem length_flatMap_range {β : Type} (f : Nat → List β) (g : Nat → Nat) :
    ∀ n : Nat, (∀ k : Nat, k < n → (f k).length = g k) →
      ((List.range n).flatMap f).length = ((List.range n).map g).sum := by
  intro n
  induction n with
  | zero => intro _; rfl
  | succ n ih =>
    intro h
    rw [List.range_succ, List.flatMap_append, List.length_append, List.map_append,
      List.sum_append, ih (fun k hk => h k (by omega))]
    simp only [List.flatMap_cons, List.flatMap_nil, List.append_nil, List.map_cons,
      List.map_nil, List.sum_cons, List.sum_nil, Nat.add_zero]
    rw [h n (by omega)]

theorem captureReads_length (planeSize k : Int) (T C Z : Nat) :
    (captureReads planeSize k T C Z).length = T * C * Z := by
  unfold captureReads
  rw [List.length_map, lexTriples_length]

theorem captureReads_captures (planeSize k : Int) (T C Z : Nat) :
    (captureReads planeSize k T C Z).map (fun q => q.2.1) = List.replicate (T * C * Z) k := by
  unfold captureReads
  rw [List.map_map, ← lexTriples_length T C Z]
  exact List.map_const' _ _

/-- The plane reads of one pass of the capture loop that runs to its end. -/
theorem readArgs_captureBody (r : SBReadFile) (k : Int) (cp : CaptureDataFrame)
    (T C Z : Nat) (header : List Char) (size : Nat)
    (h : (captureBody r k ()).events
      = (CaptureDataFrame.new r k 0).events
        ++ (.print header :: .newPixels size
          :: (traversalEvents (planeSizeOf cp) k T C Z ++ [.deletePixels]))) :
    readArgs (captureBody r k ()).events = captureReads (planeSizeOf cp) k T C Z := by
  have hrest : readArgs (.print header :: .newPixels size
      :: (traversalEvents (planeSizeOf cp) k T C Z ++ [.deletePixels]))
      = readArgs (traversalEvents (planeSizeOf cp) k T C Z ++ [.deletePixels]) := rfl
  have hlast : readArgs [Event.deletePixels] = [] := rfl
  rw [h, readArgs_append, readArgs_of_stringWork _ (new_stringWork r k 0), hrest,
    readArgs_append, readArgs_traversalEvents, hlast, List.nil_append, List.append_nil]
  rfl

/-- C21, where no buffer size is negative: for every reader that reports `n ≥ 0` captures
and never fails, with non-negative counts `T k`, `C k`, `Z k` and pixel dimensions `X k`,
`Y k` for capture `k`, and the `int` product `X k * Y k * Z k` not negative for any
capture, `ConvertSBImages` runs to its end; after its two lines its events are the passes of
the capture loop for the capture indices `0, 1, ..., n-1`, each once, in increasing order;
the pass for `k` builds the frame with the constructor for capture `k` itself and then
traverses that capture; the plane reads are those of capture 0, then those of capture 1, and
so on, `T k * C k * Z k` reads with capture index `k` for each `k`, the sum of these in
total. -/
theorem C21_captures_in_order_when_size_not_negative
    (III_NewSBReadFile : Nat → Except Exception (Option SBReadFile)) (r : SBReadFile)
    (n : Nat) (T C Z X Y : Nat → Nat)
    (hopen : III_NewSBReadFile kNoExceptionsMasked = .ok (some r))
    (hnever : NeverFails r n)
    (hT : ∀ k : Nat, k < n → r.GetNumTimepoints (k : Int) = .ok ((T k : Nat) : Int))
    (hC : ∀ k : Nat, k < n → r.GetNumChannels (k : Int) = .ok ((C k : Nat) : Int))
    (hZ : ∀ k : Nat, k < n → r.GetNumZPlanes (k : Int) = .ok ((Z k : Nat) : Int))
    (hX : ∀ k : Nat, k < n → r.GetNumXColumns (k : Int) = .ok ((X k : Nat) : Int))
    (hY : ∀ k : Nat, k < n → r.GetNumYRows (k : Int) = .ok ((Y k : Nat) : Int))
    (hsize : ∀ k : Nat, k < n →
      0 ≤ toSInt32 (toSInt32 ((X k : Int) * (Y k : Int)) * (Z k : Int))) :
    (ConvertSBImages III_NewSBReadFile).ending = none ∧
    (ConvertSBImages III_NewSBReadFile).events
      = .print "sb file loaded\n".toList
        :: .print ("captures: ".toList ++ fmtInt (n : Int) ++ "\n".toList)
        :: (List.range n).flatMap (fun (k : Nat) => (captureBody r (k : Int) ()).events) ∧
    (∀ k : Nat, k < n → ∃ cp : CaptureDataFrame,
      (CaptureDataFrame.new r (k : Int) 0).result = .ok cp ∧
      (captureBody r (k : Int) ()).events
        = (CaptureDataFrame.new r (k : Int) 0).events
          ++ (.print (cp.GetHeader (k : Int) cp.position_index ++ "\n".toList)
            :: .newPixels (bufferSizeOf cp).toNat
            :: (traversalEvents (planeSizeOf cp) (k : Int) (T k) (C k) (Z k)
              ++ [.deletePixels]))) ∧
    readArgs (ConvertSBImages III_NewSBReadFile).events
      = (List.range n).flatMap (fun (k : Nat) =>
          captureReads (toSizeT (toSInt32 ((X k : Int) * (Y k : Int)))) (k : Int)
            (T k) (C k) (Z k)) ∧
    (readArgs (ConvertSBImages III_NewSBReadFile).events).map (fun q => q.2.1)
      = (List.range n).flatMap (fun (k : Nat) =>
          List.replicate (T k * C k * Z k) (k : Int)) ∧
    (readArgs (ConvertSBImages III_NewSBReadFile).events).length
      = ((List.range n).map (fun (k : Nat) => T k * C k * Z k)).sum := by
  have hper : ∀ k : Nat, k < n → ∃ cp : CaptureDataFrame,
      (CaptureDataFrame.new r (k : Int) 0).result = .ok cp ∧
      planeSizeOf cp = toSizeT (toSInt32 ((X k : Int) * (Y k : Int))) ∧
      captureBody r (k : Int) ()
        = ⟨(CaptureDataFrame.new r (k : Int) 0).events
            ++ (.print (cp.GetHeader (k : Int) cp.position_index ++ "\n".toList)
              :: .newPixels (bufferSizeOf cp).toNat
              :: (traversalEvents (planeSizeOf cp) (k : Int) (T k) (C k) (Z k)
                ++ [.deletePixels])),
           .ok ()⟩ := by
    intro k hk
    obtain ⟨cp, hcp⟩ := new_returns r (k : Int) 0 (hnever.constructible k hk)
    have hb := new_builtFrom r (k : Int) 0 cp hcp
    have hcT : cp.number_timepoints = T k :=
      Except.ok.inj (hb.number_timepoints.symm.trans (hT k hk))
    have hcC : cp.number_channels = C k :=
      Except.ok.inj (hb.number_channels.symm.trans (hC k hk))
    have hcZ : cp.zDim = Z k := Except.ok.inj (hb.zDim.symm.trans (hZ k hk))
    have hcX : cp.xDim = X k := Except.ok.inj (hb.xDim.symm.trans (hX k hk))
    have hcY : cp.yDim = Y k := Except.ok.inj (hb.yDim.symm.trans (hY k hk))
    have hbuf : 0 ≤ bufferSizeOf cp := by
      unfold bufferSizeOf
      rw [hcX, hcY, hcZ]
      exact hsize k hk
    have hps : planeSizeOf cp = toSizeT (toSInt32 ((X k : Int) * (Y k : Int))) := by
      unfold planeSizeOf
      rw [hcX, hcY]
    exact ⟨cp, hcp, hps, captureBody_ok r (k : Int) cp (T k) (C k) (Z k) hcp hbuf hcT hcC hcZ
      (fun t c z _ _ _ => hnever.reads _ _ _ _ _)⟩
  have hrun := ConvertSBImages_ok III_NewSBReadFile r n hopen hnever.captures (by
    intro k hk
    obtain ⟨cp, _, _, hbody⟩ := hper k hk
    rw [hbody])
  have hargs : readArgs (ConvertSBImages III_NewSBReadFile).events
      = (List.range n).flatMap (fun (k : Nat) =>
          captureReads (toSizeT (toSInt32 ((X k : Int) * (Y k : Int)))) (k : Int)
            (T k) (C k) (Z k)) := by
    rw [hrun]
    have hskip : ∀ (a b : List Char) (rest : List Event),
        readArgs (.print a :: .print b :: rest) = readArgs rest := fun _ _ _ => rfl
    simp only
    rw [hskip, readArgs_flatMap]
    refine flatMap_range_congr _ _ n ?_
    intro k hk
    obtain ⟨cp, _, hps, hbody⟩ := hper k hk
    rw [← hps]
    exact readArgs_captureBody r (k : Int) cp (T k) (C k) (Z k) _ _ (by rw [hbody])
  refine ⟨?_, ?_, ?_, hargs, ?_, ?_⟩
  · rw [hrun]
    rfl
  · rw [hrun]
  · intro k hk
    obtain ⟨cp, hcp, _, hbody⟩ := hper k hk
    exact ⟨cp, hcp, by rw [hbody]⟩
  · rw [hargs, List.map_flatMap]
    refine flatMap_range_congr _ _ n ?_
    intro k _
    exact captureReads_captures _ _ _ _ _
  · rw [hargs]
    exact length_flatMap_range _ _ n (fun k _ => captureReads_length _ _ _ _ _)

/-- The sample reader over the file with two captures never fails. -/
theorem pairFile_neverFails : NeverFails (sampleReader pairFile kNoExceptionsMasked) 2 where
  captures := rfl
  constructible := fun k _ =>
    { numCaptures := ⟨_, rfl⟩
      numPositions := ⟨_, rfl⟩
      numChannels := ⟨_, rfl⟩
      numTimepoints := ⟨_, rfl⟩
      xColumns := ⟨_, rfl⟩
      yRows := ⟨_, rfl⟩
      zPlanes := ⟨_, rfl⟩
      strings := by
        intro g
        cases g <;>
          exact ⟨⟨3, []⟩, rfl, fun _ => ⟨⟨3, ['a', 'b', NUL]⟩, rfl, by decide, by decide⟩⟩
      elapsed := fun _ => ⟨_, rfl⟩
      voxel := ⟨_, rfl⟩
      channelStrings := by
        intro g i
        cases g
        have hfit : 2 ≤ (toSInt32 ((2 : Nat) : Int)).toNat := by decide
        exact ⟨⟨2, []⟩, rfl, fun _ => ⟨⟨2, [Char.ofNat (65 + i.toNat), NUL]⟩, rfl, hfit,
          List.mem_cons_of_mem _ (List.mem_singleton.mpr rfl)⟩⟩
      exposure := fun _ => ⟨_, rfl⟩ }
  reads := fun _ _ _ _ _ => ⟨true, rfl⟩

/-- C21, where no buffer size is negative, on the sample file with two captures of
3 timepoints, 2 channels and 3 planes of 4 x 4 pixels: the run ends normally, the passes
are those for the captures 0 and 1, and the 36 plane reads are the 18 of capture 0 followed
by the 18 of capture 1. -/
theorem C21_captures_in_order_witness :
    (ConvertSBImages (openSample pairFile)).ending = none ∧
    (ConvertSBImages (openSample pairFile)).events
      = .print "sb file loaded\n".toList
        :: .print ("captures: ".toList ++ fmtInt ((2 : Nat) : Int) ++ "\n".toList)
        :: (List.range 2).flatMap (fun (k : Nat) =>
            (captureBody (sampleReader pairFile kNoExceptionsMasked) (k : Int) ()).events) ∧
    (∀ k : Nat, k < 2 → ∃ cp : CaptureDataFrame,
      (CaptureDataFrame.new (sampleReader pairFile kNoExceptionsMasked) (k : Int) 0).result
        = .ok cp ∧
      (captureBody (sampleReader pairFile kNoExceptionsMasked) (k : Int) ()).events
        = (CaptureDataFrame.new (sampleReader pairFile kNoExceptionsMasked) (k : Int) 0).events
          ++ (.print (cp.GetHeader (k : Int) cp.position_index ++ "\n".toList)
            :: .newPixels (bufferSizeOf cp).toNat
            :: (traversalEvents (planeSizeOf cp) (k : Int) 3 2 3 ++ [.deletePixels]))) ∧
    readArgs (ConvertSBImages (openSample pairFile)).events
      = (List.range 2).flatMap (fun (k : Nat) =>
          captureReads (toSizeT (toSInt32 (((4 : Nat) : Int) * ((4 : Nat) : Int)))) (k : Int)
            3 2 3) ∧
    (readArgs (ConvertSBImages (openSample pairFile)).events).map (fun q => q.2.1)
      = (List.range 2).flatMap (fun (k : Nat) => List.replicate (3 * 2 * 3) (k : Int)) ∧
    (readArgs (ConvertSBImages (openSample pairFile)).events).length
      = ((List.range 2).map (fun (_ : Nat) => 3 * 2 * 3)).sum :=
  C21_captures_in_order_when_size_not_negative (openSample pairFile)
    (sampleReader pairFile kNoExceptionsMasked) 2 (fun _ => 3) (fun _ => 2) (fun _ => 3)
    (fun _ => 4) (fun _ => 4) rfl pairFile_neverFails (fun _ _ => rfl) (fun _ _ => rfl)
    (fun _ _ => rfl) (fun _ _ => rfl) (fun _ _ => rfl)
    (fun _ _ => (by decide :
      (0 : Int) ≤ toSInt32 (toSInt32 (((4 : Nat) : Int) * ((4 : Nat) : Int)) * ((3 : Nat) : Int))))

/-- C21, the failing input: a file with two captures, each of 2048 x 2048 pixels and 512
planes (`2^31` samples), one timepoint, one channel, on a reader that never fails. The
claim asks for the passes of the captures 0 and 1 and `512 + 512` plane reads. The `int`
product `xDim * yDim * zDim` is `-2^31`: the run ends in the pass for capture 0 with the
exception of `new UInt16[bufferSize]`, which no handler catches; no buffer is allocated, no
plane is read, and the pass for capture 1 never starts (the only header printed is the one
of capture 0). -/
theorem C21_failing_input_negative_buffer_size :
    toSInt32 (toSInt32 (2048 * 2048) * 512) = -2147483648 ∧
    ((List.range 2).map (fun (_ : Nat) => 1 * 1 * 512)).sum = 1024 ∧
    (ConvertSBImages (openSample bigFile)).ending = some .uncaught ∧
    pixelBuffers (ConvertSBImages (openSample bigFile)).events = [] ∧
    readArgs (ConvertSBImages (openSample bigFile)).events = [] ∧
    printed (ConvertSBImages (openSample bigFile)).events
      = ["sb file loaded\n".toList, "captures: 2\n".toList,
         "capture 1 of 2 : position 1 of 1, time points: 1, channels: 1\n".toList] := by
  decide

end SBLoader
